import Mathlib

/-!
# SIM800L driver (`Core/Src/sim800l.c`): shallow embedding and verified properties

The driver talks to the modem through three HAL primitives: `HAL_UART_Transmit`,
`HAL_UART_Receive` and `HAL_GetTick`.  The embedding models the environment as an
oracle `World` (what the n-th tick read and the n-th byte receive yield) and threads
an explicit state `St` (how many ticks and receives were consumed, and the transmit
trace) through every function.  Since the program is deterministic, every reactive
transport corresponds to one such oracle on a given run.

The two polling loops have no static bound, so they take a `fuel` argument (maximal
number of loop iterations); `none` means the fuel ran out.
-/

namespace SIM800

/-! ## Environment -/

/-- Transport and clock oracle: `tick n` is what the n-th call of `HAL_GetTick` yields
(it is reduced modulo 2^32 when read), `recv n` is the outcome of the n-th call of
`HAL_UART_Receive` for one byte: `some c` for `HAL_OK` with byte `c` (reduced modulo
256 when read), `none` for any other status. -/
structure World where
  tick : Nat → Nat
  recv : Nat → Option Nat

/-- One call of `HAL_UART_Transmit`: the bytes handed to the transport, stamped with the
number of `HAL_UART_Receive` calls made before it (ghost field used to order transmits
against receives). -/
structure TxRecord where
  stamp : Nat
  data : List Nat
  deriving DecidableEq, Repr

/-- Driver-visible state of the environment: number of tick reads and of byte receives
made so far, and the trace of transmit calls (oldest first). -/
structure St where
  nTick : Nat
  nRecv : Nat
  tx : List TxRecord
  deriving DecidableEq, Repr

/-- Payloads of the transmit calls, oldest first. -/
def St.sent (s : St) : List (List Nat) := s.tx.map TxRecord.data

/-- Modelled from the spec: the header `sim800l.h` with the declaration of the enum
`SIM800_Result` is not among the sources; the spec describes a two-valued result
(success / timeout-or-failure), and the source uses exactly these two enumerators. -/
inductive SIM800_Result where
  | SIM800_OK
  | SIM800_TIMEOUT
  deriving DecidableEq, Repr

open SIM800_Result

/-- Value of the n-th tick read, as a `uint32_t`. -/
def tickAt (w : World) (n : Nat) : Nat := w.tick n % 2 ^ 32

/-- Outcome of the n-th byte receive, the byte as a `uint8_t`. -/
def recvAt (w : World) (n : Nat) : Option Nat := (w.recv n).map (fun c => c % 256)

/-- Model of `HAL_GetTick()`. -/
def HAL_GetTick (w : World) (s : St) : Nat × St :=
  (tickAt w s.nTick, { s with nTick := s.nTick + 1 })

/-- Model of `HAL_UART_Receive(&huart2, &c, 1, t)`: `some c` stands for `HAL_OK`. -/
def HAL_UART_Receive (w : World) (s : St) : Option Nat × St :=
  (recvAt w s.nRecv, { s with nRecv := s.nRecv + 1 })

/-- Model of `HAL_UART_Transmit(&huart2, data, len, 1000)`, with `data` the `len` bytes handed
over.  The driver ignores the returned status. -/
def HAL_UART_Transmit (data : List Nat) (s : St) : St :=
  { s with tx := s.tx ++ [⟨s.nRecv, data⟩] }

/-- The difference `now - start` on `uint32_t` operands. -/
def elapsed (now start : Nat) : Nat := (now + 2 ^ 32 - start) % 2 ^ 32

/-! ## C strings -/

/-- Bytes of a string literal. -/
def lit (s : String) : List Nat := s.toList.map Char.toNat

/-- Content of the C string stored in `mem`: the bytes before the first NUL. -/
def cstr (mem : List Nat) : List Nat := mem.takeWhile (fun b => b ≠ 0)

/-- Model of `strlen(s)`. -/
def strlen (s : List Nat) : Nat := (cstr s).length

/-- Search of `needle` at the start of every suffix of `hay` (both plain byte lists). -/
def findSub (needle : List Nat) : List Nat → Bool
  | [] => needle.isEmpty
  | h :: t => needle.isPrefixOf (h :: t) || findSub needle t

/-- Model of `strstr(hay, needle) != NULL`: the content of the C string `needle` occurs in the
content of the C string `hay`. -/
def strstr (hay needle : List Nat) : Bool := findSub (cstr needle) (cstr hay)

/-- Model of `snprintf(cmd, size, fmt, ...)` followed by reading `cmd` back as a C string:
`full` is the complete expansion of the format, of which at most `size - 1` bytes are
stored before the terminating NUL. -/
def snprintf (size : Nat) (full : List Nat) : List Nat := full.take (size - 1)

/-- Decimal digits of `n` as bytes (`%u`). -/
def fmtU (n : Nat) : List Nat := (Nat.toDigits 10 n).map Char.toNat

/-! ## Low-level helpers -/

def SIM800_RX_TMP_LEN : Nat := 256

/-- Model of `SIM800_SendString`: transmits `(uint16_t)strlen(s)` bytes starting at `s`. -/
def SIM800_SendString (s : List Nat) (st : St) : St :=
  HAL_UART_Transmit (s.take (strlen s % 2 ^ 16)) st

/-- Model of `SIM800_SendData`. -/
def SIM800_SendData (data : List Nat) (len : Nat) (st : St) : St :=
  HAL_UART_Transmit (data.take len) st

/-- Local variables of the loop of `SIM800_WaitFor`. -/
structure WaitState where
  st : St
  buf : List Nat
  idx : Nat
  deriving DecidableEq, Repr

/-- One evaluation of the `while` condition of `SIM800_WaitFor` followed, when it holds,
by one run of the loop body.  `Sum.inl` is a `return`, `Sum.inr` the state at the next
evaluation of the loop condition. -/
def SIM800_WaitFor.body (w : World) (expected : List Nat) (timeout_ms start : Nat)
    (ws : WaitState) : (SIM800_Result × St) ⊕ WaitState :=
  let t := HAL_GetTick w ws.st
  if elapsed t.1 start < timeout_ms then
    let r := HAL_UART_Receive w t.2
    match r.1 with
    | some c =>
      let ws1 : WaitState :=
        if ws.idx < SIM800_RX_TMP_LEN - 1 then
          { st := r.2, buf := (ws.buf.set ws.idx c).set ((ws.idx + 1) % 2 ^ 16) 0,
            idx := (ws.idx + 1) % 2 ^ 16 }
        else { ws with st := r.2 }
      if strstr ws1.buf expected then Sum.inl (SIM800_OK, ws1.st) else Sum.inr ws1
    | none => Sum.inr { ws with st := r.2 }
  else Sum.inl (SIM800_TIMEOUT, t.2)

/-- The `while` loop of `SIM800_WaitFor`, at most `fuel` iterations. -/
def SIM800_WaitFor.loop (w : World) (expected : List Nat) (timeout_ms start : Nat) :
    Nat → WaitState → Option (SIM800_Result × St)
  | 0, _ => none
  | fuel + 1, ws =>
    match SIM800_WaitFor.body w expected timeout_ms start ws with
    | Sum.inl r => some r
    | Sum.inr ws1 => SIM800_WaitFor.loop w expected timeout_ms start fuel ws1

/-- Loop state of `SIM800_WaitFor` at the n-th evaluation of the loop condition (counted
from 0), `none` when the loop has returned before. -/
def SIM800_WaitFor.iter (w : World) (expected : List Nat) (timeout_ms start : Nat) :
    Nat → WaitState → Option WaitState
  | 0, ws => some ws
  | n + 1, ws =>
    match SIM800_WaitFor.body w expected timeout_ms start ws with
    | Sum.inl _ => none
    | Sum.inr ws1 => SIM800_WaitFor.iter w expected timeout_ms start n ws1

/-- State of `SIM800_WaitFor` when it reaches its loop: `idx = 0`, `start` read, `buf`
cleared by `memset`. -/
def SIM800_WaitFor.init (w : World) (s : St) : Nat × WaitState :=
  let t := HAL_GetTick w s
  (t.1, { st := t.2, buf := List.replicate SIM800_RX_TMP_LEN 0, idx := 0 })

/-- Model of `SIM800_WaitFor(expected, timeout_ms)`. -/
def SIM800_WaitFor (w : World) (fuel : Nat) (expected : List Nat) (timeout_ms : Nat)
    (s : St) : Option (SIM800_Result × St) :=
  let i := SIM800_WaitFor.init w s
  SIM800_WaitFor.loop w expected timeout_ms i.1 fuel i.2

/-- Model of `SIM800_SendCmdWait(cmd, expected, timeout_ms)`. -/
def SIM800_SendCmdWait (w : World) (fuel : Nat) (cmd expected : List Nat)
    (timeout_ms : Nat) (s : St) : Option (SIM800_Result × St) :=
  SIM800_WaitFor w fuel expected timeout_ms (SIM800_SendString cmd s)

/-! ## Public API -/

/-- Model of `SIM800_Init`.  `HAL_Delay(1000)` has no effect on the modelled state. -/
def SIM800_Init (w : World) (fuel : Nat) (s : St) : Option (SIM800_Result × St) :=
  (SIM800_SendCmdWait w fuel (lit "AT\r\n") (lit "OK") 1000 s).bind fun r1 =>
  if r1.1 ≠ SIM800_OK then some r1 else
  (SIM800_SendCmdWait w fuel (lit "ATE0\r\n") (lit "OK") 1000 r1.2).bind fun r2 =>
  if r2.1 ≠ SIM800_OK then some r2 else
  (SIM800_SendCmdWait w fuel (lit "AT+CMGF=1\r\n") (lit "OK") 1000 r2.2).bind fun r3 =>
  if r3.1 ≠ SIM800_OK then some r3 else
  (SIM800_SendCmdWait w fuel (lit "AT+CSCS=\"GSM\"\r\n") (lit "OK") 1000 r3.2).bind fun r4 =>
  some (SIM800_OK, r4.2)

/-- Model of `SIM800_Call`. -/
def SIM800_Call (w : World) (fuel : Nat) (number : List Nat) (s : St) :
    Option (SIM800_Result × St) :=
  SIM800_SendCmdWait w fuel (snprintf 64 (lit "ATD" ++ cstr number ++ lit ";\r\n"))
    (lit "OK") 10000 s

/-- Model of `SIM800_HangUp`. -/
def SIM800_HangUp (w : World) (fuel : Nat) (s : St) : Option (SIM800_Result × St) :=
  SIM800_SendCmdWait w fuel (lit "ATH\r\n") (lit "OK") 3000 s

/-- The command built by `snprintf(cmd, sizeof(cmd), "AT+CMGS=\"%s\"\r\n", number)`. -/
def cmgsCmd (number : List Nat) : List Nat :=
  snprintf 64 (lit "AT+CMGS=\"" ++ cstr number ++ lit "\"\r\n")

/-- Model of `SIM800_SendSMS`. -/
def SIM800_SendSMS (w : World) (fuel : Nat) (number text : List Nat) (s : St) :
    Option (SIM800_Result × St) :=
  (SIM800_SendCmdWait w fuel (lit "AT+CMGF=1\r\n") (lit "OK") 1000 s).bind fun r1 =>
  if r1.1 ≠ SIM800_OK then some r1 else
  (SIM800_WaitFor w fuel (lit ">") 3000 (SIM800_SendString (cmgsCmd number) r1.2)).bind
    fun r2 =>
  if r2.1 ≠ SIM800_OK then some r2 else
  SIM800_WaitFor w fuel (lit "OK") 15000
    (SIM800_SendData [0x1A] 1 (SIM800_SendString text r2.2))

/-- The command built by `snprintf(cmd, sizeof(cmd), "AT+SAPBR=3,1,\"<key>\",\"%s\"\r\n", v)`
in `SIM800_SetupGPRS` (`cmd` has 96 bytes). -/
def sapbrCmd (key v : List Nat) : List Nat :=
  snprintf 96 (lit "AT+SAPBR=3,1,\"" ++ key ++ lit "\",\"" ++ cstr v ++ lit "\"\r\n")

/-- The test `p && p[0] != '\0'` on an optional C string (`none` is `NULL`). -/
def nonEmptyArg (p : Option (List Nat)) : Bool :=
  match p with
  | none => false
  | some v => decide (v.headD 0 ≠ 0)

/-- Model of `SIM800_SetupGPRS`; `user` and `pwd` may be `NULL` (`none`). -/
def SIM800_SetupGPRS (w : World) (fuel : Nat) (apn : List Nat) (user pwd : Option (List Nat))
    (s : St) : Option (SIM800_Result × St) :=
  (SIM800_SendCmdWait w fuel (lit "AT+SAPBR=3,1,\"Contype\",\"GPRS\"\r\n") (lit "OK") 2000
    s).bind fun r1 =>
  if r1.1 ≠ SIM800_OK then some r1 else
  (SIM800_SendCmdWait w fuel (sapbrCmd (lit "APN") apn) (lit "OK") 2000 r1.2).bind fun r2 =>
  if r2.1 ≠ SIM800_OK then some r2 else
  (if nonEmptyArg user then
      SIM800_SendCmdWait w fuel (sapbrCmd (lit "USER") (user.getD [])) (lit "OK") 2000 r2.2
    else some r2).bind fun r3 =>
  if r3.1 ≠ SIM800_OK then some r3 else
  (if nonEmptyArg pwd then
      SIM800_SendCmdWait w fuel (sapbrCmd (lit "PWD") (pwd.getD [])) (lit "OK") 2000 r3.2
    else some r3).bind fun r4 =>
  if r4.1 ≠ SIM800_OK then some r4 else
  (SIM800_SendCmdWait w fuel (lit "AT+SAPBR=1,1\r\n") (lit "OK") 10000 r4.2).bind fun r5 =>
  if r5.1 ≠ SIM800_OK then some r5 else
  some (SIM800_OK, r5.2)

/-! ## HTTP -/

/-- The caller's response buffer: its bytes, and (ghost) the log of every store made
through the pointer `response`, as pairs (index, value), oldest first. -/
structure RespBuf where
  mem : List Nat
  writes : List (Nat × Nat)
  deriving DecidableEq, Repr

/-- The store `response[i] = v`. -/
def RespBuf.poke (b : RespBuf) (i v : Nat) : RespBuf :=
  { mem := b.mem.set i v, writes := b.writes ++ [(i, v)] }

/-- Model of `memset(response, 0, n)`: stores at the indices `0 .. n-1`. -/
def RespBuf.memset0 (b : RespBuf) (n : Nat) : RespBuf :=
  (List.range n).foldl (fun acc i => acc.poke i 0) b

/-- Local variables of the loop of `SIM800_HTTPRead`; `resp = none` is a `NULL` pointer. -/
structure ReadState where
  st : St
  resp : Option RespBuf
  idx : Nat
  deriving DecidableEq, Repr

/-- The statement `if (HAL_UART_Receive(...) == HAL_OK) { ... } else { }` of the loop of
`SIM800_HTTPRead`, `r` being the outcome of the receive.  The comparison
`idx < (maxLen - 1)` is made on `int`. -/
def SIM800_HTTPRead.store (maxLen : Nat) (rs : ReadState) (r : Option Nat × St) :
    ReadState :=
  match r.1, rs.resp with
  | some c, some b =>
    if (rs.idx : Int) < (maxLen : Int) - 1 then
      { st := r.2,
        resp := some ((b.poke rs.idx c).poke ((rs.idx + 1) % 2 ^ 16) 0),
        idx := (rs.idx + 1) % 2 ^ 16 }
    else { rs with st := r.2 }
  | _, _ => { rs with st := r.2 }

/-- One evaluation of the `while` condition of `SIM800_HTTPRead` followed, when it holds,
by one run of the loop body.  `Sum.inl` is leaving the loop (condition false, or `break`),
`Sum.inr` the state at the next evaluation of the condition. -/
def SIM800_HTTPRead.body (w : World) (maxLen start : Nat) (rs : ReadState) :
    ReadState ⊕ ReadState :=
  let t := HAL_GetTick w rs.st
  if elapsed t.1 start < 10000 then
    let rs1 := SIM800_HTTPRead.store maxLen rs (HAL_UART_Receive w t.2)
    match rs1.resp with
    | some b => if strstr b.mem (lit "\r\nOK\r\n") then Sum.inl rs1 else Sum.inr rs1
    | none => Sum.inr rs1
  else Sum.inl { rs with st := t.2 }

/-- The `while` loop of `SIM800_HTTPRead`, at most `fuel` iterations; yields the state in
which the loop is left. -/
def SIM800_HTTPRead.loop (w : World) (maxLen start : Nat) :
    Nat → ReadState → Option ReadState
  | 0, _ => none
  | fuel + 1, rs =>
    match SIM800_HTTPRead.body w maxLen start rs with
    | Sum.inl r => some r
    | Sum.inr rs1 => SIM800_HTTPRead.loop w maxLen start fuel rs1

/-- Loop state of `SIM800_HTTPRead` at the n-th evaluation of the loop condition, `none`
when the loop has been left before. -/
def SIM800_HTTPRead.iter (w : World) (maxLen start : Nat) :
    Nat → ReadState → Option ReadState
  | 0, rs => some rs
  | n + 1, rs =>
    match SIM800_HTTPRead.body w maxLen start rs with
    | Sum.inl _ => none
    | Sum.inr rs1 => SIM800_HTTPRead.iter w maxLen start n rs1

/-- The response buffer after `if (response && maxLen > 0) memset(response, 0, maxLen)`. -/
def SIM800_HTTPRead.cleared (response : Option RespBuf) (maxLen : Nat) : Option RespBuf :=
  response.map fun b => if maxLen > 0 then b.memset0 maxLen else b

/-- Model of `SIM800_HTTPRead(response, maxLen)`; yields the result, the response buffer and the
environment state. -/
def SIM800_HTTPRead (w : World) (fuel : Nat) (response : Option RespBuf) (maxLen : Nat)
    (s : St) : Option (SIM800_Result × Option RespBuf × St) :=
  let t := HAL_GetTick w s
  let resp0 := SIM800_HTTPRead.cleared response maxLen
  let s1 := SIM800_SendString (lit "AT+HTTPREAD\r\n") t.2
  (SIM800_WaitFor w fuel (lit "+HTTPREAD:") 3000 s1).bind fun r0 =>
  (SIM800_HTTPRead.loop w maxLen t.1 fuel { st := r0.2, resp := resp0, idx := 0 }).bind
    fun rs => some (SIM800_OK, rs.resp, rs.st)

/-- The command built by `snprintf(cmd, sizeof(cmd), "AT+HTTPPARA=\"<key>\",\"%s\"\r\n", v)`
with `size = sizeof(cmd)`. -/
def httpParaCmd (size : Nat) (key v : List Nat) : List Nat :=
  snprintf size (lit "AT+HTTPPARA=\"" ++ key ++ lit "\",\"" ++ cstr v ++ lit "\"\r\n")

/-- The label `http_end` / `http_post_end`: final session termination, then `return res`. -/
def http_end (w : World) (fuel : Nat) (res : SIM800_Result) (response : Option RespBuf)
    (s : St) : Option (SIM800_Result × Option RespBuf × St) :=
  (SIM800_SendCmdWait w fuel (lit "AT+HTTPTERM\r\n") (lit "OK") 2000 s).bind fun r =>
  some (res, response, r.2)

/-- Model of `SIM800_HTTPGet`. -/
def SIM800_HTTPGet (w : World) (fuel : Nat) (url : List Nat) (response : Option RespBuf)
    (maxLen : Nat) (s : St) : Option (SIM800_Result × Option RespBuf × St) :=
  (SIM800_SendCmdWait w fuel (lit "AT+HTTPTERM\r\n") (lit "OK") 1000 s).bind fun r0 =>
  (SIM800_SendCmdWait w fuel (lit "AT+HTTPINIT\r\n") (lit "OK") 2000 r0.2).bind fun r1 =>
  if r1.1 ≠ SIM800_OK then some (r1.1, response, r1.2) else
  (SIM800_SendCmdWait w fuel (lit "AT+HTTPPARA=\"CID\",1\r\n") (lit "OK") 2000 r1.2).bind
    fun r2 =>
  if r2.1 ≠ SIM800_OK then http_end w fuel r2.1 response r2.2 else
  (SIM800_SendCmdWait w fuel (httpParaCmd 128 (lit "URL") url) (lit "OK") 3000 r2.2).bind
    fun r3 =>
  if r3.1 ≠ SIM800_OK then http_end w fuel r3.1 response r3.2 else
  (SIM800_SendCmdWait w fuel (lit "AT+HTTPACTION=0\r\n") (lit "HTTPACTION:") 15000
    r3.2).bind fun r4 =>
  if r4.1 ≠ SIM800_OK then http_end w fuel r4.1 response r4.2 else
  (SIM800_HTTPRead w fuel response maxLen r4.2).bind fun r5 =>
  http_end w fuel r5.1 r5.2.1 r5.2.2

/-- The command built by `snprintf(cmd, sizeof(cmd), "AT+HTTPDATA=%u,10000\r\n", bodyLen)`. -/
def httpDataCmd (bodyLen : Nat) : List Nat :=
  snprintf 160 (lit "AT+HTTPDATA=" ++ fmtU bodyLen ++ lit ",10000\r\n")

/-- Model of `SIM800_HTTPPost`; `bodyLen = (uint16_t)strlen(body)`. -/
def SIM800_HTTPPost (w : World) (fuel : Nat) (url contentType body : List Nat)
    (response : Option RespBuf) (maxLen : Nat) (s : St) :
    Option (SIM800_Result × Option RespBuf × St) :=
  let bodyLen := strlen body % 2 ^ 16
  (SIM800_SendCmdWait w fuel (lit "AT+HTTPTERM\r\n") (lit "OK") 1000 s).bind fun r0 =>
  (SIM800_SendCmdWait w fuel (lit "AT+HTTPINIT\r\n") (lit "OK") 2000 r0.2).bind fun r1 =>
  if r1.1 ≠ SIM800_OK then some (r1.1, response, r1.2) else
  (SIM800_SendCmdWait w fuel (lit "AT+HTTPPARA=\"CID\",1\r\n") (lit "OK") 2000 r1.2).bind
    fun r2 =>
  if r2.1 ≠ SIM800_OK then http_end w fuel r2.1 response r2.2 else
  (SIM800_SendCmdWait w fuel (httpParaCmd 160 (lit "URL") url) (lit "OK") 3000 r2.2).bind
    fun r3 =>
  if r3.1 ≠ SIM800_OK then http_end w fuel r3.1 response r3.2 else
  (SIM800_SendCmdWait w fuel (httpParaCmd 160 (lit "CONTENT") contentType) (lit "OK") 3000
    r3.2).bind fun r4 =>
  if r4.1 ≠ SIM800_OK then http_end w fuel r4.1 response r4.2 else
  (SIM800_SendCmdWait w fuel (httpDataCmd bodyLen) (lit "DOWNLOAD") 5000 r4.2).bind fun r5 =>
  if r5.1 ≠ SIM800_OK then http_end w fuel r5.1 response r5.2 else
  (SIM800_WaitFor w fuel (lit "OK") 10000 (SIM800_SendString body r5.2)).bind fun r6 =>
  if r6.1 ≠ SIM800_OK then http_end w fuel r6.1 response r6.2 else
  (SIM800_SendCmdWait w fuel (lit "AT+HTTPACTION=1\r\n") (lit "HTTPACTION:") 20000
    r6.2).bind fun r7 =>
  if r7.1 ≠ SIM800_OK then http_end w fuel r7.1 response r7.2 else
  (SIM800_HTTPRead w fuel response maxLen r7.2).bind fun r8 =>
  http_end w fuel r8.1 r8.2.1 r8.2.2

/-! ## Specification-level notions -/

/-- Bytes delivered by the first `k` receive calls made from receive index `n0` on
(failed receives deliver nothing). -/
def rxBytes (w : World) (n0 k : Nat) : List Nat :=
  (List.range k).filterMap fun i => recvAt w (n0 + i)

/-- Content of the 256-byte scan buffer of `SIM800_WaitFor` once the bytes `bytes` were
received: the first 255 of them, then NUL bytes. -/
def scanBuf (bytes : List Nat) : List Nat :=
  bytes.take 255 ++ List.replicate (256 - (bytes.take 255).length) 0

/-- Loop state of a wait started in state `s` at the k-th evaluation of its loop
condition, in closed form. -/
def waitStateAt (w : World) (s : St) (k : Nat) : WaitState :=
  { st := { nTick := s.nTick + 1 + k, nRecv := s.nRecv + k, tx := s.tx },
    buf := scanBuf (rxBytes w s.nRecv k),
    idx := ((rxBytes w s.nRecv k).take 255).length }

/-- Elapsed time seen by the k-th evaluation of the loop condition of a wait started in
state `s` (`start` is the tick read number `s.nTick`). -/
def elapsedAt (w : World) (s : St) (k : Nat) : Nat :=
  elapsed (tickAt w (s.nTick + 1 + k)) (tickAt w s.nTick)

/-- The k-th receive of a wait started in state `s` succeeds and the search then finds
`expected` in the scan buffer. -/
def seenAt (w : World) (expected : List Nat) (s : St) (k : Nat) : Bool :=
  (recvAt w (s.nRecv + k)).isSome && strstr (scanBuf (rxBytes w s.nRecv (k + 1))) expected

/-- The computation `m` (a function of the fuel) returns `a` with every sufficiently
large fuel. -/
def Returns {α : Type} (m : Nat → Option α) (a : α) : Prop :=
  ∃ f0, ∀ f, f0 ≤ f → m f = some a

/-- State in which a wait started in `s` returns `SIM800_TIMEOUT` at the k-th evaluation
of the loop condition. -/
def stTimeout (s : St) (k : Nat) : St :=
  { nTick := s.nTick + 2 + k, nRecv := s.nRecv + k, tx := s.tx }

/-- State in which a wait started in `s` returns `SIM800_OK` after its k-th receive
(counted from 0). -/
def stFound (s : St) (k : Nat) : St :=
  { nTick := s.nTick + 2 + k, nRecv := s.nRecv + k + 1, tx := s.tx }

/-- What a wait for the marker `e` with timeout `T`, started in state `s`, does: it leaves
its loop at the first evaluation `k` of the loop condition at which the deadline has
passed (result `SIM800_TIMEOUT`) or after whose receive the marker is found (result
`SIM800_OK`).  By `seenAt_iff`, "found" is `MarkerVisible`. -/
def WaitOutcome (w : World) (e : List Nat) (T : Nat) (s : St) (r : SIM800_Result)
    (s1 : St) : Prop :=
  ∃ k, (∀ i, i < k → elapsedAt w s i < T ∧ seenAt w e s i = false) ∧
    ((T ≤ elapsedAt w s k ∧ r = SIM800_TIMEOUT ∧ s1 = stTimeout s k) ∨
     (elapsedAt w s k < T ∧ seenAt w e s k = true ∧ r = SIM800_OK ∧ s1 = stFound s k))

/-- Content of a buffer of `N` bytes that was cleared and then filled from index 0 with
the bytes `bytes`, storing stops before the last position: the first at most `N - 1`
bytes, then NUL bytes up to the capacity. -/
def storeBuf (N : Nat) (bytes : List Nat) : List Nat :=
  bytes.take (N - 1) ++ List.replicate (N - (bytes.take (N - 1)).length) 0

/-- Every store of the log is inside a buffer of `N` bytes, and a store at the last
index `N - 1` stores NUL. -/
def LogSafe (N : Nat) (log : List (Nat × Nat)) : Prop :=
  ∀ p ∈ log, p.1 < N ∧ (p.1 + 1 = N → p.2 = 0)

/-- The tick source keeps advancing: whatever tick read `i` is taken as a start and
whatever later read `n` is considered, some read `j ≥ n` shows an elapsed time of at
least `T`. -/
def ClockAdvances (w : World) (T : Nat) : Prop :=
  ∀ i n, ∃ j, n ≤ j ∧ T ≤ elapsed (tickAt w j) (tickAt w i)

/-- Invariant of the loop of `SIM800_HTTPRead` for a non-null buffer of capacity `N`, the
loop being entered with `n0` receives made: the buffer holds what the receives made since
have delivered, and every store so far was in bounds. -/
def ReadInv (w : World) (N n0 : Nat) (rs : ReadState) : Prop :=
  ∃ b, rs.resp = some b ∧ n0 ≤ rs.st.nRecv ∧
    rs.idx = ((rxBytes w n0 (rs.st.nRecv - n0)).take (N - 1)).length ∧
    b.mem = storeBuf N (rxBytes w n0 (rs.st.nRecv - n0)) ∧ LogSafe N b.writes

/-- The step "transmit `cmd` with `SIM800_SendString`, then wait for `e` for at most `T`
ms", started in state `s`, ends with result `r` in state `s1`. -/
def StepOutcome (w : World) (cmd e : List Nat) (T : Nat) (s : St) (r : SIM800_Result)
    (s1 : St) : Prop :=
  WaitOutcome w e T (SIM800_SendString cmd s) r s1

/-- No NUL byte in the list. -/
def NulFree (l : List Nat) : Prop := ∀ b ∈ l, b ≠ 0

instance (l : List Nat) : Decidable (NulFree l) := by
  unfold NulFree; infer_instance

/-- The k-th receive of a wait started in state `s` succeeds and, right after it, the
marker occurs as a contiguous substring of the C string held in the scan buffer: the
bytes accumulated so far (at most the first 255 received) up to their first NUL byte. -/
def MarkerVisible (w : World) (e : List Nat) (s : St) (k : Nat) : Prop :=
  (recvAt w (s.nRecv + k)).isSome = true ∧
    cstr e <:+: cstr ((rxBytes w s.nRecv (k + 1)).take 255)

/-- The k-th receive of a wait started in state `s` succeeds and, right after it, the
marker occurs as a contiguous substring anywhere in the bytes accumulated so far (at most
the first 255 received), NUL bytes included. -/
def MarkerInBytes (w : World) (e : List Nat) (s : St) (k : Nat) : Prop :=
  (recvAt w (s.nRecv + k)).isSome = true ∧
    cstr e <:+: (rxBytes w s.nRecv (k + 1)).take 255

/-- A transport that delivers the bytes 0x00, 'O', 'K' and then nothing, with 300 ms
between two tick reads. -/
def wNul : World := { tick := fun n => 300 * n, recv := fun n => [0, 79, 75].get? n }

/-- A transport that delivers nothing; the clock starts 100 ms before the wrap-around of
the 32-bit tick and advances by 300 ms per tick read. -/
def wWrap : World := { tick := fun n => 4294967196 + 300 * n, recv := fun _ => none }

/-- A transport that streams the byte 'A' for ever, with 1 ms between two tick reads. -/
def wStream : World := { tick := fun n => n, recv := fun _ => some 65 }

/-- The initial state: nothing read, nothing transmitted. -/
def st0 : St := { nTick := 0, nRecv := 0, tx := [] }

/-- Payloads of the steps of `SIM800_HTTPGet` that follow the session init, in order. -/
def httpGetSteps (url : List Nat) : List (List Nat) :=
  [lit "AT+HTTPPARA=\"CID\",1\r\n", httpParaCmd 128 (lit "URL") url,
   lit "AT+HTTPACTION=0\r\n", lit "AT+HTTPREAD\r\n"]

/-- Payloads of the steps of `SIM800_HTTPPost` that follow the session init, in order;
the fifth is what `SIM800_SendString(body)` hands to the transport. -/
def httpPostSteps (url contentType body : List Nat) : List (List Nat) :=
  [lit "AT+HTTPPARA=\"CID\",1\r\n", httpParaCmd 160 (lit "URL") url,
   httpParaCmd 160 (lit "CONTENT") contentType, httpDataCmd (strlen body % 2 ^ 16),
   body.take (strlen body % 2 ^ 16), lit "AT+HTTPACTION=1\r\n", lit "AT+HTTPREAD\r\n"]

/-- A transport that delivers nothing, with 20 s between two tick reads: every wait
times out at its first look at the clock. -/
def wSilent : World := { tick := fun n => 20000 * n, recv := fun _ => none }

/-- A transport that answers 'O', 'K', 'O', 'K', ... for ever, with 400 ms between two
tick reads. -/
def wOk : World :=
  { tick := fun n => 400 * n, recv := fun n => some (if n % 2 = 0 then 79 else 75) }

/-- A destination number of 52 digits '1'. -/
def longNumber : List Nat := List.replicate 52 49

/-- The argument is a non-null pointer to a non-empty C string. -/
def ArgGiven (p : Option (List Nat)) : Prop := ∃ v, p = some v ∧ cstr v ≠ []

/-- The command of an optional credential step of `SIM800_SetupGPRS`, if the step is
made. -/
def optCmd (key : List Nat) (p : Option (List Nat)) : List (List Nat) :=
  if nonEmptyArg p then [sapbrCmd key (p.getD [])] else []

/-- Outcome of an optional credential step of `SIM800_SetupGPRS` started in state `s`:
either the argument is given and the step "send the command, wait for OK" is made, or it
is not given and nothing happens. -/
def OptStepOutcome (w : World) (key : List Nat) (p : Option (List Nat)) (s : St)
    (r : SIM800_Result) (s1 : St) : Prop :=
  (ArgGiven p ∧ StepOutcome w (sapbrCmd key (p.getD [])) (lit "OK") 2000 s r s1) ∨
  (¬ ArgGiven p ∧ r = SIM800_OK ∧ s1 = s)

/-- A transport that answers "OK" five times, then "DOWNLOAD", then "OK", then nothing
more, with 400 ms between two tick reads. -/
def wPost : World :=
  { tick := fun n => 400 * n, recv := fun n => (lit "OKOKOKOKOKDOWNLOADOK").get? n }

/-- A transport that plays a successful HTTP GET: "OK" to the first four commands, the
action result, the body announced by "+HTTPREAD:" and closed by "OK", and "OK" to the
final termination; 10 ms between two tick reads. -/
def wGet : World :=
  { tick := fun n => 10 * n,
    recv := fun n =>
      (lit "OKOKOKOK+HTTPACTION: 0,200,5\r\n+HTTPREAD: 5\r\nhello\r\nOK\r\nOK").get? n }

/-- Elapsed time `(now - start) mod 2^32` computed on the integers, `start` being the 32-bit
value of tick read number `i` and `now` the 32-bit value of tick read number `j`. -/
def tickElapsed (w : World) (i j : Nat) : Int :=
  (((w.tick j % 2 ^ 32 : Nat) : Int) - ((w.tick i % 2 ^ 32 : Nat) : Int)) % 2 ^ 32

/-- A transport that delivers nothing and whose tick does not advance. -/
def wStall : World := { tick := fun _ => 5, recv := fun _ => none }

/-- A transport that delivers nothing, with 2 ms between two tick reads. -/
def wStep2 : World := { tick := fun n => 2 * n, recv := fun _ => none }

theorem rxBytes_zero (w : World) (n0 : Nat) : rxBytes w n0 0 = [] := by
  simp [rxBytes]

theorem rxBytes_succ (w : World) (n0 k : Nat) :
    rxBytes w n0 (k + 1) = rxBytes w n0 k ++ (recvAt w (n0 + k)).toList := by
  simp only [rxBytes, List.range_succ, List.filterMap_append]
  cases h : recvAt w (n0 + k) <;> simp [List.filterMap, h]

theorem scanBuf_length (bs : List Nat) : (scanBuf bs).length = 256 := by
  simp only [scanBuf, List.length_append, List.length_replicate, List.length_take]
  omega

theorem scanBuf_push_short (bs : List Nat) (c : Nat) (h : bs.length < 255) :
    ((scanBuf bs).set bs.length c).set ((bs.length + 1) % 2 ^ 16) 0 = scanBuf (bs ++ [c]) := by
  have h1 : bs.take 255 = bs := List.take_of_length_le (by omega)
  have h2 : (bs ++ [c]).take 255 = bs ++ [c] :=
    List.take_of_length_le (by simp; omega)
  have h3 : (bs.length + 1) % 2 ^ 16 = bs.length + 1 := Nat.mod_eq_of_lt (by omega)
  obtain ⟨m, hm⟩ : ∃ m, 256 - bs.length = m + 2 := ⟨254 - bs.length, by omega⟩
  have hm2 : 256 - (bs.length + 1) = m + 1 := by omega
  simp only [scanBuf, h1, h2, h3, hm, hm2, List.length_append, List.length_singleton,
    List.replicate_succ]
  rw [List.set_append_right _ _ (le_refl _)]
  simp only [Nat.sub_self, List.set_cons_zero]
  rw [List.set_append_right _ _ (by omega)]
  simp

theorem scanBuf_push_full (bs : List Nat) (c : Nat) (h : ¬ bs.length < 255) :
    scanBuf (bs ++ [c]) = scanBuf bs := by
  have : (bs ++ [c]).take 255 = bs.take 255 := List.take_append_of_le_length (by omega)
  simp [scanBuf, this]

theorem cstr_append_zeros (l : List Nat) (n : Nat) :
    cstr (l ++ List.replicate (n + 1) 0) = cstr l := by
  induction l with
  | nil => simp [cstr, List.replicate_succ]
  | cons a t ih =>
    simp only [cstr, List.cons_append, List.takeWhile_cons] at ih ⊢
    split
    · rw [ih]
    · rfl

theorem cstr_scanBuf (bs : List Nat) : cstr (scanBuf bs) = cstr (bs.take 255) := by
  obtain ⟨m, hm⟩ : ∃ m, 256 - (bs.take 255).length = m + 1 :=
    ⟨255 - (bs.take 255).length, by simp; omega⟩
  rw [scanBuf, hm, cstr_append_zeros]

theorem findSub_iff (needle hay : List Nat) : findSub needle hay = true ↔ needle <:+: hay := by
  induction hay with
  | nil => simp [findSub, List.isEmpty_iff]
  | cons h t ih =>
    simp only [findSub, Bool.or_eq_true, ih, List.isPrefixOf_iff_prefix]
    rw [List.infix_cons_iff]

theorem strstr_iff (hay needle : List Nat) :
    strstr hay needle = true ↔ cstr needle <:+: cstr hay := findSub_iff _ _

theorem seenAt_iff (w : World) (e : List Nat) (s : St) (k : Nat) :
    seenAt w e s k = true ↔
      (recvAt w (s.nRecv + k)).isSome = true ∧
        cstr e <:+: cstr ((rxBytes w s.nRecv (k + 1)).take 255) := by
  simp [seenAt, strstr_iff, cstr_scanBuf]

theorem waitFor_body_at (w : World) (e : List Nat) (T : Nat) (s : St) (k : Nat) :
    SIM800_WaitFor.body w e T (tickAt w s.nTick) (waitStateAt w s k) =
      if elapsedAt w s k < T then
        if seenAt w e s k then Sum.inl (SIM800_OK, stFound s k)
        else Sum.inr (waitStateAt w s (k + 1))
      else Sum.inl (SIM800_TIMEOUT, stTimeout s k) := by
  have e1 : s.nTick + 1 + k + 1 = s.nTick + 2 + k := by omega
  have e2 : s.nTick + 1 + (k + 1) = s.nTick + 2 + k := by omega
  have e3 : s.nRecv + (k + 1) = s.nRecv + k + 1 := by omega
  unfold SIM800_WaitFor.body
  simp only [HAL_GetTick, HAL_UART_Receive, waitStateAt, elapsedAt, seenAt, rxBytes_succ,
    stFound, stTimeout, SIM800_RX_TMP_LEN, e1, e2, e3]
  split
  · cases hc : recvAt w (s.nRecv + k) with
    | none => simp
    | some c =>
      simp only [Option.toList_some, Option.isSome_some, Bool.true_and]
      by_cases hlen : (rxBytes w s.nRecv k).length < 255
      · have h1 : (rxBytes w s.nRecv k).take 255 = rxBytes w s.nRecv k :=
          List.take_of_length_le (by omega)
        have h2 : (rxBytes w s.nRecv k ++ [c]).take 255 = rxBytes w s.nRecv k ++ [c] :=
          List.take_of_length_le (by simp; omega)
        have h4 := scanBuf_push_short (rxBytes w s.nRecv k) c hlen
        simp only [h1, h2, hlen, if_true, h4, List.length_append, List.length_singleton]
        have h3 : ((rxBytes w s.nRecv k).length + 1) % 2 ^ 16 =
            (rxBytes w s.nRecv k).length + 1 := Nat.mod_eq_of_lt (by omega)
        rw [h3]
      · have h1 : ((rxBytes w s.nRecv k).take 255).length = 255 := by
          simp; omega
        have h2 : ((rxBytes w s.nRecv k ++ [c]).take 255).length = 255 := by
          simp; omega
        have h4 := scanBuf_push_full (rxBytes w s.nRecv k) c hlen
        simp only [h1, h2, h4, lt_irrefl, if_false]
  · rfl

theorem waitFor_init_eq (w : World) (s : St) :
    SIM800_WaitFor.init w s = (tickAt w s.nTick, waitStateAt w s 0) := by
  simp only [SIM800_WaitFor.init, HAL_GetTick, waitStateAt, rxBytes_zero, scanBuf,
    SIM800_RX_TMP_LEN, List.take_nil, List.length_nil, List.nil_append, Nat.sub_zero,
    Nat.add_zero]

/-- No return at the evaluations `j .. j+k-1` of the loop condition. -/
theorem waitFor_loop_skip (w : World) (e : List Nat) (T : Nat) (s : St) (f : Nat) :
    ∀ k j, (∀ i, j ≤ i → i < j + k → elapsedAt w s i < T ∧ seenAt w e s i = false) →
      SIM800_WaitFor.loop w e T (tickAt w s.nTick) (f + k) (waitStateAt w s j) =
        SIM800_WaitFor.loop w e T (tickAt w s.nTick) f (waitStateAt w s (j + k)) := by
  intro k
  induction k with
  | zero => intro j _; rfl
  | succ k ih =>
    intro j h
    have hj := h j (le_refl _) (by omega)
    rw [← Nat.add_assoc, SIM800_WaitFor.loop, waitFor_body_at]
    simp only [hj.1, hj.2, if_true, Bool.false_eq_true, if_false]
    rw [ih (j + 1) (fun i h1 h2 => h i (by omega) (by omega))]
    congr 2
    omega

theorem waitFor_loop_sound (w : World) (e : List Nat) (T : Nat) (s : St)
    (r : SIM800_Result) (s1 : St) :
    ∀ f j, (∀ i, i < j → elapsedAt w s i < T ∧ seenAt w e s i = false) →
      SIM800_WaitFor.loop w e T (tickAt w s.nTick) f (waitStateAt w s j) = some (r, s1) →
      WaitOutcome w e T s r s1 := by
  intro f
  induction f with
  | zero => intro j _ h; simp [SIM800_WaitFor.loop] at h
  | succ f ih =>
    intro j hpre h
    rw [SIM800_WaitFor.loop, waitFor_body_at] at h
    by_cases hT : elapsedAt w s j < T
    · by_cases hs : seenAt w e s j = true
      · simp only [hT, hs, if_true, Option.some.injEq, Prod.mk.injEq] at h
        exact ⟨j, hpre, Or.inr ⟨hT, hs, h.1.symm, h.2.symm⟩⟩
      · simp only [hT, hs, if_true, Bool.false_eq_true, if_false] at h
        refine ih (j + 1) ?_ h
        intro i hi
        rcases Nat.lt_succ_iff_lt_or_eq.mp hi with h1 | h1
        · exact hpre i h1
        · subst h1; exact ⟨hT, by simpa using hs⟩
    · simp only [hT, if_false, Option.some.injEq, Prod.mk.injEq] at h
      exact ⟨j, hpre, Or.inl ⟨by omega, h.1.symm, h.2.symm⟩⟩

theorem waitFor_sound (w : World) (f : Nat) (e : List Nat) (T : Nat) (s : St)
    (r : SIM800_Result) (s1 : St) (h : SIM800_WaitFor w f e T s = some (r, s1)) :
    WaitOutcome w e T s r s1 := by
  rw [SIM800_WaitFor, waitFor_init_eq] at h
  exact waitFor_loop_sound w e T s r s1 f 0 (by intro i hi; omega) h

theorem waitFor_complete (w : World) (e : List Nat) (T : Nat) (s : St)
    (r : SIM800_Result) (s1 : St) (h : WaitOutcome w e T s r s1) :
    Returns (fun f => SIM800_WaitFor w f e T s) (r, s1) := by
  obtain ⟨k, hpre, hk⟩ := h
  refine ⟨k + 1, fun f hf => ?_⟩
  obtain ⟨g, rfl⟩ : ∃ g, f = (g + 1) + k := ⟨f - (k + 1), by omega⟩
  simp only [SIM800_WaitFor, waitFor_init_eq]
  rw [waitFor_loop_skip w e T s (g + 1) k 0 (fun i _ h2 => hpre i (by omega))]
  rw [Nat.zero_add, SIM800_WaitFor.loop, waitFor_body_at]
  rcases hk with ⟨h1, h2, h3⟩ | ⟨h1, h2, h3, h4⟩
  · simp [Nat.not_lt.mpr h1, h2, h3]
  · simp [h1, h2, h3, h4]

theorem waitFor_total (w : World) (e : List Nat) (T : Nat) (s : St)
    (h : ∃ j, T ≤ elapsedAt w s j) : ∃ r s1, WaitOutcome w e T s r s1 := by
  classical
  have hex : ∃ k, T ≤ elapsedAt w s k ∨ seenAt w e s k = true := by
    obtain ⟨j, hj⟩ := h
    exact ⟨j, Or.inl hj⟩
  have hmin : ∀ i, i < Nat.find hex → elapsedAt w s i < T ∧ seenAt w e s i = false := by
    intro i hi
    have := Nat.find_min hex hi
    simp only [not_or, not_le, Bool.not_eq_true] at this
    exact this
  by_cases hT : T ≤ elapsedAt w s (Nat.find hex)
  · exact ⟨SIM800_TIMEOUT, _, Nat.find hex, hmin, Or.inl ⟨hT, rfl, rfl⟩⟩
  · have hs : seenAt w e s (Nat.find hex) = true := by
      rcases Nat.find_spec hex with h1 | h1
      · exact absurd h1 hT
      · exact h1
    exact ⟨SIM800_OK, _, Nat.find hex, hmin, Or.inr ⟨by omega, hs, rfl, rfl⟩⟩

theorem waitOutcome_unique (w : World) (e : List Nat) (T : Nat) (s : St)
    (r r' : SIM800_Result) (s1 s1' : St) (h : WaitOutcome w e T s r s1)
    (h' : WaitOutcome w e T s r' s1') : r = r' ∧ s1 = s1' := by
  obtain ⟨f, hf⟩ := waitFor_complete w e T s r s1 h
  obtain ⟨f', hf'⟩ := waitFor_complete w e T s r' s1' h'
  have h1 := hf (max f f') (le_max_left _ _)
  have h2 := hf' (max f f') (le_max_right _ _)
  simp only [h1, Option.some.injEq, Prod.mk.injEq] at h2
  exact h2

theorem waitFor_iter_at (w : World) (e : List Nat) (T : Nat) (s : St) :
    ∀ n j ws, SIM800_WaitFor.iter w e T (tickAt w s.nTick) n (waitStateAt w s j) = some ws →
      ws = waitStateAt w s (j + n) ∧
        ∀ i, j ≤ i → i < j + n → elapsedAt w s i < T ∧ seenAt w e s i = false := by
  intro n
  induction n with
  | zero =>
    intro j ws h
    simp only [SIM800_WaitFor.iter, Option.some.injEq] at h
    exact ⟨h.symm, by intro i h1 h2; omega⟩
  | succ n ih =>
    intro j ws h
    rw [SIM800_WaitFor.iter, waitFor_body_at] at h
    by_cases hT : elapsedAt w s j < T
    · by_cases hs : seenAt w e s j = true
      · simp [hT, hs] at h
      · simp only [hT, hs, if_true, Bool.false_eq_true, if_false] at h
        obtain ⟨h1, h2⟩ := ih (j + 1) ws h
        refine ⟨by rw [h1]; congr 1; omega, ?_⟩
        intro i hi1 hi2
        rcases Nat.eq_or_lt_of_le hi1 with h3 | h3
        · subst h3; exact ⟨hT, by simpa using hs⟩
        · exact h2 i (by omega) (by omega)
    · simp [hT] at h

theorem storeBuf_length (N : Nat) (bs : List Nat) (hN : 1 ≤ N) :
    (storeBuf N bs).length = N := by
  simp only [storeBuf, List.length_append, List.length_replicate, List.length_take]
  omega

theorem storeBuf_push_short (N : Nat) (bs : List Nat) (c : Nat) (h : bs.length + 1 < N) :
    ((storeBuf N bs).set bs.length c).set (bs.length + 1) 0 = storeBuf N (bs ++ [c]) := by
  have h1 : bs.take (N - 1) = bs := List.take_of_length_le (by omega)
  have h2 : (bs ++ [c]).take (N - 1) = bs ++ [c] :=
    List.take_of_length_le (by simp; omega)
  obtain ⟨m, hm⟩ : ∃ m, N - bs.length = m + 2 := ⟨N - bs.length - 2, by omega⟩
  have hm2 : N - (bs.length + 1) = m + 1 := by omega
  simp only [storeBuf, h1, h2, hm, hm2, List.length_append, List.length_singleton,
    List.replicate_succ]
  rw [List.set_append_right _ _ (le_refl _)]
  simp only [Nat.sub_self, List.set_cons_zero]
  rw [List.set_append_right _ _ (by omega)]
  simp

theorem storeBuf_push_full (N : Nat) (bs : List Nat) (c : Nat) (h : ¬ bs.length + 1 < N) :
    storeBuf N (bs ++ [c]) = storeBuf N bs := by
  have : (bs ++ [c]).take (N - 1) = bs.take (N - 1) :=
    List.take_append_of_le_length (by omega)
  simp [storeBuf, this]

theorem logSafe_append (N : Nat) (l1 l2 : List (Nat × Nat)) (h1 : LogSafe N l1)
    (h2 : LogSafe N l2) : LogSafe N (l1 ++ l2) := by
  intro p hp
  rcases List.mem_append.mp hp with h | h
  · exact h1 p h
  · exact h2 p h

theorem memset0_eq (b : RespBuf) :
    ∀ n, n ≤ b.mem.length →
      b.memset0 n = { mem := List.replicate n 0 ++ b.mem.drop n,
                      writes := b.writes ++ (List.range n).map fun i => (i, 0) } := by
  intro n
  induction n with
  | zero => intro _; simp [RespBuf.memset0]
  | succ n ih =>
    intro h
    have ih1 := ih (by omega)
    simp only [RespBuf.memset0] at ih1 ⊢
    rw [List.range_succ, List.foldl_append, ih1]
    simp only [List.foldl_cons, List.foldl_nil, RespBuf.poke, List.map_append, List.map_cons,
      List.map_nil, List.append_assoc, RespBuf.mk.injEq, and_true]
    rw [List.set_append_right _ _ (by simp)]
    simp only [List.length_replicate, Nat.sub_self]
    rw [List.drop_eq_getElem_cons (by omega), List.set_cons_zero, List.replicate_succ',
      List.append_assoc]
    rfl

theorem memset0_full (mem : List Nat) (ws : List (Nat × Nat)) :
    (RespBuf.mk mem ws).memset0 mem.length =
      { mem := List.replicate mem.length 0,
        writes := ws ++ (List.range mem.length).map fun i => (i, 0) } := by
  rw [memset0_eq _ _ (le_refl _)]
  simp

theorem logSafe_memset (N : Nat) : LogSafe N ((List.range N).map fun i => (i, 0)) := by
  intro p hp
  simp only [List.mem_map, List.mem_range] at hp
  obtain ⟨i, hi, rfl⟩ := hp
  exact ⟨hi, fun _ => rfl⟩

theorem httpRead_store_inv (w : World) (N n0 : Nat) (hN : N ≤ 65535) (rs : ReadState)
    (h : ReadInv w N n0 rs) (i : Nat) :
    ReadInv w N n0 (SIM800_HTTPRead.store N rs
        (HAL_UART_Receive w { nTick := i, nRecv := rs.st.nRecv, tx := rs.st.tx })) ∧
      (SIM800_HTTPRead.store N rs
        (HAL_UART_Receive w { nTick := i, nRecv := rs.st.nRecv, tx := rs.st.tx })).st =
        { nTick := i, nRecv := rs.st.nRecv + 1, tx := rs.st.tx } := by
  obtain ⟨b, hb, hn, hidx, hmem, hlog⟩ := h
  have hsub : rs.st.nRecv + 1 - n0 = (rs.st.nRecv - n0) + 1 := by omega
  have hadd : n0 + (rs.st.nRecv - n0) = rs.st.nRecv := by omega
  simp only [SIM800_HTTPRead.store, HAL_UART_Receive, hb]
  cases hc : recvAt w rs.st.nRecv with
  | none =>
    simp only
    refine ⟨⟨b, rfl, by simp; omega, ?_, ?_, hlog⟩, trivial⟩
    · simp only [hsub, rxBytes_succ, hadd, hc, Option.toList_none, List.append_nil]
      exact hidx
    · simp only [hsub, rxBytes_succ, hadd, hc, Option.toList_none, List.append_nil]
      exact hmem
  | some c =>
    simp only
    by_cases hlt : (rs.idx : Int) < (N : Int) - 1
    · rw [if_pos hlt]
      have hlt1 : rs.idx + 1 < N := by omega
      have hlen : (rxBytes w n0 (rs.st.nRecv - n0)).length + 1 < N := by
        rw [List.length_take] at hidx
        omega
      have ht : (rxBytes w n0 (rs.st.nRecv - n0)).take (N - 1) =
          rxBytes w n0 (rs.st.nRecv - n0) := List.take_of_length_le (by omega)
      have hidx1 : rs.idx = (rxBytes w n0 (rs.st.nRecv - n0)).length := by
        rw [hidx, ht]
      have hmod : (rs.idx + 1) % 2 ^ 16 = rs.idx + 1 := Nat.mod_eq_of_lt (by omega)
      refine ⟨⟨_, rfl, by simp; omega, ?_, ?_, ?_⟩, rfl⟩
      · simp only [hsub, rxBytes_succ, hadd, hc, Option.toList_some, hmod]
        rw [List.take_of_length_le (by simp; omega)]
        simp [hidx1]
      · simp only [hsub, rxBytes_succ, hadd, hc, Option.toList_some, hmod, RespBuf.poke]
        rw [hmem, hidx1, storeBuf_push_short N _ c hlen]
      · simp only [RespBuf.poke, hmod, List.append_assoc]
        refine logSafe_append N _ _ hlog ?_
        intro p hp
        simp only [List.cons_append, List.nil_append, List.mem_cons, List.mem_singleton,
          List.not_mem_nil, or_false] at hp
        rcases hp with rfl | rfl
        · exact ⟨by simp; omega, fun h => by simp at h; omega⟩
        · exact ⟨by simp; omega, fun _ => rfl⟩
    · rw [if_neg hlt]
      have hlen : ¬ (rxBytes w n0 (rs.st.nRecv - n0)).length + 1 < N := by
        rw [List.length_take] at hidx
        omega
      have hfull := storeBuf_push_full N (rxBytes w n0 (rs.st.nRecv - n0)) c hlen
      have ht : (rxBytes w n0 (rs.st.nRecv - n0) ++ [c]).take (N - 1) =
          (rxBytes w n0 (rs.st.nRecv - n0)).take (N - 1) :=
        List.take_append_of_le_length (by omega)
      refine ⟨⟨b, rfl, by simp; omega, ?_, ?_, hlog⟩, rfl⟩
      · simp only [hsub, rxBytes_succ, hadd, hc, Option.toList_some, ht]
        exact hidx
      · simp only [hsub, rxBytes_succ, hadd, hc, Option.toList_some, hfull]
        exact hmem

theorem httpRead_body_inv (w : World) (N n0 start : Nat) (hN : N ≤ 65535) (rs : ReadState)
    (h : ReadInv w N n0 rs) :
    (∀ rs1, SIM800_HTTPRead.body w N start rs = Sum.inl rs1 →
        ReadInv w N n0 rs1 ∧ rs1.st.tx = rs.st.tx) ∧
    (∀ rs1, SIM800_HTTPRead.body w N start rs = Sum.inr rs1 →
        ReadInv w N n0 rs1 ∧ rs1.st.tx = rs.st.tx ∧ rs1.st.nTick = rs.st.nTick + 1) := by
  have key := httpRead_store_inv w N n0 hN rs h (rs.st.nTick + 1)
  unfold SIM800_HTTPRead.body
  simp only [HAL_GetTick]
  split
  · constructor
    · intro rs1 h1
      split at h1
      · split at h1
        · simp only [Sum.inl.injEq] at h1
          rw [h1] at key
          exact ⟨key.1, by rw [key.2]⟩
        · simp at h1
      · simp at h1
    · intro rs1 h1
      split at h1
      · split at h1
        · simp at h1
        · simp only [Sum.inr.injEq] at h1
          rw [h1] at key
          exact ⟨key.1, by rw [key.2], by rw [key.2]⟩
      · simp only [Sum.inr.injEq] at h1
        rw [h1] at key
        exact ⟨key.1, by rw [key.2], by rw [key.2]⟩
  · constructor
    · intro rs1 h1
      simp only [Sum.inl.injEq] at h1
      subst h1
      exact ⟨h, rfl⟩
    · intro rs1 h1
      simp at h1

theorem httpRead_store_st (N : Nat) (rs : ReadState) (r : Option Nat × St) :
    (SIM800_HTTPRead.store N rs r).st = r.2 := by
  unfold SIM800_HTTPRead.store
  split
  · split <;> rfl
  · rfl

theorem httpRead_body_st (w : World) (N start : Nat) (rs : ReadState) :
    (∀ rs1, SIM800_HTTPRead.body w N start rs = Sum.inl rs1 → rs1.st.tx = rs.st.tx) ∧
    (∀ rs1, SIM800_HTTPRead.body w N start rs = Sum.inr rs1 →
        rs1.st.tx = rs.st.tx ∧ rs1.st.nTick = rs.st.nTick + 1) := by
  have key := httpRead_store_st N rs (HAL_UART_Receive w (HAL_GetTick w rs.st).2)
  unfold SIM800_HTTPRead.body
  simp only
  split
  · constructor
    · intro rs1 h1
      split at h1
      · split at h1
        · simp only [Sum.inl.injEq] at h1
          rw [h1] at key
          rw [key]; rfl
        · simp at h1
      · simp at h1
    · intro rs1 h1
      split at h1
      · split at h1
        · simp at h1
        · simp only [Sum.inr.injEq] at h1
          rw [h1] at key
          rw [key]; exact ⟨rfl, rfl⟩
      · simp only [Sum.inr.injEq] at h1
        rw [h1] at key
        rw [key]; exact ⟨rfl, rfl⟩
  · constructor
    · intro rs1 h1
      simp only [Sum.inl.injEq] at h1
      subst h1
      rfl
    · intro rs1 h1
      simp at h1

theorem httpRead_loop_tx (w : World) (N start : Nat) :
    ∀ f rs rs1, SIM800_HTTPRead.loop w N start f rs = some rs1 → rs1.st.tx = rs.st.tx := by
  intro f
  induction f with
  | zero => intro rs rs1 h; simp [SIM800_HTTPRead.loop] at h
  | succ f ih =>
    intro rs rs1 h
    rw [SIM800_HTTPRead.loop] at h
    cases hb : SIM800_HTTPRead.body w N start rs with
    | inl x =>
      rw [hb] at h
      simp only [Option.some.injEq] at h
      subst h
      exact (httpRead_body_st w N start rs).1 _ hb
    | inr x =>
      rw [hb] at h
      rw [ih x rs1 h]
      exact ((httpRead_body_st w N start rs).2 _ hb).1

theorem httpRead_loop_inv (w : World) (N n0 start : Nat) (hN : N ≤ 65535) :
    ∀ f rs rs1, ReadInv w N n0 rs → SIM800_HTTPRead.loop w N start f rs = some rs1 →
      ReadInv w N n0 rs1 := by
  intro f
  induction f with
  | zero => intro rs rs1 _ h; simp [SIM800_HTTPRead.loop] at h
  | succ f ih =>
    intro rs rs1 hinv h
    rw [SIM800_HTTPRead.loop] at h
    cases hb : SIM800_HTTPRead.body w N start rs with
    | inl x =>
      rw [hb] at h
      simp only [Option.some.injEq] at h
      subst h
      exact ((httpRead_body_inv w N n0 start hN rs hinv).1 _ hb).1
    | inr x =>
      rw [hb] at h
      exact ih x rs1 ((httpRead_body_inv w N n0 start hN rs hinv).2 _ hb).1 h

theorem httpRead_iter_inv (w : World) (N n0 start : Nat) (hN : N ≤ 65535) :
    ∀ n rs rs1, ReadInv w N n0 rs → SIM800_HTTPRead.iter w N start n rs = some rs1 →
      ReadInv w N n0 rs1 := by
  intro n
  induction n with
  | zero =>
    intro rs rs1 hinv h
    simp only [SIM800_HTTPRead.iter, Option.some.injEq] at h
    subst h
    exact hinv
  | succ n ih =>
    intro rs rs1 hinv h
    rw [SIM800_HTTPRead.iter] at h
    cases hb : SIM800_HTTPRead.body w N start rs with
    | inl x => rw [hb] at h; simp at h
    | inr x =>
      rw [hb] at h
      exact ih x rs1 ((httpRead_body_inv w N n0 start hN rs hinv).2 _ hb).1 h

theorem httpRead_loop_terminates (w : World) (N start : Nat) :
    ∀ j rs, 10000 ≤ elapsed (tickAt w (rs.st.nTick + j)) start →
      ∃ rs1, ∀ f, j + 1 ≤ f → SIM800_HTTPRead.loop w N start f rs = some rs1 := by
  intro j
  induction j with
  | zero =>
    intro rs h
    refine ⟨{ rs with st := (HAL_GetTick w rs.st).2 }, fun f hf => ?_⟩
    obtain ⟨g, rfl⟩ : ∃ g, f = g + 1 := ⟨f - 1, by omega⟩
    have hb : SIM800_HTTPRead.body w N start rs =
        Sum.inl { rs with st := (HAL_GetTick w rs.st).2 } := by
      unfold SIM800_HTTPRead.body
      simp only [HAL_GetTick]
      rw [if_neg (by simpa using h)]
    rw [SIM800_HTTPRead.loop, hb]
  | succ j ih =>
    intro rs h
    cases hb : SIM800_HTTPRead.body w N start rs with
    | inl x =>
      refine ⟨x, fun f hf => ?_⟩
      obtain ⟨g, rfl⟩ : ∃ g, f = g + 1 := ⟨f - 1, by omega⟩
      rw [SIM800_HTTPRead.loop, hb]
    | inr x =>
      have hx := ((httpRead_body_st w N start rs).2 _ hb).2
      obtain ⟨rs1, h1⟩ := ih x (by rw [hx]; rw [show rs.st.nTick + 1 + j = rs.st.nTick + (j + 1) by omega]; exact h)
      refine ⟨rs1, fun f hf => ?_⟩
      obtain ⟨g, rfl⟩ : ∃ g, f = g + 1 := ⟨f - 1, by omega⟩
      rw [SIM800_HTTPRead.loop, hb]
      exact h1 g (by omega)

/-! ### Steps -/

theorem waitOutcome_st (w : World) (e : List Nat) (T : Nat) (s : St) (r : SIM800_Result)
    (s1 : St) (h : WaitOutcome w e T s r s1) :
    s1.tx = s.tx ∧ s.nRecv ≤ s1.nRecv ∧ s.nTick < s1.nTick := by
  obtain ⟨k, _, h1 | h1⟩ := h
  · obtain ⟨_, _, rfl⟩ := h1
    exact ⟨rfl, by simp [stTimeout], by simp [stTimeout]; omega⟩
  · obtain ⟨_, _, _, rfl⟩ := h1
    exact ⟨rfl, by simp [stFound]; omega, by simp [stFound]; omega⟩

theorem clock_deadline (w : World) (T0 T : Nat) (hc : ClockAdvances w T0) (hT : T ≤ T0)
    (s : St) : ∃ j, T ≤ elapsedAt w s j := by
  obtain ⟨j, hj1, hj2⟩ := hc s.nTick (s.nTick + 1)
  refine ⟨j - (s.nTick + 1), ?_⟩
  unfold elapsedAt
  rw [show s.nTick + 1 + (j - (s.nTick + 1)) = j by omega]
  omega

theorem waitFor_returns (w : World) (T0 T : Nat) (hc : ClockAdvances w T0) (hT : T ≤ T0)
    (e : List Nat) (s : St) :
    ∃ r s1, Returns (fun f => SIM800_WaitFor w f e T s) (r, s1) ∧ WaitOutcome w e T s r s1 := by
  obtain ⟨r, s1, h⟩ := waitFor_total w e T s (clock_deadline w T0 T hc hT s)
  exact ⟨r, s1, waitFor_complete w e T s r s1 h, h⟩

theorem sendCmdWait_returns (w : World) (T0 T : Nat) (hc : ClockAdvances w T0) (hT : T ≤ T0)
    (cmd e : List Nat) (s : St) :
    ∃ r s1, Returns (fun f => SIM800_SendCmdWait w f cmd e T s) (r, s1) ∧
      WaitOutcome w e T (SIM800_SendString cmd s) r s1 :=
  waitFor_returns w T0 T hc hT e (SIM800_SendString cmd s)

theorem httpRead_returns (w : World) (T0 : Nat) (hc : ClockAdvances w T0) (hT : 10000 ≤ T0)
    (response : Option RespBuf) (N : Nat) (s : St) :
    ∃ resp1 s1, Returns (fun f => SIM800_HTTPRead w f response N s) (SIM800_OK, resp1, s1) ∧
      s1.tx = s.tx ++ [⟨s.nRecv, lit "AT+HTTPREAD\r\n"⟩] := by
  obtain ⟨r0, s0, ⟨f0, h0⟩, o0⟩ := waitFor_returns w T0 3000 hc (by omega) (lit "+HTTPREAD:")
    (SIM800_SendString (lit "AT+HTTPREAD\r\n") (HAL_GetTick w s).2)
  obtain ⟨j, hj1, hj2⟩ := hc s.nTick s0.nTick
  obtain ⟨rs1, h1⟩ := httpRead_loop_terminates w N (tickAt w s.nTick) (j - s0.nTick)
    { st := s0, resp := SIM800_HTTPRead.cleared response N, idx := 0 }
    (by simp only; rw [show s0.nTick + (j - s0.nTick) = j by omega]; omega)
  refine ⟨rs1.resp, rs1.st, ⟨f0 + (j - s0.nTick + 1), fun f hf => ?_⟩, ?_⟩
  · simp only [SIM800_HTTPRead, h0 f (by omega), Option.some_bind]
    have := h1 f (by omega)
    simp only [HAL_GetTick] at this ⊢
    rw [this]
    rfl
  · have := httpRead_loop_tx w N (tickAt w s.nTick) _ _ _ (h1 _ (le_refl _))
    rw [this]
    simp only
    rw [(waitOutcome_st _ _ _ _ _ _ o0).1]
    rfl

theorem cstr_of_nulFree (l : List Nat) (h : NulFree l) : cstr l = l := by
  unfold cstr
  rw [List.takeWhile_eq_self_iff]
  intro b hb
  simpa using h b hb

theorem cstr_nulFree (l : List Nat) : NulFree (cstr l) := by
  intro b hb
  have := List.mem_takeWhile_imp hb
  simpa using this

theorem nulFree_append (a b : List Nat) (ha : NulFree a) (hb : NulFree b) :
    NulFree (a ++ b) := by
  intro x hx
  rcases List.mem_append.mp hx with h | h
  · exact ha x h
  · exact hb x h

theorem nulFree_take (a : List Nat) (n : Nat) (ha : NulFree a) : NulFree (a.take n) :=
  fun x hx => ha x (List.mem_of_mem_take hx)

theorem take_strlen_of_nulFree (cmd : List Nat) (h : NulFree cmd) (hl : cmd.length < 65536) :
    cmd.take (strlen cmd % 2 ^ 16) = cmd := by
  rw [strlen, cstr_of_nulFree cmd h, Nat.mod_eq_of_lt (by omega), List.take_length]

theorem sendString_whole (cmd : List Nat) (h : NulFree cmd) (hl : cmd.length < 65536)
    (s : St) : SIM800_SendString cmd s = { s with tx := s.tx ++ [⟨s.nRecv, cmd⟩] } := by
  rw [SIM800_SendString, take_strlen_of_nulFree cmd h hl]
  rfl

theorem sent_append (s : St) (l : List TxRecord) (s1 : St) (h : s1.tx = s.tx ++ l) :
    s1.sent = s.sent ++ l.map TxRecord.data := by
  simp [St.sent, h]

theorem stepOutcome_tx (w : World) (cmd e : List Nat) (T : Nat) (s : St) (r : SIM800_Result)
    (s1 : St) (h : StepOutcome w cmd e T s r s1) (hn : NulFree cmd)
    (hl : cmd.length < 65536) :
    s1.tx = s.tx ++ [⟨s.nRecv, cmd⟩] ∧ s.nRecv ≤ s1.nRecv := by
  have := waitOutcome_st _ _ _ _ _ _ h
  rw [sendString_whole cmd hn hl] at this
  exact ⟨this.1, this.2.1⟩

theorem markerVisible_iff (w : World) (e : List Nat) (s : St) (k : Nat) :
    MarkerVisible w e s k ↔ seenAt w e s k = true := (seenAt_iff w e s k).symm

theorem waitOutcome_ok_iff (w : World) (e : List Nat) (T : Nat) (s s1 : St) :
    WaitOutcome w e T s SIM800_OK s1 ↔
      ∃ k, s1 = stFound s k ∧ (∀ i, i ≤ k → elapsedAt w s i < T) ∧ MarkerVisible w e s k ∧
        ∀ i, i < k → ¬ MarkerVisible w e s i := by
  constructor
  · rintro ⟨k, hpre, h | h⟩
    · exact absurd h.2.1 (by decide)
    · refine ⟨k, h.2.2.2, ?_, (markerVisible_iff _ _ _ _).mpr h.2.1, ?_⟩
      · intro i hi
        rcases Nat.lt_or_eq_of_le hi with h1 | h1
        · exact (hpre i h1).1
        · rw [h1]; exact h.1
      · intro i hi hv
        have := (hpre i hi).2
        rw [(markerVisible_iff _ _ _ _).mp hv] at this
        exact absurd this (by decide)
  · rintro ⟨k, rfl, hT, hv, hno⟩
    refine ⟨k, ?_, Or.inr ⟨hT k (le_refl _), (markerVisible_iff _ _ _ _).mp hv, rfl, rfl⟩⟩
    intro i hi
    refine ⟨hT i (by omega), ?_⟩
    have := hno i hi
    rw [markerVisible_iff] at this
    simpa using this

theorem rxBytes_prefix (w : World) (n0 n : Nat) :
    ∀ m, ∃ t, rxBytes w n0 (n + m) = rxBytes w n0 n ++ t := by
  intro m
  induction m with
  | zero => exact ⟨[], by simp⟩
  | succ m ih =>
    obtain ⟨t, ht⟩ := ih
    exact ⟨t ++ (recvAt w (n0 + (n + m))).toList, by
      rw [← Nat.add_assoc, rxBytes_succ, ht, List.append_assoc]⟩

theorem scanBuf_full_stable (w : World) (n0 n m : Nat)
    (h : ((rxBytes w n0 n).take 255).length = 255) :
    (rxBytes w n0 (n + m)).take 255 = (rxBytes w n0 n).take 255 := by
  obtain ⟨t, ht⟩ := rxBytes_prefix w n0 n m
  rw [ht]
  exact List.take_append_of_le_length (by rw [List.length_take] at h; omega)

theorem scanBuf_getElem_idx (bs : List Nat) :
    (scanBuf bs)[(bs.take 255).length]? = some 0 := by
  unfold scanBuf
  rw [List.getElem?_append_right (le_refl _)]
  simp only [Nat.sub_self]
  rw [List.getElem?_replicate]
  simp only [List.length_take, ite_eq_left_iff, not_lt, Nat.le_zero_eq, reduceCtorEq,
    imp_false]
  omega

/-- Transmitting a string and then waiting is what `SIM800_SendCmdWait` does. -/
theorem SIM800_SendCmdWait_body (w : World) (fuel : Nat) (cmd e : List Nat) (T : Nat)
    (s : St) :
    SIM800_WaitFor w fuel e T (SIM800_SendString cmd s) = SIM800_SendCmdWait w fuel cmd e T s :=
  rfl

theorem waitFor_iter_run (w : World) (e : List Nat) (T : Nat) (s : St) :
    ∀ n j, (∀ i, j ≤ i → i < j + n → elapsedAt w s i < T ∧ seenAt w e s i = false) →
      SIM800_WaitFor.iter w e T (tickAt w s.nTick) n (waitStateAt w s j) =
        some (waitStateAt w s (j + n)) := by
  intro n
  induction n with
  | zero => intro j _; rfl
  | succ n ih =>
    intro j h
    have hj := h j (le_refl _) (by omega)
    rw [SIM800_WaitFor.iter, waitFor_body_at]
    simp only [hj.1, hj.2, if_true, Bool.false_eq_true, if_false]
    rw [ih (j + 1) (fun i h1 h2 => h i (by omega) (by omega))]
    congr 2
    omega

theorem wStream_rxBytes (k : Nat) : rxBytes wStream st0.nRecv k = List.replicate k 65 := by
  induction k with
  | zero => rfl
  | succ k ih =>
    rw [rxBytes_succ, ih, List.replicate_succ']
    rfl

theorem wStream_iter (n : Nat) (hn : n < 1000) :
    SIM800_WaitFor.iter wStream (lit "OK") 1000 (SIM800_WaitFor.init wStream st0).1 n
      (SIM800_WaitFor.init wStream st0).2 = some (waitStateAt wStream st0 n) := by
  rw [waitFor_init_eq]
  have := waitFor_iter_run wStream (lit "OK") 1000 st0 n 0 (by
    intro i _ hi
    constructor
    · simp only [elapsedAt, elapsed, tickAt, wStream, st0]
      omega
    · cases hs : seenAt wStream (lit "OK") st0 i with
      | false => rfl
      | true =>
        exfalso
        have h1 := ((seenAt_iff _ _ _ _).mp hs).2
        rw [wStream_rxBytes] at h1
        have h2 : (79 : Nat) ∈ cstr (lit "OK") := by decide
        have h3 := List.mem_of_mem_take (List.takeWhile_subset _ (h1.subset h2))
        have h4 := List.eq_of_mem_replicate h3
        omega)
  simpa using this

theorem snprintf_length (size : Nat) (full : List Nat) :
    (snprintf size full).length ≤ size - 1 := by
  simp only [snprintf, List.length_take]
  omega

theorem stepOutcome_sent_raw (w : World) (cmd e : List Nat) (T : Nat) (s : St)
    (r : SIM800_Result) (s1 : St) (h : StepOutcome w cmd e T s r s1) :
    s1.sent = s.sent ++ [cmd.take (strlen cmd % 2 ^ 16)] := by
  have := (waitOutcome_st _ _ _ _ _ _ h).1
  simp [St.sent, this, SIM800_SendString, HAL_UART_Transmit]

theorem stepOutcome_sent (w : World) (cmd e : List Nat) (T : Nat) (s : St)
    (r : SIM800_Result) (s1 : St) (h : StepOutcome w cmd e T s r s1) (hn : NulFree cmd)
    (hl : cmd.length < 65536) : s1.sent = s.sent ++ [cmd] := by
  rw [stepOutcome_sent_raw w cmd e T s r s1 h, take_strlen_of_nulFree cmd hn hl]

theorem httpParaCmd_nulFree (size : Nat) (key v : List Nat) (hk : NulFree key) :
    NulFree (httpParaCmd size key v) := by
  unfold httpParaCmd snprintf
  refine nulFree_take _ _ (nulFree_append _ _ (nulFree_append _ _ (nulFree_append _ _
    (nulFree_append _ _ (by decide) hk) (by decide)) (cstr_nulFree v)) (by decide))

theorem httpParaCmd_length (size : Nat) (hs : 1 ≤ size) (key v : List Nat) :
    (httpParaCmd size key v).length < size :=
  lt_of_le_of_lt (snprintf_length _ _) (by omega)

theorem digitChar_toNat_ne_zero : ∀ m, m < 10 → (Nat.digitChar m).toNat ≠ 0 := by
  decide

theorem toDigitsCore_nulFree (f : Nat) :
    ∀ n ds, (∀ c ∈ ds, Char.toNat c ≠ 0) →
      ∀ c ∈ Nat.toDigitsCore 10 f n ds, Char.toNat c ≠ 0 := by
  induction f with
  | zero => intro n ds h c hc; simp only [Nat.toDigitsCore] at hc; exact h c hc
  | succ f ih =>
    intro n ds h c hc
    simp only [Nat.toDigitsCore] at hc
    have hd : ∀ c ∈ Nat.digitChar (n % 10) :: ds, Char.toNat c ≠ 0 := by
      intro c hc
      rcases List.mem_cons.mp hc with rfl | h1
      · exact digitChar_toNat_ne_zero _ (Nat.mod_lt _ (by decide))
      · exact h c h1
    split at hc
    · exact hd c hc
    · exact ih _ _ hd c hc

theorem fmtU_nulFree (n : Nat) : NulFree (fmtU n) := by
  intro b hb
  simp only [fmtU, List.mem_map] at hb
  obtain ⟨c, hc, rfl⟩ := hb
  exact toDigitsCore_nulFree _ _ _ (by simp) c hc

theorem httpDataCmd_nulFree (n : Nat) : NulFree (httpDataCmd n) := by
  unfold httpDataCmd snprintf
  exact nulFree_take _ _ (nulFree_append _ _ (nulFree_append _ _ (by decide)
    (fmtU_nulFree n)) (by decide))

theorem wSilent_clock : ClockAdvances wSilent 20000 := by
  intro i n
  refine ⟨i + 1 + 4294967296 * n, by omega, ?_⟩
  simp only [elapsed, tickAt, wSilent]
  omega

theorem clockAdvances_mono (w : World) (T0 T : Nat) (h : ClockAdvances w T0) (hT : T ≤ T0) :
    ClockAdvances w T := by
  intro i n
  obtain ⟨j, h1, h2⟩ := h i n
  exact ⟨j, h1, le_trans hT h2⟩

theorem httpRead_result (w : World) (fuel : Nat) (response : Option RespBuf) (maxLen : Nat)
    (s : St) (x : SIM800_Result × Option RespBuf × St)
    (h : SIM800_HTTPRead w fuel response maxLen s = some x) : x.1 = SIM800_OK := by
  unfold SIM800_HTTPRead at h
  simp only [Option.bind_eq_some] at h
  obtain ⟨_, _, _, _, h1⟩ := h
  simp only [Option.some.injEq] at h1
  rw [← h1]

theorem wOk_clock : ClockAdvances wOk 20000 := by
  intro i n
  refine ⟨i + 50 + 4294967296 * n, by omega, ?_⟩
  simp only [elapsed, tickAt, wOk]
  omega

theorem cmgsCmd_nulFree (number : List Nat) : NulFree (cmgsCmd number) := by
  unfold cmgsCmd snprintf
  exact nulFree_take _ _ (nulFree_append _ _ (nulFree_append _ _ (by decide)
    (cstr_nulFree number)) (by decide))

theorem cmgsCmd_whole (number : List Nat) (h : (cstr number).length ≤ 51) :
    cmgsCmd number = lit "AT+CMGS=\"" ++ cstr number ++ lit "\"\r\n" := by
  unfold cmgsCmd snprintf
  apply List.take_of_length_le
  have h1 : (lit "AT+CMGS=\"").length = 9 := by decide
  have h2 : (lit "\"\r\n").length = 3 := by decide
  simp only [List.length_append, h1, h2]
  omega

theorem nonEmptyArg_iff (p : Option (List Nat)) : nonEmptyArg p = true ↔ ArgGiven p := by
  cases p with
  | none => simp [nonEmptyArg, ArgGiven]
  | some v =>
    cases v with
    | nil => simp [nonEmptyArg, ArgGiven, cstr]
    | cons a t =>
      by_cases h : a = 0
      · simp [nonEmptyArg, ArgGiven, cstr, h]
      · simp [nonEmptyArg, ArgGiven, cstr, h]

theorem sapbrCmd_nulFree (key v : List Nat) (hk : NulFree key) : NulFree (sapbrCmd key v) := by
  unfold sapbrCmd snprintf
  exact nulFree_take _ _ (nulFree_append _ _ (nulFree_append _ _ (nulFree_append _ _
    (nulFree_append _ _ (by decide) hk) (by decide)) (cstr_nulFree v)) (by decide))

theorem sapbrCmd_ne_open (key v : List Nat) : sapbrCmd key v ≠ lit "AT+SAPBR=1,1\r\n" := by
  intro h
  have h1 := congrArg (List.take 10) h
  have h2 : (sapbrCmd key v).take 10 = lit "AT+SAPBR=3" := by
    unfold sapbrCmd snprintf
    rw [List.take_take]
    simp only [List.append_assoc]
    rw [List.take_append_of_le_length (by decide)]
    decide
  rw [h2] at h1
  exact absurd h1 (by decide)

theorem optStep_returns (w : World) (hc : ClockAdvances w 10000) (key : List Nat)
    (hk : NulFree key) (p : Option (List Nat)) (s : St) :
    ∃ r s1,
      Returns (fun f => if nonEmptyArg p = true then
          SIM800_SendCmdWait w f (sapbrCmd key (p.getD [])) (lit "OK") 2000 s
        else some (SIM800_OK, s)) (r, s1) ∧
      OptStepOutcome w key p s r s1 ∧ s1.sent = s.sent ++ optCmd key p := by
  by_cases hp : nonEmptyArg p = true
  · obtain ⟨r, s1, ⟨f, h⟩, o⟩ := sendCmdWait_returns w 10000 2000 hc (by omega)
      (sapbrCmd key (p.getD [])) (lit "OK") s
    refine ⟨r, s1, ⟨f, fun g hg => by simp only [hp, if_true]; exact h g hg⟩,
      Or.inl ⟨(nonEmptyArg_iff p).mp hp, o⟩, ?_⟩
    rw [stepOutcome_sent _ _ _ _ _ _ _ o (sapbrCmd_nulFree _ _ hk)
      (lt_of_le_of_lt (snprintf_length _ _) (by omega))]
    simp [optCmd, hp]
  · refine ⟨SIM800_OK, s, ⟨0, fun g _ => by simp only [hp]; rfl⟩,
      Or.inr ⟨fun h => hp ((nonEmptyArg_iff p).mpr h), rfl, rfl⟩, ?_⟩
    simp [optCmd, hp]

theorem readInv_init (w : World) (mem : List Nat) (N : Nat) (hlen : mem.length = N)
    (s0 : St) :
    ReadInv w N s0.nRecv
      { st := s0, resp := SIM800_HTTPRead.cleared (some ⟨mem, []⟩) N, idx := 0 } := by
  subst hlen
  by_cases h0 : mem.length > 0
  · refine ⟨(RespBuf.mk mem []).memset0 mem.length, by simp [SIM800_HTTPRead.cleared, h0],
      le_refl _, by simp [rxBytes_zero], ?_, ?_⟩
    · rw [memset0_full]
      simp [rxBytes_zero, storeBuf]
    · rw [memset0_full]
      simpa using logSafe_memset mem.length
  · have hm : mem = [] := List.length_eq_zero.mp (by omega)
    subst hm
    refine ⟨RespBuf.mk [] [], by simp [SIM800_HTTPRead.cleared], le_refl _,
      by simp [rxBytes_zero], by simp [rxBytes_zero, storeBuf], ?_⟩
    intro p hp
    simp at hp

theorem waitFor_cases (w : World) (fuel : Nat) (e : List Nat) (T : Nat) (s : St) :
    SIM800_WaitFor w fuel e T s = none ∨
    ∃ r s1, SIM800_WaitFor w fuel e T s = some (r, s1) ∧
      Returns (fun f => SIM800_WaitFor w f e T s) (r, s1) ∧ WaitOutcome w e T s r s1 := by
  cases h : SIM800_WaitFor w fuel e T s with
  | none => exact Or.inl rfl
  | some x =>
    obtain ⟨r, s1⟩ := x
    have o := waitFor_sound w fuel e T s r s1 h
    exact Or.inr ⟨r, s1, rfl, waitFor_complete w e T s r s1 o, o⟩

theorem sendCmdWait_cases (w : World) (fuel : Nat) (cmd e : List Nat) (T : Nat) (s : St) :
    SIM800_SendCmdWait w fuel cmd e T s = none ∨
    ∃ r s1, SIM800_SendCmdWait w fuel cmd e T s = some (r, s1) ∧
      Returns (fun f => SIM800_SendCmdWait w f cmd e T s) (r, s1) ∧
      StepOutcome w cmd e T s r s1 :=
  waitFor_cases w fuel e T (SIM800_SendString cmd s)

theorem httpRead_loop_mono (w : World) (N start : Nat) :
    ∀ f rs rs1, SIM800_HTTPRead.loop w N start f rs = some rs1 →
      ∀ g, f ≤ g → SIM800_HTTPRead.loop w N start g rs = some rs1 := by
  intro f
  induction f with
  | zero => intro rs rs1 h; simp [SIM800_HTTPRead.loop] at h
  | succ f ih =>
    intro rs rs1 h g hg
    obtain ⟨g1, rfl⟩ : ∃ g1, g = g1 + 1 := ⟨g - 1, by omega⟩
    rw [SIM800_HTTPRead.loop] at h ⊢
    cases hb : SIM800_HTTPRead.body w N start rs with
    | inl x => rw [hb] at h; exact h
    | inr x =>
      rw [hb] at h
      exact ih x rs1 h g1 (by omega)

theorem httpRead_cases (w : World) (fuel : Nat) (response : Option RespBuf) (N : Nat)
    (s : St) :
    SIM800_HTTPRead w fuel response N s = none ∨
    ∃ resp1 sR, SIM800_HTTPRead w fuel response N s = some (SIM800_OK, resp1, sR) ∧
      Returns (fun f => SIM800_HTTPRead w f response N s) (SIM800_OK, resp1, sR) ∧
      sR.tx = s.tx ++ [⟨s.nRecv, lit "AT+HTTPREAD\r\n"⟩] := by
  cases h : SIM800_HTTPRead w fuel response N s with
  | none => exact Or.inl rfl
  | some x =>
    right
    unfold SIM800_HTTPRead at h
    simp only [Option.bind_eq_some, Option.some.injEq] at h
    obtain ⟨⟨r0, s0⟩, h0, rs, hl, rfl⟩ := h
    have o0 := waitFor_sound _ _ _ _ _ _ _ h0
    obtain ⟨f0, hf0⟩ := waitFor_complete _ _ _ _ _ _ o0
    refine ⟨rs.resp, rs.st, rfl, ⟨f0 + fuel, fun f hf => ?_⟩, ?_⟩
    · simp only [SIM800_HTTPRead, hf0 f (by omega), Option.some_bind]
      rw [httpRead_loop_mono w N _ fuel _ rs hl f (by omega)]
      rfl
    · rw [httpRead_loop_tx w N _ fuel _ rs hl]
      simp only
      rw [(waitOutcome_st _ _ _ _ _ _ o0).1]
      rfl

theorem returns_isSome {α : Type} (m : Nat → Option α) (a : α) (h : Returns m a) :
    ∃ fuel, (m fuel).isSome = true := by
  obtain ⟨f, hf⟩ := h
  exact ⟨f, by rw [hf f (le_refl _)]; rfl⟩

theorem httpGet_terminates (w : World) (hc : ClockAdvances w 20000) (url : List Nat)
    (response : Option RespBuf) (maxLen : Nat) (s : St) :
    ∃ fuel, (SIM800_HTTPGet w fuel url response maxLen s).isSome = true := by
  obtain ⟨r0, s0, ⟨f0, h0⟩, -⟩ := sendCmdWait_returns w 20000 1000 hc (by omega)
    (lit "AT+HTTPTERM\r\n") (lit "OK") s
  obtain ⟨r1, s1, ⟨f1, h1⟩, -⟩ := sendCmdWait_returns w 20000 2000 hc (by omega)
    (lit "AT+HTTPINIT\r\n") (lit "OK") s0
  by_cases e1 : r1 = SIM800_OK
  swap
  · exact ⟨f0 + f1, by
      simp only [SIM800_HTTPGet, http_end, SIM800_SendCmdWait_body, Option.some_bind,
        Option.none_bind, Option.isSome_none, Option.isSome_some, Bool.false_eq_true, ne_eq,
        not_true_eq_false, not_false_eq_true, ite_true, ite_false, reduceCtorEq,
        h0 (f0 + f1) (by omega), h1 (f0 + f1) (by omega), e1]⟩
  subst e1
  obtain ⟨r2, s2, ⟨f2, h2⟩, -⟩ := sendCmdWait_returns w 20000 2000 hc (by omega)
    (lit "AT+HTTPPARA=\"CID\",1\r\n") (lit "OK") s1
  by_cases e2 : r2 = SIM800_OK
  swap
  · obtain ⟨rT, sT, ⟨fT, hT⟩, -⟩ := sendCmdWait_returns w 20000 2000 hc (by omega)
      (lit "AT+HTTPTERM\r\n") (lit "OK") s2
    refine ⟨f0 + f1 + f2 + fT, ?_⟩
    simp only [SIM800_HTTPGet, http_end, SIM800_SendCmdWait_body, Option.some_bind,
      Option.none_bind, Option.isSome_none, Option.isSome_some, Bool.false_eq_true, ne_eq,
      not_true_eq_false, not_false_eq_true, ite_true, ite_false, reduceCtorEq,
      h0 _ (show f0 ≤ f0 + f1 + f2 + fT by omega),
      h1 _ (show f1 ≤ f0 + f1 + f2 + fT by omega),
      h2 _ (show f2 ≤ f0 + f1 + f2 + fT by omega),
      hT _ (show fT ≤ f0 + f1 + f2 + fT by omega), e2]
  subst e2
  obtain ⟨r3, s3, ⟨f3, h3⟩, -⟩ := sendCmdWait_returns w 20000 3000 hc (by omega)
    (httpParaCmd 128 (lit "URL") url) (lit "OK") s2
  by_cases e3 : r3 = SIM800_OK
  swap
  · obtain ⟨rT, sT, ⟨fT, hT⟩, -⟩ := sendCmdWait_returns w 20000 2000 hc (by omega)
      (lit "AT+HTTPTERM\r\n") (lit "OK") s3
    refine ⟨f0 + f1 + f2 + f3 + fT, ?_⟩
    simp only [SIM800_HTTPGet, http_end, SIM800_SendCmdWait_body, Option.some_bind,
      Option.none_bind, Option.isSome_none, Option.isSome_some, Bool.false_eq_true, ne_eq,
      not_true_eq_false, not_false_eq_true, ite_true, ite_false, reduceCtorEq,
      h0 _ (show f0 ≤ f0 + f1 + f2 + f3 + fT by omega),
      h1 _ (show f1 ≤ f0 + f1 + f2 + f3 + fT by omega),
      h2 _ (show f2 ≤ f0 + f1 + f2 + f3 + fT by omega),
      h3 _ (show f3 ≤ f0 + f1 + f2 + f3 + fT by omega),
      hT _ (show fT ≤ f0 + f1 + f2 + f3 + fT by omega), e3]
  subst e3
  obtain ⟨r4, s4, ⟨f4, h4⟩, -⟩ := sendCmdWait_returns w 20000 15000 hc (by omega)
    (lit "AT+HTTPACTION=0\r\n") (lit "HTTPACTION:") s3
  by_cases e4 : r4 = SIM800_OK
  swap
  · obtain ⟨rT, sT, ⟨fT, hT⟩, -⟩ := sendCmdWait_returns w 20000 2000 hc (by omega)
      (lit "AT+HTTPTERM\r\n") (lit "OK") s4
    refine ⟨f0 + f1 + f2 + f3 + f4 + fT, ?_⟩
    simp only [SIM800_HTTPGet, http_end, SIM800_SendCmdWait_body, Option.some_bind,
      Option.none_bind, Option.isSome_none, Option.isSome_some, Bool.false_eq_true, ne_eq,
      not_true_eq_false, not_false_eq_true, ite_true, ite_false, reduceCtorEq,
      h0 _ (show f0 ≤ f0 + f1 + f2 + f3 + f4 + fT by omega),
      h1 _ (show f1 ≤ f0 + f1 + f2 + f3 + f4 + fT by omega),
      h2 _ (show f2 ≤ f0 + f1 + f2 + f3 + f4 + fT by omega),
      h3 _ (show f3 ≤ f0 + f1 + f2 + f3 + f4 + fT by omega),
      h4 _ (show f4 ≤ f0 + f1 + f2 + f3 + f4 + fT by omega),
      hT _ (show fT ≤ f0 + f1 + f2 + f3 + f4 + fT by omega), e4]
  subst e4
  obtain ⟨resp1, sR, ⟨fR, hR⟩, -⟩ := httpRead_returns w 20000 hc (by omega) response maxLen s4
  obtain ⟨rT, sT, ⟨fT, hT⟩, -⟩ := sendCmdWait_returns w 20000 2000 hc (by omega)
    (lit "AT+HTTPTERM\r\n") (lit "OK") sR
  refine ⟨f0 + f1 + f2 + f3 + f4 + fR + fT, ?_⟩
  simp only [SIM800_HTTPGet, http_end, SIM800_SendCmdWait_body, Option.some_bind,
    Option.none_bind, Option.isSome_none, Option.isSome_some, Bool.false_eq_true, ne_eq,
    not_true_eq_false, not_false_eq_true, ite_true, ite_false, reduceCtorEq,
    h0 _ (show f0 ≤ f0 + f1 + f2 + f3 + f4 + fR + fT by omega),
    h1 _ (show f1 ≤ f0 + f1 + f2 + f3 + f4 + fR + fT by omega),
    h2 _ (show f2 ≤ f0 + f1 + f2 + f3 + f4 + fR + fT by omega),
    h3 _ (show f3 ≤ f0 + f1 + f2 + f3 + f4 + fR + fT by omega),
    h4 _ (show f4 ≤ f0 + f1 + f2 + f3 + f4 + fR + fT by omega),
    hR _ (show fR ≤ f0 + f1 + f2 + f3 + f4 + fR + fT by omega),
    hT _ (show fT ≤ f0 + f1 + f2 + f3 + f4 + fR + fT by omega)]

theorem httpPost_terminates (w : World) (hc : ClockAdvances w 20000) (url contentType body : List Nat)
    (response : Option RespBuf) (maxLen : Nat) (s : St) :
    ∃ fuel, (SIM800_HTTPPost w fuel url contentType body response maxLen s).isSome = true := by
  obtain ⟨r0, s0, ⟨f0, h0⟩, -⟩ := sendCmdWait_returns w 20000 1000 hc (by omega)
    (lit "AT+HTTPTERM\r\n") (lit "OK") s
  obtain ⟨r1, s1, ⟨f1, h1⟩, -⟩ := sendCmdWait_returns w 20000 2000 hc (by omega)
    (lit "AT+HTTPINIT\r\n") (lit "OK") s0
  by_cases e1 : r1 = SIM800_OK
  swap
  · exact ⟨f0 + f1, by
      simp only [SIM800_HTTPPost, http_end, SIM800_SendCmdWait_body, Option.some_bind,
        Option.none_bind, Option.isSome_none, Option.isSome_some, Bool.false_eq_true, ne_eq,
        not_true_eq_false, not_false_eq_true, ite_true, ite_false, reduceCtorEq,
        h0 (f0 + f1) (by omega), h1 (f0 + f1) (by omega), e1]⟩
  subst e1
  obtain ⟨r2, s2, ⟨f2, h2⟩, -⟩ := sendCmdWait_returns w 20000 2000 hc (by omega)
    (lit "AT+HTTPPARA=\"CID\",1\r\n") (lit "OK") s1
  by_cases e2 : r2 = SIM800_OK
  swap
  · obtain ⟨rT, sT, ⟨fT, hT⟩, -⟩ := sendCmdWait_returns w 20000 2000 hc (by omega)
      (lit "AT+HTTPTERM\r\n") (lit "OK") s2
    refine ⟨f0 + f1 + f2 + fT, ?_⟩
    simp only [SIM800_HTTPPost, http_end, SIM800_SendCmdWait_body, Option.some_bind,
      Option.none_bind, Option.isSome_none, Option.isSome_some, Bool.false_eq_true, ne_eq,
      not_true_eq_false, not_false_eq_true, ite_true, ite_false, reduceCtorEq,
      h0 _ (show f0 ≤ f0 + f1 + f2 + fT by omega),
      h1 _ (show f1 ≤ f0 + f1 + f2 + fT by omega),
      h2 _ (show f2 ≤ f0 + f1 + f2 + fT by omega),
      hT _ (show fT ≤ f0 + f1 + f2 + fT by omega), e2]
  subst e2
  obtain ⟨r3, s3, ⟨f3, h3⟩, -⟩ := sendCmdWait_returns w 20000 3000 hc (by omega)
    (httpParaCmd 160 (lit "URL") url) (lit "OK") s2
  by_cases e3 : r3 = SIM800_OK
  swap
  · obtain ⟨rT, sT, ⟨fT, hT⟩, -⟩ := sendCmdWait_returns w 20000 2000 hc (by omega)
      (lit "AT+HTTPTERM\r\n") (lit "OK") s3
    refine ⟨f0 + f1 + f2 + f3 + fT, ?_⟩
    simp only [SIM800_HTTPPost, http_end, SIM800_SendCmdWait_body, Option.some_bind,
      Option.none_bind, Option.isSome_none, Option.isSome_some, Bool.false_eq_true, ne_eq,
      not_true_eq_false, not_false_eq_true, ite_true, ite_false, reduceCtorEq,
      h0 _ (show f0 ≤ f0 + f1 + f2 + f3 + fT by omega),
      h1 _ (show f1 ≤ f0 + f1 + f2 + f3 + fT by omega),
      h2 _ (show f2 ≤ f0 + f1 + f2 + f3 + fT by omega),
      h3 _ (show f3 ≤ f0 + f1 + f2 + f3 + fT by omega),
      hT _ (show fT ≤ f0 + f1 + f2 + f3 + fT by omega), e3]
  subst e3
  obtain ⟨r4, s4, ⟨f4, h4⟩, -⟩ := sendCmdWait_returns w 20000 3000 hc (by omega)
    (httpParaCmd 160 (lit "CONTENT") contentType) (lit "OK") s3
  by_cases e4 : r4 = SIM800_OK
  swap
  · obtain ⟨rT, sT, ⟨fT, hT⟩, -⟩ := sendCmdWait_returns w 20000 2000 hc (by omega)
      (lit "AT+HTTPTERM\r\n") (lit "OK") s4
    refine ⟨f0 + f1 + f2 + f3 + f4 + fT, ?_⟩
    simp only [SIM800_HTTPPost, http_end, SIM800_SendCmdWait_body, Option.some_bind,
      Option.none_bind, Option.isSome_none, Option.isSome_some, Bool.false_eq_true, ne_eq,
      not_true_eq_false, not_false_eq_true, ite_true, ite_false, reduceCtorEq,
      h0 _ (show f0 ≤ f0 + f1 + f2 + f3 + f4 + fT by omega),
      h1 _ (show f1 ≤ f0 + f1 + f2 + f3 + f4 + fT by omega),
      h2 _ (show f2 ≤ f0 + f1 + f2 + f3 + f4 + fT by omega),
      h3 _ (show f3 ≤ f0 + f1 + f2 + f3 + f4 + fT by omega),
      h4 _ (show f4 ≤ f0 + f1 + f2 + f3 + f4 + fT by omega),
      hT _ (show fT ≤ f0 + f1 + f2 + f3 + f4 + fT by omega), e4]
  subst e4
  obtain ⟨r5, s5, ⟨f5, h5⟩, -⟩ := sendCmdWait_returns w 20000 5000 hc (by omega)
    (httpDataCmd (strlen body % 2 ^ 16)) (lit "DOWNLOAD") s4
  by_cases e5 : r5 = SIM800_OK
  swap
  · obtain ⟨rT, sT, ⟨fT, hT⟩, -⟩ := sendCmdWait_returns w 20000 2000 hc (by omega)
      (lit "AT+HTTPTERM\r\n") (lit "OK") s5
    refine ⟨f0 + f1 + f2 + f3 + f4 + f5 + fT, ?_⟩
    simp only [SIM800_HTTPPost, http_end, SIM800_SendCmdWait_body, Option.some_bind,
      Option.none_bind, Option.isSome_none, Option.isSome_some, Bool.false_eq_true, ne_eq,
      not_true_eq_false, not_false_eq_true, ite_true, ite_false, reduceCtorEq,
      h0 _ (show f0 ≤ f0 + f1 + f2 + f3 + f4 + f5 + fT by omega),
      h1 _ (show f1 ≤ f0 + f1 + f2 + f3 + f4 + f5 + fT by omega),
      h2 _ (show f2 ≤ f0 + f1 + f2 + f3 + f4 + f5 + fT by omega),
      h3 _ (show f3 ≤ f0 + f1 + f2 + f3 + f4 + f5 + fT by omega),
      h4 _ (show f4 ≤ f0 + f1 + f2 + f3 + f4 + f5 + fT by omega),
      h5 _ (show f5 ≤ f0 + f1 + f2 + f3 + f4 + f5 + fT by omega),
      hT _ (show fT ≤ f0 + f1 + f2 + f3 + f4 + f5 + fT by omega), e5]
  subst e5
  obtain ⟨r6, s6, ⟨f6, h6⟩, -⟩ := sendCmdWait_returns w 20000 10000 hc (by omega)
    body (lit "OK") s5
  by_cases e6 : r6 = SIM800_OK
  swap
  · obtain ⟨rT, sT, ⟨fT, hT⟩, -⟩ := sendCmdWait_returns w 20000 2000 hc (by omega)
      (lit "AT+HTTPTERM\r\n") (lit "OK") s6
    refine ⟨f0 + f1 + f2 + f3 + f4 + f5 + f6 + fT, ?_⟩
    simp only [SIM800_HTTPPost, http_end, SIM800_SendCmdWait_body, Option.some_bind,
      Option.none_bind, Option.isSome_none, Option.isSome_some, Bool.false_eq_true, ne_eq,
      not_true_eq_false, not_false_eq_true, ite_true, ite_false, reduceCtorEq,
      h0 _ (show f0 ≤ f0 + f1 + f2 + f3 + f4 + f5 + f6 + fT by omega),
      h1 _ (show f1 ≤ f0 + f1 + f2 + f3 + f4 + f5 + f6 + fT by omega),
      h2 _ (show f2 ≤ f0 + f1 + f2 + f3 + f4 + f5 + f6 + fT by omega),
      h3 _ (show f3 ≤ f0 + f1 + f2 + f3 + f4 + f5 + f6 + fT by omega),
      h4 _ (show f4 ≤ f0 + f1 + f2 + f3 + f4 + f5 + f6 + fT by omega),
      h5 _ (show f5 ≤ f0 + f1 + f2 + f3 + f4 + f5 + f6 + fT by omega),
      h6 _ (show f6 ≤ f0 + f1 + f2 + f3 + f4 + f5 + f6 + fT by omega),
      hT _ (show fT ≤ f0 + f1 + f2 + f3 + f4 + f5 + f6 + fT by omega), e6]
  subst e6
  obtain ⟨r7, s7, ⟨f7, h7⟩, -⟩ := sendCmdWait_returns w 20000 20000 hc (by omega)
    (lit "AT+HTTPACTION=1\r\n") (lit "HTTPACTION:") s6
  by_cases e7 : r7 = SIM800_OK
  swap
  · obtain ⟨rT, sT, ⟨fT, hT⟩, -⟩ := sendCmdWait_returns w 20000 2000 hc (by omega)
      (lit "AT+HTTPTERM\r\n") (lit "OK") s7
    refine ⟨f0 + f1 + f2 + f3 + f4 + f5 + f6 + f7 + fT, ?_⟩
    simp only [SIM800_HTTPPost, http_end, SIM800_SendCmdWait_body, Option.some_bind,
      Option.none_bind, Option.isSome_none, Option.isSome_some, Bool.false_eq_true, ne_eq,
      not_true_eq_false, not_false_eq_true, ite_true, ite_false, reduceCtorEq,
      h0 _ (show f0 ≤ f0 + f1 + f2 + f3 + f4 + f5 + f6 + f7 + fT by omega),
      h1 _ (show f1 ≤ f0 + f1 + f2 + f3 + f4 + f5 + f6 + f7 + fT by omega),
      h2 _ (show f2 ≤ f0 + f1 + f2 + f3 + f4 + f5 + f6 + f7 + fT by omega),
      h3 _ (show f3 ≤ f0 + f1 + f2 + f3 + f4 + f5 + f6 + f7 + fT by omega),
      h4 _ (show f4 ≤ f0 + f1 + f2 + f3 + f4 + f5 + f6 + f7 + fT by omega),
      h5 _ (show f5 ≤ f0 + f1 + f2 + f3 + f4 + f5 + f6 + f7 + fT by omega),
      h6 _ (show f6 ≤ f0 + f1 + f2 + f3 + f4 + f5 + f6 + f7 + fT by omega),
      h7 _ (show f7 ≤ f0 + f1 + f2 + f3 + f4 + f5 + f6 + f7 + fT by omega),
      hT _ (show fT ≤ f0 + f1 + f2 + f3 + f4 + f5 + f6 + f7 + fT by omega), e7]
  subst e7
  obtain ⟨resp1, sR, ⟨fR, hR⟩, -⟩ := httpRead_returns w 20000 hc (by omega) response maxLen s7
  obtain ⟨rT, sT, ⟨fT, hT⟩, -⟩ := sendCmdWait_returns w 20000 2000 hc (by omega)
    (lit "AT+HTTPTERM\r\n") (lit "OK") sR
  refine ⟨f0 + f1 + f2 + f3 + f4 + f5 + f6 + f7 + fR + fT, ?_⟩
  simp only [SIM800_HTTPPost, http_end, SIM800_SendCmdWait_body, Option.some_bind,
    Option.none_bind, Option.isSome_none, Option.isSome_some, Bool.false_eq_true, ne_eq,
    not_true_eq_false, not_false_eq_true, ite_true, ite_false, reduceCtorEq,
    h0 _ (show f0 ≤ f0 + f1 + f2 + f3 + f4 + f5 + f6 + f7 + fR + fT by omega),
    h1 _ (show f1 ≤ f0 + f1 + f2 + f3 + f4 + f5 + f6 + f7 + fR + fT by omega),
    h2 _ (show f2 ≤ f0 + f1 + f2 + f3 + f4 + f5 + f6 + f7 + fR + fT by omega),
    h3 _ (show f3 ≤ f0 + f1 + f2 + f3 + f4 + f5 + f6 + f7 + fR + fT by omega),
    h4 _ (show f4 ≤ f0 + f1 + f2 + f3 + f4 + f5 + f6 + f7 + fR + fT by omega),
    h5 _ (show f5 ≤ f0 + f1 + f2 + f3 + f4 + f5 + f6 + f7 + fR + fT by omega),
    h6 _ (show f6 ≤ f0 + f1 + f2 + f3 + f4 + f5 + f6 + f7 + fR + fT by omega),
    h7 _ (show f7 ≤ f0 + f1 + f2 + f3 + f4 + f5 + f6 + f7 + fR + fT by omega),
    hR _ (show fR ≤ f0 + f1 + f2 + f3 + f4 + f5 + f6 + f7 + fR + fT by omega),
    hT _ (show fT ≤ f0 + f1 + f2 + f3 + f4 + f5 + f6 + f7 + fR + fT by omega)]

theorem httpGet_run (w : World) (url : List Nat)
    (response : Option RespBuf) (maxLen : Nat) (s : St)
    (hret : ∃ fuel, (SIM800_HTTPGet w fuel url response maxLen s).isSome = true) :
    ∃ r0 s0, StepOutcome w (lit "AT+HTTPTERM\r\n") (lit "OK") 1000 s r0 s0 ∧
    ∃ r1 s1, StepOutcome w (lit "AT+HTTPINIT\r\n") (lit "OK") 2000 s0 r1 s1 ∧
    ((r1 ≠ SIM800_OK ∧ Returns (fun f => SIM800_HTTPGet w f url response maxLen s) (r1, response, s1)) ∨
     (r1 = SIM800_OK ∧ ∃ r2 s2, StepOutcome w (lit "AT+HTTPPARA=\"CID\",1\r\n") (lit "OK") 2000 s1 r2 s2 ∧
      ((r2 ≠ SIM800_OK ∧ ∃ rT sT, StepOutcome w (lit "AT+HTTPTERM\r\n") (lit "OK") 2000 s2 rT sT ∧
          Returns (fun f => SIM800_HTTPGet w f url response maxLen s) (r2, response, sT)) ∨
       (r2 = SIM800_OK ∧ ∃ r3 s3, StepOutcome w (httpParaCmd 128 (lit "URL") url) (lit "OK") 3000 s2 r3 s3 ∧
        ((r3 ≠ SIM800_OK ∧ ∃ rT sT, StepOutcome w (lit "AT+HTTPTERM\r\n") (lit "OK") 2000 s3 rT sT ∧
            Returns (fun f => SIM800_HTTPGet w f url response maxLen s) (r3, response, sT)) ∨
         (r3 = SIM800_OK ∧ ∃ r4 s4, StepOutcome w (lit "AT+HTTPACTION=0\r\n") (lit "HTTPACTION:") 15000 s3 r4 s4 ∧
          ((r4 ≠ SIM800_OK ∧ ∃ rT sT, StepOutcome w (lit "AT+HTTPTERM\r\n") (lit "OK") 2000 s4 rT sT ∧
              Returns (fun f => SIM800_HTTPGet w f url response maxLen s) (r4, response, sT)) ∨
           (r4 = SIM800_OK ∧ ∃ resp1 sR,
               Returns (fun f => SIM800_HTTPRead w f response maxLen s4) (SIM800_OK, resp1, sR) ∧
               sR.tx = s4.tx ++ [⟨s4.nRecv, lit "AT+HTTPREAD\r\n"⟩] ∧
               ∃ rT sT, StepOutcome w (lit "AT+HTTPTERM\r\n") (lit "OK") 2000 sR rT sT ∧
               Returns (fun f => SIM800_HTTPGet w f url response maxLen s) (SIM800_OK, resp1, sT))))))))) := by
  obtain ⟨fuel, hret⟩ := hret
  rcases sendCmdWait_cases w fuel (lit "AT+HTTPTERM\r\n") (lit "OK") 1000 s with
    hn | ⟨r0, s0, g0, ⟨f0, h0⟩, o0⟩
  · simp only [SIM800_HTTPGet, http_end, SIM800_SendCmdWait_body, Option.some_bind,
      Option.none_bind, Option.isSome_none, Option.isSome_some, Bool.false_eq_true, ne_eq,
      not_true_eq_false, not_false_eq_true, ite_true, ite_false, reduceCtorEq, hn] at hret
  refine ⟨r0, s0, o0, ?_⟩
  rcases sendCmdWait_cases w fuel (lit "AT+HTTPINIT\r\n") (lit "OK") 2000 s0 with
    hn | ⟨r1, s1, g1, ⟨f1, h1⟩, o1⟩
  · simp only [SIM800_HTTPGet, http_end, SIM800_SendCmdWait_body, Option.some_bind,
      Option.none_bind, Option.isSome_none, Option.isSome_some, Bool.false_eq_true, ne_eq,
      not_true_eq_false, not_false_eq_true, ite_true, ite_false, reduceCtorEq, g0,
      hn] at hret
  refine ⟨r1, s1, o1, ?_⟩
  by_cases e1 : r1 = SIM800_OK
  swap
  · exact Or.inl ⟨e1, f0 + f1, fun f hf => by
      simp only [SIM800_HTTPGet, http_end, SIM800_SendCmdWait_body, Option.some_bind,
        Option.none_bind, Option.isSome_none, Option.isSome_some, Bool.false_eq_true, ne_eq,
        not_true_eq_false, not_false_eq_true, ite_true, ite_false, reduceCtorEq,
        h0 f (by omega), h1 f (by omega), e1]⟩
  subst e1
  refine Or.inr ⟨rfl, ?_⟩
  rcases sendCmdWait_cases w fuel (lit "AT+HTTPPARA=\"CID\",1\r\n") (lit "OK") 2000 s1 with
    hn | ⟨r2, s2, g2, ⟨f2, h2⟩, o2⟩
  · simp only [SIM800_HTTPGet, http_end, SIM800_SendCmdWait_body, Option.some_bind,
      Option.none_bind, Option.isSome_none, Option.isSome_some, Bool.false_eq_true, ne_eq,
      not_true_eq_false, not_false_eq_true, ite_true, ite_false, reduceCtorEq, g0, g1,
      hn] at hret
  refine ⟨r2, s2, o2, ?_⟩
  by_cases e2 : r2 = SIM800_OK
  swap
  · refine Or.inl ⟨e2, ?_⟩
    rcases sendCmdWait_cases w fuel (lit "AT+HTTPTERM\r\n") (lit "OK") 2000 s2 with
      hn | ⟨rT, sT, gT, ⟨fT, hT⟩, oT⟩
    · simp only [SIM800_HTTPGet, http_end, SIM800_SendCmdWait_body, Option.some_bind,
        Option.none_bind, Option.isSome_none, Option.isSome_some, Bool.false_eq_true, ne_eq,
        not_true_eq_false, not_false_eq_true, ite_true, ite_false, reduceCtorEq, g0, g1, g2,
        e2, hn] at hret
    exact ⟨rT, sT, oT, f0 + f1 + f2 + fT, fun f hf => by
      simp only [SIM800_HTTPGet, http_end, SIM800_SendCmdWait_body, Option.some_bind,
        Option.none_bind, Option.isSome_none, Option.isSome_some, Bool.false_eq_true, ne_eq,
        not_true_eq_false, not_false_eq_true, ite_true, ite_false, reduceCtorEq,
        h0 f (by omega), h1 f (by omega), h2 f (by omega), hT f (by omega), e2]⟩
  subst e2
  refine Or.inr ⟨rfl, ?_⟩
  rcases sendCmdWait_cases w fuel (httpParaCmd 128 (lit "URL") url) (lit "OK") 3000 s2 with
    hn | ⟨r3, s3, g3, ⟨f3, h3⟩, o3⟩
  · simp only [SIM800_HTTPGet, http_end, SIM800_SendCmdWait_body, Option.some_bind,
      Option.none_bind, Option.isSome_none, Option.isSome_some, Bool.false_eq_true, ne_eq,
      not_true_eq_false, not_false_eq_true, ite_true, ite_false, reduceCtorEq, g0, g1, g2,
      hn] at hret
  refine ⟨r3, s3, o3, ?_⟩
  by_cases e3 : r3 = SIM800_OK
  swap
  · refine Or.inl ⟨e3, ?_⟩
    rcases sendCmdWait_cases w fuel (lit "AT+HTTPTERM\r\n") (lit "OK") 2000 s3 with
      hn | ⟨rT, sT, gT, ⟨fT, hT⟩, oT⟩
    · simp only [SIM800_HTTPGet, http_end, SIM800_SendCmdWait_body, Option.some_bind,
        Option.none_bind, Option.isSome_none, Option.isSome_some, Bool.false_eq_true, ne_eq,
        not_true_eq_false, not_false_eq_true, ite_true, ite_false, reduceCtorEq, g0, g1, g2,
        g3, e3, hn] at hret
    exact ⟨rT, sT, oT, f0 + f1 + f2 + f3 + fT, fun f hf => by
      simp only [SIM800_HTTPGet, http_end, SIM800_SendCmdWait_body, Option.some_bind,
        Option.none_bind, Option.isSome_none, Option.isSome_some, Bool.false_eq_true, ne_eq,
        not_true_eq_false, not_false_eq_true, ite_true, ite_false, reduceCtorEq,
        h0 f (by omega), h1 f (by omega), h2 f (by omega), h3 f (by omega), hT f (by omega),
        e3]⟩
  subst e3
  refine Or.inr ⟨rfl, ?_⟩
  rcases sendCmdWait_cases w fuel (lit "AT+HTTPACTION=0\r\n") (lit "HTTPACTION:") 15000 s3 with
    hn | ⟨r4, s4, g4, ⟨f4, h4⟩, o4⟩
  · simp only [SIM800_HTTPGet, http_end, SIM800_SendCmdWait_body, Option.some_bind,
      Option.none_bind, Option.isSome_none, Option.isSome_some, Bool.false_eq_true, ne_eq,
      not_true_eq_false, not_false_eq_true, ite_true, ite_false, reduceCtorEq, g0, g1, g2,
      g3, hn] at hret
  refine ⟨r4, s4, o4, ?_⟩
  by_cases e4 : r4 = SIM800_OK
  swap
  · refine Or.inl ⟨e4, ?_⟩
    rcases sendCmdWait_cases w fuel (lit "AT+HTTPTERM\r\n") (lit "OK") 2000 s4 with
      hn | ⟨rT, sT, gT, ⟨fT, hT⟩, oT⟩
    · simp only [SIM800_HTTPGet, http_end, SIM800_SendCmdWait_body, Option.some_bind,
        Option.none_bind, Option.isSome_none, Option.isSome_some, Bool.false_eq_true, ne_eq,
        not_true_eq_false, not_false_eq_true, ite_true, ite_false, reduceCtorEq, g0, g1, g2,
        g3, g4, e4, hn] at hret
    exact ⟨rT, sT, oT, f0 + f1 + f2 + f3 + f4 + fT, fun f hf => by
      simp only [SIM800_HTTPGet, http_end, SIM800_SendCmdWait_body, Option.some_bind,
        Option.none_bind, Option.isSome_none, Option.isSome_some, Bool.false_eq_true, ne_eq,
        not_true_eq_false, not_false_eq_true, ite_true, ite_false, reduceCtorEq,
        h0 f (by omega), h1 f (by omega), h2 f (by omega), h3 f (by omega), h4 f (by omega),
        hT f (by omega), e4]⟩
  subst e4
  refine Or.inr ⟨rfl, ?_⟩
  rcases httpRead_cases w fuel response maxLen s4 with hn | ⟨resp1, sR, gR, ⟨fR, hR⟩, tR⟩
  · simp only [SIM800_HTTPGet, http_end, SIM800_SendCmdWait_body, Option.some_bind,
      Option.none_bind, Option.isSome_none, Option.isSome_some, Bool.false_eq_true, ne_eq,
      not_true_eq_false, not_false_eq_true, ite_true, ite_false, reduceCtorEq, g0, g1, g2,
      g3, g4, hn] at hret
  refine ⟨resp1, sR, ⟨fR, hR⟩, tR, ?_⟩
  rcases sendCmdWait_cases w fuel (lit "AT+HTTPTERM\r\n") (lit "OK") 2000 sR with
    hn | ⟨rT, sT, gT, ⟨fT, hT⟩, oT⟩
  · simp only [SIM800_HTTPGet, http_end, SIM800_SendCmdWait_body, Option.some_bind,
      Option.none_bind, Option.isSome_none, Option.isSome_some, Bool.false_eq_true, ne_eq,
      not_true_eq_false, not_false_eq_true, ite_true, ite_false, reduceCtorEq, g0, g1, g2,
      g3, g4, gR, hn] at hret
  exact ⟨rT, sT, oT, f0 + f1 + f2 + f3 + f4 + fR + fT, fun f hf => by
    simp only [SIM800_HTTPGet, http_end, SIM800_SendCmdWait_body, Option.some_bind,
      Option.none_bind, Option.isSome_none, Option.isSome_some, Bool.false_eq_true, ne_eq,
      not_true_eq_false, not_false_eq_true, ite_true, ite_false, reduceCtorEq,
      h0 f (by omega), h1 f (by omega), h2 f (by omega), h3 f (by omega), h4 f (by omega),
      hR f (by omega), hT f (by omega)]⟩

theorem httpPost_run (w : World) (url contentType body : List Nat)
    (response : Option RespBuf) (maxLen : Nat) (s : St)
    (hret : ∃ fuel, (SIM800_HTTPPost w fuel url contentType body response maxLen s).isSome = true) :
    ∃ r0 s0, StepOutcome w (lit "AT+HTTPTERM\r\n") (lit "OK") 1000 s r0 s0 ∧
    ∃ r1 s1, StepOutcome w (lit "AT+HTTPINIT\r\n") (lit "OK") 2000 s0 r1 s1 ∧
    ((r1 ≠ SIM800_OK ∧ Returns (fun f => SIM800_HTTPPost w f url contentType body response maxLen s) (r1, response, s1)) ∨
     (r1 = SIM800_OK ∧ ∃ r2 s2, StepOutcome w (lit "AT+HTTPPARA=\"CID\",1\r\n") (lit "OK") 2000 s1 r2 s2 ∧
      ((r2 ≠ SIM800_OK ∧ ∃ rT sT, StepOutcome w (lit "AT+HTTPTERM\r\n") (lit "OK") 2000 s2 rT sT ∧
          Returns (fun f => SIM800_HTTPPost w f url contentType body response maxLen s) (r2, response, sT)) ∨
       (r2 = SIM800_OK ∧ ∃ r3 s3, StepOutcome w (httpParaCmd 160 (lit "URL") url) (lit "OK") 3000 s2 r3 s3 ∧
        ((r3 ≠ SIM800_OK ∧ ∃ rT sT, StepOutcome w (lit "AT+HTTPTERM\r\n") (lit "OK") 2000 s3 rT sT ∧
            Returns (fun f => SIM800_HTTPPost w f url contentType body response maxLen s) (r3, response, sT)) ∨
         (r3 = SIM800_OK ∧ ∃ r4 s4, StepOutcome w (httpParaCmd 160 (lit "CONTENT") contentType) (lit "OK") 3000 s3 r4 s4 ∧
          ((r4 ≠ SIM800_OK ∧ ∃ rT sT, StepOutcome w (lit "AT+HTTPTERM\r\n") (lit "OK") 2000 s4 rT sT ∧
              Returns (fun f => SIM800_HTTPPost w f url contentType body response maxLen s) (r4, response, sT)) ∨
           (r4 = SIM800_OK ∧ ∃ r5 s5, StepOutcome w (httpDataCmd (strlen body % 2 ^ 16)) (lit "DOWNLOAD") 5000 s4 r5 s5 ∧
            ((r5 ≠ SIM800_OK ∧ ∃ rT sT, StepOutcome w (lit "AT+HTTPTERM\r\n") (lit "OK") 2000 s5 rT sT ∧
                Returns (fun f => SIM800_HTTPPost w f url contentType body response maxLen s) (r5, response, sT)) ∨
             (r5 = SIM800_OK ∧ ∃ r6 s6, StepOutcome w body (lit "OK") 10000 s5 r6 s6 ∧
              ((r6 ≠ SIM800_OK ∧ ∃ rT sT, StepOutcome w (lit "AT+HTTPTERM\r\n") (lit "OK") 2000 s6 rT sT ∧
                  Returns (fun f => SIM800_HTTPPost w f url contentType body response maxLen s) (r6, response, sT)) ∨
               (r6 = SIM800_OK ∧ ∃ r7 s7, StepOutcome w (lit "AT+HTTPACTION=1\r\n") (lit "HTTPACTION:") 20000 s6 r7 s7 ∧
                ((r7 ≠ SIM800_OK ∧ ∃ rT sT, StepOutcome w (lit "AT+HTTPTERM\r\n") (lit "OK") 2000 s7 rT sT ∧
                    Returns (fun f => SIM800_HTTPPost w f url contentType body response maxLen s) (r7, response, sT)) ∨
                 (r7 = SIM800_OK ∧ ∃ resp1 sR,
                     Returns (fun f => SIM800_HTTPRead w f response maxLen s7) (SIM800_OK, resp1, sR) ∧
                     sR.tx = s7.tx ++ [⟨s7.nRecv, lit "AT+HTTPREAD\r\n"⟩] ∧
                     ∃ rT sT, StepOutcome w (lit "AT+HTTPTERM\r\n") (lit "OK") 2000 sR rT sT ∧
                     Returns (fun f => SIM800_HTTPPost w f url contentType body response maxLen s) (SIM800_OK, resp1, sT))))))))))))))) := by
  obtain ⟨fuel, hret⟩ := hret
  rcases sendCmdWait_cases w fuel (lit "AT+HTTPTERM\r\n") (lit "OK") 1000 s with
    hn | ⟨r0, s0, g0, ⟨f0, h0⟩, o0⟩
  · simp only [SIM800_HTTPPost, http_end, SIM800_SendCmdWait_body, Option.some_bind,
      Option.none_bind, Option.isSome_none, Option.isSome_some, Bool.false_eq_true, ne_eq,
      not_true_eq_false, not_false_eq_true, ite_true, ite_false, reduceCtorEq, hn] at hret
  refine ⟨r0, s0, o0, ?_⟩
  rcases sendCmdWait_cases w fuel (lit "AT+HTTPINIT\r\n") (lit "OK") 2000 s0 with
    hn | ⟨r1, s1, g1, ⟨f1, h1⟩, o1⟩
  · simp only [SIM800_HTTPPost, http_end, SIM800_SendCmdWait_body, Option.some_bind,
      Option.none_bind, Option.isSome_none, Option.isSome_some, Bool.false_eq_true, ne_eq,
      not_true_eq_false, not_false_eq_true, ite_true, ite_false, reduceCtorEq, g0,
      hn] at hret
  refine ⟨r1, s1, o1, ?_⟩
  by_cases e1 : r1 = SIM800_OK
  swap
  · exact Or.inl ⟨e1, f0 + f1, fun f hf => by
      simp only [SIM800_HTTPPost, http_end, SIM800_SendCmdWait_body, Option.some_bind,
        Option.none_bind, Option.isSome_none, Option.isSome_some, Bool.false_eq_true, ne_eq,
        not_true_eq_false, not_false_eq_true, ite_true, ite_false, reduceCtorEq,
        h0 f (by omega), h1 f (by omega), e1]⟩
  subst e1
  refine Or.inr ⟨rfl, ?_⟩
  rcases sendCmdWait_cases w fuel (lit "AT+HTTPPARA=\"CID\",1\r\n") (lit "OK") 2000 s1 with
    hn | ⟨r2, s2, g2, ⟨f2, h2⟩, o2⟩
  · simp only [SIM800_HTTPPost, http_end, SIM800_SendCmdWait_body, Option.some_bind,
      Option.none_bind, Option.isSome_none, Option.isSome_some, Bool.false_eq_true, ne_eq,
      not_true_eq_false, not_false_eq_true, ite_true, ite_false, reduceCtorEq, g0, g1,
      hn] at hret
  refine ⟨r2, s2, o2, ?_⟩
  by_cases e2 : r2 = SIM800_OK
  swap
  · refine Or.inl ⟨e2, ?_⟩
    rcases sendCmdWait_cases w fuel (lit "AT+HTTPTERM\r\n") (lit "OK") 2000 s2 with
      hn | ⟨rT, sT, gT, ⟨fT, hT⟩, oT⟩
    · simp only [SIM800_HTTPPost, http_end, SIM800_SendCmdWait_body, Option.some_bind,
        Option.none_bind, Option.isSome_none, Option.isSome_some, Bool.false_eq_true, ne_eq,
        not_true_eq_false, not_false_eq_true, ite_true, ite_false, reduceCtorEq, g0, g1, g2,
        e2, hn] at hret
    exact ⟨rT, sT, oT, f0 + f1 + f2 + fT, fun f hf => by
      simp only [SIM800_HTTPPost, http_end, SIM800_SendCmdWait_body, Option.some_bind,
        Option.none_bind, Option.isSome_none, Option.isSome_some, Bool.false_eq_true, ne_eq,
        not_true_eq_false, not_false_eq_true, ite_true, ite_false, reduceCtorEq,
        h0 f (by omega), h1 f (by omega), h2 f (by omega), hT f (by omega), e2]⟩
  subst e2
  refine Or.inr ⟨rfl, ?_⟩
  rcases sendCmdWait_cases w fuel (httpParaCmd 160 (lit "URL") url) (lit "OK") 3000 s2 with
    hn | ⟨r3, s3, g3, ⟨f3, h3⟩, o3⟩
  · simp only [SIM800_HTTPPost, http_end, SIM800_SendCmdWait_body, Option.some_bind,
      Option.none_bind, Option.isSome_none, Option.isSome_some, Bool.false_eq_true, ne_eq,
      not_true_eq_false, not_false_eq_true, ite_true, ite_false, reduceCtorEq, g0, g1, g2,
      hn] at hret
  refine ⟨r3, s3, o3, ?_⟩
  by_cases e3 : r3 = SIM800_OK
  swap
  · refine Or.inl ⟨e3, ?_⟩
    rcases sendCmdWait_cases w fuel (lit "AT+HTTPTERM\r\n") (lit "OK") 2000 s3 with
      hn | ⟨rT, sT, gT, ⟨fT, hT⟩, oT⟩
    · simp only [SIM800_HTTPPost, http_end, SIM800_SendCmdWait_body, Option.some_bind,
        Option.none_bind, Option.isSome_none, Option.isSome_some, Bool.false_eq_true, ne_eq,
        not_true_eq_false, not_false_eq_true, ite_true, ite_false, reduceCtorEq, g0, g1, g2,
        g3, e3, hn] at hret
    exact ⟨rT, sT, oT, f0 + f1 + f2 + f3 + fT, fun f hf => by
      simp only [SIM800_HTTPPost, http_end, SIM800_SendCmdWait_body, Option.some_bind,
        Option.none_bind, Option.isSome_none, Option.isSome_some, Bool.false_eq_true, ne_eq,
        not_true_eq_false, not_false_eq_true, ite_true, ite_false, reduceCtorEq,
        h0 f (by omega), h1 f (by omega), h2 f (by omega), h3 f (by omega), hT f (by omega),
        e3]⟩
  subst e3
  refine Or.inr ⟨rfl, ?_⟩
  rcases sendCmdWait_cases w fuel (httpParaCmd 160 (lit "CONTENT") contentType) (lit "OK") 3000 s3 with
    hn | ⟨r4, s4, g4, ⟨f4, h4⟩, o4⟩
  · simp only [SIM800_HTTPPost, http_end, SIM800_SendCmdWait_body, Option.some_bind,
      Option.none_bind, Option.isSome_none, Option.isSome_some, Bool.false_eq_true, ne_eq,
      not_true_eq_false, not_false_eq_true, ite_true, ite_false, reduceCtorEq, g0, g1, g2,
      g3, hn] at hret
  refine ⟨r4, s4, o4, ?_⟩
  by_cases e4 : r4 = SIM800_OK
  swap
  · refine Or.inl ⟨e4, ?_⟩
    rcases sendCmdWait_cases w fuel (lit "AT+HTTPTERM\r\n") (lit "OK") 2000 s4 with
      hn | ⟨rT, sT, gT, ⟨fT, hT⟩, oT⟩
    · simp only [SIM800_HTTPPost, http_end, SIM800_SendCmdWait_body, Option.some_bind,
        Option.none_bind, Option.isSome_none, Option.isSome_some, Bool.false_eq_true, ne_eq,
        not_true_eq_false, not_false_eq_true, ite_true, ite_false, reduceCtorEq, g0, g1, g2,
        g3, g4, e4, hn] at hret
    exact ⟨rT, sT, oT, f0 + f1 + f2 + f3 + f4 + fT, fun f hf => by
      simp only [SIM800_HTTPPost, http_end, SIM800_SendCmdWait_body, Option.some_bind,
        Option.none_bind, Option.isSome_none, Option.isSome_some, Bool.false_eq_true, ne_eq,
        not_true_eq_false, not_false_eq_true, ite_true, ite_false, reduceCtorEq,
        h0 f (by omega), h1 f (by omega), h2 f (by omega), h3 f (by omega), h4 f (by omega),
        hT f (by omega), e4]⟩
  subst e4
  refine Or.inr ⟨rfl, ?_⟩
  rcases sendCmdWait_cases w fuel (httpDataCmd (strlen body % 2 ^ 16)) (lit "DOWNLOAD") 5000 s4 with
    hn | ⟨r5, s5, g5, ⟨f5, h5⟩, o5⟩
  · simp only [SIM800_HTTPPost, http_end, SIM800_SendCmdWait_body, Option.some_bind,
      Option.none_bind, Option.isSome_none, Option.isSome_some, Bool.false_eq_true, ne_eq,
      not_true_eq_false, not_false_eq_true, ite_true, ite_false, reduceCtorEq, g0, g1, g2,
      g3, g4, hn] at hret
  refine ⟨r5, s5, o5, ?_⟩
  by_cases e5 : r5 = SIM800_OK
  swap
  · refine Or.inl ⟨e5, ?_⟩
    rcases sendCmdWait_cases w fuel (lit "AT+HTTPTERM\r\n") (lit "OK") 2000 s5 with
      hn | ⟨rT, sT, gT, ⟨fT, hT⟩, oT⟩
    · simp only [SIM800_HTTPPost, http_end, SIM800_SendCmdWait_body, Option.some_bind,
        Option.none_bind, Option.isSome_none, Option.isSome_some, Bool.false_eq_true, ne_eq,
        not_true_eq_false, not_false_eq_true, ite_true, ite_false, reduceCtorEq, g0, g1, g2,
        g3, g4, g5, e5, hn] at hret
    exact ⟨rT, sT, oT, f0 + f1 + f2 + f3 + f4 + f5 + fT, fun f hf => by
      simp only [SIM800_HTTPPost, http_end, SIM800_SendCmdWait_body, Option.some_bind,
        Option.none_bind, Option.isSome_none, Option.isSome_some, Bool.false_eq_true, ne_eq,
        not_true_eq_false, not_false_eq_true, ite_true, ite_false, reduceCtorEq,
        h0 f (by omega), h1 f (by omega), h2 f (by omega), h3 f (by omega), h4 f (by omega),
        h5 f (by omega), hT f (by omega), e5]⟩
  subst e5
  refine Or.inr ⟨rfl, ?_⟩
  rcases sendCmdWait_cases w fuel body (lit "OK") 10000 s5 with
    hn | ⟨r6, s6, g6, ⟨f6, h6⟩, o6⟩
  · simp only [SIM800_HTTPPost, http_end, SIM800_SendCmdWait_body, Option.some_bind,
      Option.none_bind, Option.isSome_none, Option.isSome_some, Bool.false_eq_true, ne_eq,
      not_true_eq_false, not_false_eq_true, ite_true, ite_false, reduceCtorEq, g0, g1, g2,
      g3, g4, g5, hn] at hret
  refine ⟨r6, s6, o6, ?_⟩
  by_cases e6 : r6 = SIM800_OK
  swap
  · refine Or.inl ⟨e6, ?_⟩
    rcases sendCmdWait_cases w fuel (lit "AT+HTTPTERM\r\n") (lit "OK") 2000 s6 with
      hn | ⟨rT, sT, gT, ⟨fT, hT⟩, oT⟩
    · simp only [SIM800_HTTPPost, http_end, SIM800_SendCmdWait_body, Option.some_bind,
        Option.none_bind, Option.isSome_none, Option.isSome_some, Bool.false_eq_true, ne_eq,
        not_true_eq_false, not_false_eq_true, ite_true, ite_false, reduceCtorEq, g0, g1, g2,
        g3, g4, g5, g6, e6, hn] at hret
    exact ⟨rT, sT, oT, f0 + f1 + f2 + f3 + f4 + f5 + f6 + fT, fun f hf => by
      simp only [SIM800_HTTPPost, http_end, SIM800_SendCmdWait_body, Option.some_bind,
        Option.none_bind, Option.isSome_none, Option.isSome_some, Bool.false_eq_true, ne_eq,
        not_true_eq_false, not_false_eq_true, ite_true, ite_false, reduceCtorEq,
        h0 f (by omega), h1 f (by omega), h2 f (by omega), h3 f (by omega), h4 f (by omega),
        h5 f (by omega), h6 f (by omega), hT f (by omega), e6]⟩
  subst e6
  refine Or.inr ⟨rfl, ?_⟩
  rcases sendCmdWait_cases w fuel (lit "AT+HTTPACTION=1\r\n") (lit "HTTPACTION:") 20000 s6 with
    hn | ⟨r7, s7, g7, ⟨f7, h7⟩, o7⟩
  · simp only [SIM800_HTTPPost, http_end, SIM800_SendCmdWait_body, Option.some_bind,
      Option.none_bind, Option.isSome_none, Option.isSome_some, Bool.false_eq_true, ne_eq,
      not_true_eq_false, not_false_eq_true, ite_true, ite_false, reduceCtorEq, g0, g1, g2,
      g3, g4, g5, g6, hn] at hret
  refine ⟨r7, s7, o7, ?_⟩
  by_cases e7 : r7 = SIM800_OK
  swap
  · refine Or.inl ⟨e7, ?_⟩
    rcases sendCmdWait_cases w fuel (lit "AT+HTTPTERM\r\n") (lit "OK") 2000 s7 with
      hn | ⟨rT, sT, gT, ⟨fT, hT⟩, oT⟩
    · simp only [SIM800_HTTPPost, http_end, SIM800_SendCmdWait_body, Option.some_bind,
        Option.none_bind, Option.isSome_none, Option.isSome_some, Bool.false_eq_true, ne_eq,
        not_true_eq_false, not_false_eq_true, ite_true, ite_false, reduceCtorEq, g0, g1, g2,
        g3, g4, g5, g6, g7, e7, hn] at hret
    exact ⟨rT, sT, oT, f0 + f1 + f2 + f3 + f4 + f5 + f6 + f7 + fT, fun f hf => by
      simp only [SIM800_HTTPPost, http_end, SIM800_SendCmdWait_body, Option.some_bind,
        Option.none_bind, Option.isSome_none, Option.isSome_some, Bool.false_eq_true, ne_eq,
        not_true_eq_false, not_false_eq_true, ite_true, ite_false, reduceCtorEq,
        h0 f (by omega), h1 f (by omega), h2 f (by omega), h3 f (by omega), h4 f (by omega),
        h5 f (by omega), h6 f (by omega), h7 f (by omega), hT f (by omega), e7]⟩
  subst e7
  refine Or.inr ⟨rfl, ?_⟩
  rcases httpRead_cases w fuel response maxLen s7 with hn | ⟨resp1, sR, gR, ⟨fR, hR⟩, tR⟩
  · simp only [SIM800_HTTPPost, http_end, SIM800_SendCmdWait_body, Option.some_bind,
      Option.none_bind, Option.isSome_none, Option.isSome_some, Bool.false_eq_true, ne_eq,
      not_true_eq_false, not_false_eq_true, ite_true, ite_false, reduceCtorEq, g0, g1, g2,
      g3, g4, g5, g6, g7, hn] at hret
  refine ⟨resp1, sR, ⟨fR, hR⟩, tR, ?_⟩
  rcases sendCmdWait_cases w fuel (lit "AT+HTTPTERM\r\n") (lit "OK") 2000 sR with
    hn | ⟨rT, sT, gT, ⟨fT, hT⟩, oT⟩
  · simp only [SIM800_HTTPPost, http_end, SIM800_SendCmdWait_body, Option.some_bind,
      Option.none_bind, Option.isSome_none, Option.isSome_some, Bool.false_eq_true, ne_eq,
      not_true_eq_false, not_false_eq_true, ite_true, ite_false, reduceCtorEq, g0, g1, g2,
      g3, g4, g5, g6, g7, gR, hn] at hret
  exact ⟨rT, sT, oT, f0 + f1 + f2 + f3 + f4 + f5 + f6 + f7 + fR + fT, fun f hf => by
    simp only [SIM800_HTTPPost, http_end, SIM800_SendCmdWait_body, Option.some_bind,
      Option.none_bind, Option.isSome_none, Option.isSome_some, Bool.false_eq_true, ne_eq,
      not_true_eq_false, not_false_eq_true, ite_true, ite_false, reduceCtorEq,
      h0 f (by omega), h1 f (by omega), h2 f (by omega), h3 f (by omega), h4 f (by omega),
      h5 f (by omega), h6 f (by omega), h7 f (by omega), hR f (by omega), hT f (by omega)]⟩

theorem httpGet_shape (w : World) (url : List Nat)
    (response : Option RespBuf) (maxLen : Nat) (s : St)
    (hret : ∃ fuel, (SIM800_HTTPGet w fuel url response maxLen s).isSome = true) :
    ∃ r0 s0 r1 s1, StepOutcome w (lit "AT+HTTPTERM\r\n") (lit "OK") 1000 s r0 s0 ∧
      StepOutcome w (lit "AT+HTTPINIT\r\n") (lit "OK") 2000 s0 r1 s1 ∧
      ∃ r resp1 sE, Returns (fun f => SIM800_HTTPGet w f url response maxLen s) (r, resp1, sE) ∧
        ((r1 ≠ SIM800_OK ∧ r = r1 ∧
            sE.sent = s.sent ++ [lit "AT+HTTPTERM\r\n", lit "AT+HTTPINIT\r\n"]) ∨
         (r1 = SIM800_OK ∧ ∃ k, 1 ≤ k ∧ k ≤ 4 ∧
            sE.sent = s.sent ++ [lit "AT+HTTPTERM\r\n", lit "AT+HTTPINIT\r\n"] ++
              (httpGetSteps url).take k ++ [lit "AT+HTTPTERM\r\n"])) := by
  obtain ⟨r0, s0, o0, r1, s1, o1, h⟩ := httpGet_run w url response maxLen s hret
  have c0 := stepOutcome_sent _ _ _ _ _ _ _ o0 (by decide) (by decide)
  have c1 := stepOutcome_sent _ _ _ _ _ _ _ o1 (by decide) (by decide)
  refine ⟨r0, s0, r1, s1, o0, o1, ?_⟩
  rcases h with ⟨e1, hR⟩ | ⟨e1, r2, s2, o2, h⟩
  · exact ⟨r1, response, s1, hR, Or.inl ⟨e1, rfl, by rw [c1, c0]; simp⟩⟩
  have c2 := stepOutcome_sent _ _ _ _ _ _ _ o2 (by decide) (by decide)
  rcases h with ⟨e2, rT, sT, oT, hR⟩ | ⟨e2, r3, s3, o3, h⟩
  · have cT := stepOutcome_sent _ _ _ _ _ _ _ oT (by decide) (by decide)
    exact ⟨r2, response, sT, hR, Or.inr ⟨e1, 1, by omega, by omega, by
      rw [cT, c2, c1, c0]; simp [-Nat.reducePow, httpGetSteps]⟩⟩
  have c3 := stepOutcome_sent _ _ _ _ _ _ _ o3 (httpParaCmd_nulFree _ _ _ (by decide))
    (lt_of_le_of_lt (snprintf_length _ _) (by omega))
  rcases h with ⟨e3, rT, sT, oT, hR⟩ | ⟨e3, r4, s4, o4, h⟩
  · have cT := stepOutcome_sent _ _ _ _ _ _ _ oT (by decide) (by decide)
    exact ⟨r3, response, sT, hR, Or.inr ⟨e1, 2, by omega, by omega, by
      rw [cT, c3, c2, c1, c0]; simp [-Nat.reducePow, httpGetSteps]⟩⟩
  have c4 := stepOutcome_sent _ _ _ _ _ _ _ o4 (by decide) (by decide)
  rcases h with ⟨e4, rT, sT, oT, hR⟩ | ⟨e4, resp1, sR, hRead, tR, rT, sT, oT, hR⟩
  · have cT := stepOutcome_sent _ _ _ _ _ _ _ oT (by decide) (by decide)
    exact ⟨r4, response, sT, hR, Or.inr ⟨e1, 3, by omega, by omega, by
      rw [cT, c4, c3, c2, c1, c0]; simp [-Nat.reducePow, httpGetSteps]⟩⟩
  have cR := sent_append _ _ _ tR
  have cT := stepOutcome_sent _ _ _ _ _ _ _ oT (by decide) (by decide)
  exact ⟨SIM800_OK, resp1, sT, hR, Or.inr ⟨e1, 4, by omega, by omega, by
    rw [cT, cR, c4, c3, c2, c1, c0]; simp [-Nat.reducePow, httpGetSteps]⟩⟩

theorem httpPost_shape (w : World) (url contentType body : List Nat)
    (response : Option RespBuf) (maxLen : Nat) (s : St)
    (hret : ∃ fuel, (SIM800_HTTPPost w fuel url contentType body response maxLen s).isSome = true) :
    ∃ r0 s0 r1 s1, StepOutcome w (lit "AT+HTTPTERM\r\n") (lit "OK") 1000 s r0 s0 ∧
      StepOutcome w (lit "AT+HTTPINIT\r\n") (lit "OK") 2000 s0 r1 s1 ∧
      ∃ r resp1 sE, Returns (fun f => SIM800_HTTPPost w f url contentType body response maxLen s) (r, resp1, sE) ∧
        ((r1 ≠ SIM800_OK ∧ r = r1 ∧
            sE.sent = s.sent ++ [lit "AT+HTTPTERM\r\n", lit "AT+HTTPINIT\r\n"]) ∨
         (r1 = SIM800_OK ∧ ∃ k, 1 ≤ k ∧ k ≤ 7 ∧
            sE.sent = s.sent ++ [lit "AT+HTTPTERM\r\n", lit "AT+HTTPINIT\r\n"] ++
              (httpPostSteps url contentType body).take k ++ [lit "AT+HTTPTERM\r\n"])) := by
  obtain ⟨r0, s0, o0, r1, s1, o1, h⟩ := httpPost_run w url contentType body response maxLen s hret
  have c0 := stepOutcome_sent _ _ _ _ _ _ _ o0 (by decide) (by decide)
  have c1 := stepOutcome_sent _ _ _ _ _ _ _ o1 (by decide) (by decide)
  refine ⟨r0, s0, r1, s1, o0, o1, ?_⟩
  rcases h with ⟨e1, hR⟩ | ⟨e1, r2, s2, o2, h⟩
  · exact ⟨r1, response, s1, hR, Or.inl ⟨e1, rfl, by rw [c1, c0]; simp⟩⟩
  have c2 := stepOutcome_sent _ _ _ _ _ _ _ o2 (by decide) (by decide)
  rcases h with ⟨e2, rT, sT, oT, hR⟩ | ⟨e2, r3, s3, o3, h⟩
  · have cT := stepOutcome_sent _ _ _ _ _ _ _ oT (by decide) (by decide)
    exact ⟨r2, response, sT, hR, Or.inr ⟨e1, 1, by omega, by omega, by
      rw [cT, c2, c1, c0]; simp [-Nat.reducePow, httpPostSteps]⟩⟩
  have c3 := stepOutcome_sent _ _ _ _ _ _ _ o3 (httpParaCmd_nulFree _ _ _ (by decide))
    (lt_of_le_of_lt (snprintf_length _ _) (by omega))
  rcases h with ⟨e3, rT, sT, oT, hR⟩ | ⟨e3, r4, s4, o4, h⟩
  · have cT := stepOutcome_sent _ _ _ _ _ _ _ oT (by decide) (by decide)
    exact ⟨r3, response, sT, hR, Or.inr ⟨e1, 2, by omega, by omega, by
      rw [cT, c3, c2, c1, c0]; simp [-Nat.reducePow, httpPostSteps]⟩⟩
  have c4 := stepOutcome_sent _ _ _ _ _ _ _ o4 (httpParaCmd_nulFree _ _ _ (by decide))
    (lt_of_le_of_lt (snprintf_length _ _) (by omega))
  rcases h with ⟨e4, rT, sT, oT, hR⟩ | ⟨e4, r5, s5, o5, h⟩
  · have cT := stepOutcome_sent _ _ _ _ _ _ _ oT (by decide) (by decide)
    exact ⟨r4, response, sT, hR, Or.inr ⟨e1, 3, by omega, by omega, by
      rw [cT, c4, c3, c2, c1, c0]; simp [-Nat.reducePow, httpPostSteps]⟩⟩
  have c5 := stepOutcome_sent _ _ _ _ _ _ _ o5 (httpDataCmd_nulFree _)
    (lt_of_le_of_lt (snprintf_length _ _) (by omega))
  rcases h with ⟨e5, rT, sT, oT, hR⟩ | ⟨e5, r6, s6, o6, h⟩
  · have cT := stepOutcome_sent _ _ _ _ _ _ _ oT (by decide) (by decide)
    exact ⟨r5, response, sT, hR, Or.inr ⟨e1, 4, by omega, by omega, by
      rw [cT, c5, c4, c3, c2, c1, c0]; simp [-Nat.reducePow, httpPostSteps]⟩⟩
  have c6 := stepOutcome_sent_raw _ _ _ _ _ _ _ o6
  rcases h with ⟨e6, rT, sT, oT, hR⟩ | ⟨e6, r7, s7, o7, h⟩
  · have cT := stepOutcome_sent _ _ _ _ _ _ _ oT (by decide) (by decide)
    exact ⟨r6, response, sT, hR, Or.inr ⟨e1, 5, by omega, by omega, by
      rw [cT, c6, c5, c4, c3, c2, c1, c0]; simp [-Nat.reducePow, httpPostSteps]⟩⟩
  have c7 := stepOutcome_sent _ _ _ _ _ _ _ o7 (by decide) (by decide)
  rcases h with ⟨e7, rT, sT, oT, hR⟩ | ⟨e7, resp1, sR, hRead, tR, rT, sT, oT, hR⟩
  · have cT := stepOutcome_sent _ _ _ _ _ _ _ oT (by decide) (by decide)
    exact ⟨r7, response, sT, hR, Or.inr ⟨e1, 6, by omega, by omega, by
      rw [cT, c7, c6, c5, c4, c3, c2, c1, c0]; simp [-Nat.reducePow, httpPostSteps]⟩⟩
  have cR := sent_append _ _ _ tR
  have cT := stepOutcome_sent _ _ _ _ _ _ _ oT (by decide) (by decide)
  exact ⟨SIM800_OK, resp1, sT, hR, Or.inr ⟨e1, 7, by omega, by omega, by
    rw [cT, cR, c7, c6, c5, c4, c3, c2, c1, c0]; simp [-Nat.reducePow, httpPostSteps]⟩⟩

theorem wPost_clock : ClockAdvances wPost 20000 := by
  intro i n
  refine ⟨i + 50 + 4294967296 * n, by omega, ?_⟩
  simp only [elapsed, tickAt, wPost]
  omega

theorem httpParaCmd_ne_term (size : Nat) (hs : 10 ≤ size) (key v : List Nat) :
    httpParaCmd size key v ≠ lit "AT+HTTPTERM\r\n" := by
  intro h
  have h1 := congrArg (List.take 9) h
  have h2 : (httpParaCmd size key v).take 9 = lit "AT+HTTPPA" := by
    unfold httpParaCmd snprintf
    rw [List.take_take, Nat.min_eq_left (by omega)]
    simp only [List.append_assoc]
    rw [List.take_append_of_le_length (by decide)]
    decide
  rw [h2] at h1
  exact absurd h1 (by decide)

theorem httpDataCmd_ne_term (n : Nat) : httpDataCmd n ≠ lit "AT+HTTPTERM\r\n" := by
  intro h
  have h1 := congrArg (List.take 9) h
  have h2 : (httpDataCmd n).take 9 = lit "AT+HTTPDA" := by
    unfold httpDataCmd snprintf
    rw [List.take_take]
    simp only [List.append_assoc]
    rw [List.take_append_of_le_length (by decide)]
    decide
  rw [h2] at h1
  exact absurd h1 (by decide)

theorem term_not_mem_getSteps (url : List Nat) :
    lit "AT+HTTPTERM\r\n" ∉ httpGetSteps url := by
  intro h
  simp only [httpGetSteps, List.mem_cons, List.mem_singleton, List.not_mem_nil,
    or_false] at h
  rcases h with h | h | h | h
  · exact absurd h (by decide)
  · exact httpParaCmd_ne_term 128 (by omega) _ _ h.symm
  · exact absurd h (by decide)
  · exact absurd h (by decide)

theorem term_mem_postSteps (url contentType body x : List Nat)
    (hx : x ∈ httpPostSteps url contentType body) (h : x = lit "AT+HTTPTERM\r\n") :
    x = body.take (strlen body % 2 ^ 16) := by
  simp only [httpPostSteps, List.mem_cons, List.mem_singleton, List.not_mem_nil,
    or_false] at hx
  rcases hx with h1 | h1 | h1 | h1 | h1 | h1 | h1
  · rw [h1] at h; exact absurd h (by decide)
  · rw [h1] at h; exact absurd h (httpParaCmd_ne_term 160 (by omega) _ _)
  · rw [h1] at h; exact absurd h (httpParaCmd_ne_term 160 (by omega) _ _)
  · rw [h1] at h; exact absurd h (httpDataCmd_ne_term _)
  · exact h1
  · rw [h1] at h; exact absurd h (by decide)
  · rw [h1] at h; exact absurd h (by decide)

theorem optStep_cases (w : World) (fuel : Nat) (key : List Nat) (hk : NulFree key)
    (p : Option (List Nat)) (s : St) :
    (if nonEmptyArg p = true then
        SIM800_SendCmdWait w fuel (sapbrCmd key (p.getD [])) (lit "OK") 2000 s
      else some (SIM800_OK, s)) = none ∨
    ∃ r s1,
      (if nonEmptyArg p = true then
          SIM800_SendCmdWait w fuel (sapbrCmd key (p.getD [])) (lit "OK") 2000 s
        else some (SIM800_OK, s)) = some (r, s1) ∧
      Returns (fun f => if nonEmptyArg p = true then
          SIM800_SendCmdWait w f (sapbrCmd key (p.getD [])) (lit "OK") 2000 s
        else some (SIM800_OK, s)) (r, s1) ∧
      OptStepOutcome w key p s r s1 ∧ s1.sent = s.sent ++ optCmd key p := by
  by_cases hp : nonEmptyArg p = true
  · rcases sendCmdWait_cases w fuel (sapbrCmd key (p.getD [])) (lit "OK") 2000 s with
      hn | ⟨r, s1, g, ⟨f, h⟩, o⟩
    · exact Or.inl (by simp only [hp, if_true]; exact hn)
    · refine Or.inr ⟨r, s1, by simp only [hp, if_true]; exact g,
        ⟨f, fun g hg => by simp only [hp, if_true]; exact h g hg⟩,
        Or.inl ⟨(nonEmptyArg_iff p).mp hp, o⟩, ?_⟩
      rw [stepOutcome_sent _ _ _ _ _ _ _ o (sapbrCmd_nulFree _ _ hk)
        (lt_of_le_of_lt (snprintf_length _ _) (by omega))]
      simp [optCmd, hp]
  · refine Or.inr ⟨SIM800_OK, s, by simp only [hp]; rfl, ⟨0, fun g _ => by simp only [hp]; rfl⟩,
      Or.inr ⟨fun h => hp ((nonEmptyArg_iff p).mpr h), rfl, rfl⟩, ?_⟩
    simp [optCmd, hp]

theorem init_terminates (w : World) (hc : ClockAdvances w 1000) (s : St) :
    ∃ fuel, (SIM800_Init w fuel s).isSome = true := by
  obtain ⟨r1, s1, ⟨f1, h1⟩, -⟩ := sendCmdWait_returns w 1000 1000 hc (le_refl _)
    (lit "AT\r\n") (lit "OK") s
  by_cases e1 : r1 = SIM800_OK
  swap
  · exact ⟨f1, by simp [SIM800_Init, h1 f1 (le_refl _), e1]⟩
  subst e1
  obtain ⟨r2, s2, ⟨f2, h2⟩, -⟩ := sendCmdWait_returns w 1000 1000 hc (le_refl _)
    (lit "ATE0\r\n") (lit "OK") s1
  by_cases e2 : r2 = SIM800_OK
  swap
  · exact ⟨f1 + f2, by
      simp [SIM800_Init, h1 (f1 + f2) (by omega), h2 (f1 + f2) (by omega), e2]⟩
  subst e2
  obtain ⟨r3, s3, ⟨f3, h3⟩, -⟩ := sendCmdWait_returns w 1000 1000 hc (le_refl _)
    (lit "AT+CMGF=1\r\n") (lit "OK") s2
  by_cases e3 : r3 = SIM800_OK
  swap
  · exact ⟨f1 + f2 + f3, by
      simp [SIM800_Init, h1 (f1 + f2 + f3) (by omega), h2 (f1 + f2 + f3) (by omega),
        h3 (f1 + f2 + f3) (by omega), e3]⟩
  subst e3
  obtain ⟨r4, s4, ⟨f4, h4⟩, -⟩ := sendCmdWait_returns w 1000 1000 hc (le_refl _)
    (lit "AT+CSCS=\"GSM\"\r\n") (lit "OK") s3
  exact ⟨f1 + f2 + f3 + f4, by
    simp [SIM800_Init, h1 (f1 + f2 + f3 + f4) (by omega), h2 (f1 + f2 + f3 + f4) (by omega),
      h3 (f1 + f2 + f3 + f4) (by omega), h4 (f1 + f2 + f3 + f4) (by omega)]⟩

theorem sendSMS_terminates (w : World) (hc : ClockAdvances w 15000) (number text : List Nat)
    (s : St) : ∃ fuel, (SIM800_SendSMS w fuel number text s).isSome = true := by
  obtain ⟨r1, s1, ⟨f1, h1⟩, -⟩ := sendCmdWait_returns w 15000 1000 hc (by omega)
    (lit "AT+CMGF=1\r\n") (lit "OK") s
  by_cases e1 : r1 = SIM800_OK
  swap
  · exact ⟨f1, by simp [SIM800_SendSMS, h1 f1 (le_refl _), e1]⟩
  subst e1
  obtain ⟨r2, s2, ⟨f2, h2⟩, -⟩ := sendCmdWait_returns w 15000 3000 hc (by omega)
    (cmgsCmd number) (lit ">") s1
  by_cases e2 : r2 = SIM800_OK
  swap
  · exact ⟨f1 + f2, by
      simp [SIM800_SendSMS, SIM800_SendCmdWait_body, h1 (f1 + f2) (by omega),
        h2 (f1 + f2) (by omega), e2]⟩
  subst e2
  obtain ⟨r3, s3, ⟨f3, h3⟩, -⟩ := waitFor_returns w 15000 15000 hc (le_refl _) (lit "OK")
    (SIM800_SendData [0x1A] 1 (SIM800_SendString text s2))
  exact ⟨f1 + f2 + f3, by
    simp [SIM800_SendSMS, SIM800_SendCmdWait_body, h1 (f1 + f2 + f3) (by omega),
      h2 (f1 + f2 + f3) (by omega), h3 (f1 + f2 + f3) (by omega)]⟩

theorem setupGPRS_terminates (w : World) (hc : ClockAdvances w 10000) (apn : List Nat)
    (user pwd : Option (List Nat)) (s : St) :
    ∃ fuel, (SIM800_SetupGPRS w fuel apn user pwd s).isSome = true := by
  obtain ⟨r1, s1, ⟨f1, h1⟩, -⟩ := sendCmdWait_returns w 10000 2000 hc (by omega)
    (lit "AT+SAPBR=3,1,\"Contype\",\"GPRS\"\r\n") (lit "OK") s
  by_cases e1 : r1 = SIM800_OK
  swap
  · exact ⟨f1, by simp [SIM800_SetupGPRS, h1 f1 (le_refl _), e1]⟩
  subst e1
  obtain ⟨r2, s2, ⟨f2, h2⟩, -⟩ := sendCmdWait_returns w 10000 2000 hc (by omega)
    (sapbrCmd (lit "APN") apn) (lit "OK") s1
  by_cases e2 : r2 = SIM800_OK
  swap
  · exact ⟨f1 + f2, by
      simp [SIM800_SetupGPRS, h1 (f1 + f2) (by omega), h2 (f1 + f2) (by omega), e2]⟩
  subst e2
  obtain ⟨r3, s3, ⟨f3, h3⟩, -, -⟩ := optStep_returns w hc (lit "USER") (by decide) user s2
  by_cases e3 : r3 = SIM800_OK
  swap
  · exact ⟨f1 + f2 + f3, by
      simp [SIM800_SetupGPRS, h1 (f1 + f2 + f3) (by omega), h2 (f1 + f2 + f3) (by omega),
        h3 (f1 + f2 + f3) (by omega), e3]⟩
  subst e3
  obtain ⟨r4, s4, ⟨f4, h4⟩, -, -⟩ := optStep_returns w hc (lit "PWD") (by decide) pwd s3
  by_cases e4 : r4 = SIM800_OK
  swap
  · exact ⟨f1 + f2 + f3 + f4, by
      simp [SIM800_SetupGPRS, h1 (f1 + f2 + f3 + f4) (by omega),
        h2 (f1 + f2 + f3 + f4) (by omega), h3 (f1 + f2 + f3 + f4) (by omega),
        h4 (f1 + f2 + f3 + f4) (by omega), e4]⟩
  subst e4
  obtain ⟨r5, s5, ⟨f5, h5⟩, -⟩ := sendCmdWait_returns w 10000 10000 hc (by omega)
    (lit "AT+SAPBR=1,1\r\n") (lit "OK") s4
  refine ⟨f1 + f2 + f3 + f4 + f5, ?_⟩
  by_cases e5 : r5 = SIM800_OK
  · simp [SIM800_SetupGPRS, h1 (f1 + f2 + f3 + f4 + f5) (by omega),
      h2 (f1 + f2 + f3 + f4 + f5) (by omega), h3 (f1 + f2 + f3 + f4 + f5) (by omega),
      h4 (f1 + f2 + f3 + f4 + f5) (by omega), h5 (f1 + f2 + f3 + f4 + f5) (by omega), e5]
  · simp [SIM800_SetupGPRS, h1 (f1 + f2 + f3 + f4 + f5) (by omega),
      h2 (f1 + f2 + f3 + f4 + f5) (by omega), h3 (f1 + f2 + f3 + f4 + f5) (by omega),
      h4 (f1 + f2 + f3 + f4 + f5) (by omega), h5 (f1 + f2 + f3 + f4 + f5) (by omega), e5]

theorem tickElapsed_eq (w : World) (s : St) (k : Nat) :
    tickElapsed w s.nTick (s.nTick + 1 + k) = (elapsedAt w s k : Int) := by
  simp only [tickElapsed, elapsedAt, elapsed, tickAt]
  have h1 := Nat.mod_lt (w.tick (s.nTick + 1 + k)) (show 0 < 2 ^ 32 by decide)
  have h2 := Nat.mod_lt (w.tick s.nTick) (show 0 < 2 ^ 32 by decide)
  generalize w.tick (s.nTick + 1 + k) % 2 ^ 32 = a at *
  generalize w.tick s.nTick % 2 ^ 32 = b at *
  omega

theorem waitFor_never (w : World) (e : List Nat) (T : Nat) (s : St)
    (ht : ∀ i, elapsedAt w s i < T) (hm : ∀ i, ¬ MarkerVisible w e s i) (fuel : Nat) :
    SIM800_WaitFor w fuel e T s = none := by
  cases h : SIM800_WaitFor w fuel e T s with
  | none => rfl
  | some x =>
    obtain ⟨r, s1⟩ := x
    obtain ⟨k, -, h1 | h1⟩ := waitFor_sound w fuel e T s r s1 h
    · exact absurd h1.1 (Nat.not_le.mpr (ht k))
    · exact absurd ((markerVisible_iff w e s k).mpr h1.2.1) (hm k)

/-- C1 (as amended): when the tick source keeps advancing, `SIM800_HTTPGet` and
`SIM800_HTTPPost` return; and whenever such a call returns after a successful session-init
step, it has transmitted "AT+HTTPTERM\r\n" exactly once after its other steps, as the last
transmission of the call, whichever later step failed and whatever the initial best-effort
termination yielded; when the session-init step fails, the call returns that failure with
"AT+HTTPINIT\r\n" as its last transmission and no final termination.  None of the other
steps transmits the text of the termination command, the body of a POST apart. -/
theorem SIM800_HTTP_final_termination (w : World) (url contentType body : List Nat)
    (response : Option RespBuf) (maxLen : Nat) (s : St) :
    (ClockAdvances w 20000 →
      (∃ fuel, (SIM800_HTTPGet w fuel url response maxLen s).isSome = true) ∧
      (∃ fuel, (SIM800_HTTPPost w fuel url contentType body response maxLen s).isSome = true)) ∧
    ((∃ fuel, (SIM800_HTTPGet w fuel url response maxLen s).isSome = true) →
    ∃ r0 s0 r1 s1, StepOutcome w (lit "AT+HTTPTERM\r\n") (lit "OK") 1000 s r0 s0 ∧
      StepOutcome w (lit "AT+HTTPINIT\r\n") (lit "OK") 2000 s0 r1 s1 ∧
      ∃ r resp1 sE, Returns (fun f => SIM800_HTTPGet w f url response maxLen s) (r, resp1, sE) ∧
        ((r1 ≠ SIM800_OK ∧ r = r1 ∧
            sE.sent = s.sent ++ [lit "AT+HTTPTERM\r\n", lit "AT+HTTPINIT\r\n"]) ∨
         (r1 = SIM800_OK ∧ ∃ k, 1 ≤ k ∧ k ≤ 4 ∧
            sE.sent = s.sent ++ [lit "AT+HTTPTERM\r\n", lit "AT+HTTPINIT\r\n"] ++
              (httpGetSteps url).take k ++ [lit "AT+HTTPTERM\r\n"]))) ∧
    ((∃ fuel, (SIM800_HTTPPost w fuel url contentType body response maxLen s).isSome = true) →
    ∃ r0 s0 r1 s1, StepOutcome w (lit "AT+HTTPTERM\r\n") (lit "OK") 1000 s r0 s0 ∧
      StepOutcome w (lit "AT+HTTPINIT\r\n") (lit "OK") 2000 s0 r1 s1 ∧
      ∃ r resp1 sE, Returns (fun f => SIM800_HTTPPost w f url contentType body response maxLen s) (r, resp1, sE) ∧
        ((r1 ≠ SIM800_OK ∧ r = r1 ∧
            sE.sent = s.sent ++ [lit "AT+HTTPTERM\r\n", lit "AT+HTTPINIT\r\n"]) ∨
         (r1 = SIM800_OK ∧ ∃ k, 1 ≤ k ∧ k ≤ 7 ∧
            sE.sent = s.sent ++ [lit "AT+HTTPTERM\r\n", lit "AT+HTTPINIT\r\n"] ++
              (httpPostSteps url contentType body).take k ++ [lit "AT+HTTPTERM\r\n"]))) ∧
    lit "AT+HTTPTERM\r\n" ∉ httpGetSteps url ∧
    (∀ x ∈ httpPostSteps url contentType body, x = lit "AT+HTTPTERM\r\n" →
      x = body.take (strlen body % 2 ^ 16)) :=
  ⟨fun hc => ⟨httpGet_terminates w hc url response maxLen s,
      httpPost_terminates w hc url contentType body response maxLen s⟩,
    httpGet_shape w url response maxLen s,
    httpPost_shape w url contentType body response maxLen s,
    term_not_mem_getSteps url,
    fun x hx h => term_mem_postSteps url contentType body x hx h⟩

/-- C1 (witness): a transport on which a POST gets as far as the action step, which
times out; both calls return, the POST with the trace shown. -/
theorem SIM800_HTTP_final_termination_witness :
    ClockAdvances wPost 20000 ∧
    ((∃ fuel, (SIM800_HTTPGet wPost fuel (lit "http://a") none 0 st0).isSome = true) ∧
    ∃ r0 s0 r1 s1, StepOutcome wPost (lit "AT+HTTPTERM\r\n") (lit "OK") 1000 st0 r0 s0 ∧
      StepOutcome wPost (lit "AT+HTTPINIT\r\n") (lit "OK") 2000 s0 r1 s1 ∧
      ∃ r resp1 sE, Returns (fun f => SIM800_HTTPGet wPost f (lit "http://a") none 0 st0) (r, resp1, sE) ∧
        ((r1 ≠ SIM800_OK ∧ r = r1 ∧
            sE.sent = st0.sent ++ [lit "AT+HTTPTERM\r\n", lit "AT+HTTPINIT\r\n"]) ∨
         (r1 = SIM800_OK ∧ ∃ k, 1 ≤ k ∧ k ≤ 4 ∧
            sE.sent = st0.sent ++ [lit "AT+HTTPTERM\r\n", lit "AT+HTTPINIT\r\n"] ++
              (httpGetSteps (lit "http://a")).take k ++ [lit "AT+HTTPTERM\r\n"]))) ∧
    ((∃ fuel, (SIM800_HTTPPost wPost fuel (lit "http://a") (lit "text/plain") (lit "abc") none 0 st0).isSome = true) ∧
    ∃ r0 s0 r1 s1, StepOutcome wPost (lit "AT+HTTPTERM\r\n") (lit "OK") 1000 st0 r0 s0 ∧
      StepOutcome wPost (lit "AT+HTTPINIT\r\n") (lit "OK") 2000 s0 r1 s1 ∧
      ∃ r resp1 sE, Returns (fun f => SIM800_HTTPPost wPost f (lit "http://a") (lit "text/plain") (lit "abc") none 0 st0) (r, resp1, sE) ∧
        ((r1 ≠ SIM800_OK ∧ r = r1 ∧
            sE.sent = st0.sent ++ [lit "AT+HTTPTERM\r\n", lit "AT+HTTPINIT\r\n"]) ∨
         (r1 = SIM800_OK ∧ ∃ k, 1 ≤ k ∧ k ≤ 7 ∧
            sE.sent = st0.sent ++ [lit "AT+HTTPTERM\r\n", lit "AT+HTTPINIT\r\n"] ++
              (httpPostSteps (lit "http://a") (lit "text/plain") (lit "abc")).take k ++ [lit "AT+HTTPTERM\r\n"]))) ∧
    (SIM800_HTTPPost wPost 60 (lit "http://a") (lit "text/plain") (lit "abc") none 0 st0).map
        (fun x => (x.1, x.2.2.sent)) =
      some (SIM800_TIMEOUT, [lit "AT+HTTPTERM\r\n", lit "AT+HTTPINIT\r\n",
        lit "AT+HTTPPARA=\"CID\",1\r\n", lit "AT+HTTPPARA=\"URL\",\"http://a\"\r\n",
        lit "AT+HTTPPARA=\"CONTENT\",\"text/plain\"\r\n", lit "AT+HTTPDATA=3,10000\r\n",
        lit "abc", lit "AT+HTTPACTION=1\r\n", lit "AT+HTTPTERM\r\n"]) :=
  ⟨wPost_clock,
    ⟨⟨60, by decide⟩,
      (SIM800_HTTP_final_termination wPost (lit "http://a") (lit "text/plain") (lit "abc")
        none 0 st0).2.1 ⟨60, by decide⟩⟩,
    ⟨⟨60, by decide⟩,
      (SIM800_HTTP_final_termination wPost (lit "http://a") (lit "text/plain") (lit "abc")
        none 0 st0).2.2.1 ⟨60, by decide⟩⟩,
    by decide⟩

/-- C1 (counterexample to the claim as stated): on the silent transport the session-init
step of `SIM800_HTTPGet` and of `SIM800_HTTPPost` times out; the call returns with
"AT+HTTPINIT\r\n" as the last transmission, the final "AT+HTTPTERM\r\n" is not sent. -/
theorem SIM800_HTTP_init_failure_counterexample :
    (∀ fuel, 1 ≤ fuel →
      SIM800_HTTPGet wSilent fuel (lit "http://a") none 0 st0 =
        some (SIM800_TIMEOUT, none,
          { nTick := 4, nRecv := 0,
            tx := [⟨0, lit "AT+HTTPTERM\r\n"⟩, ⟨0, lit "AT+HTTPINIT\r\n"⟩] })) ∧
    (∀ fuel, 1 ≤ fuel →
      SIM800_HTTPPost wSilent fuel (lit "http://a") (lit "text/plain") (lit "abc") none 0 st0 =
        some (SIM800_TIMEOUT, none,
          { nTick := 4, nRecv := 0,
            tx := [⟨0, lit "AT+HTTPTERM\r\n"⟩, ⟨0, lit "AT+HTTPINIT\r\n"⟩] })) ∧
    [lit "AT+HTTPTERM\r\n", lit "AT+HTTPINIT\r\n"].getLast? ≠
      some (lit "AT+HTTPTERM\r\n") := by
  refine ⟨fun fuel hf => ?_, fun fuel hf => ?_, by decide⟩
  · obtain ⟨g, rfl⟩ : ∃ g, fuel = g + 1 := ⟨fuel - 1, by omega⟩
    rfl
  · obtain ⟨g, rfl⟩ : ∃ g, fuel = g + 1 := ⟨fuel - 1, by omega⟩
    rfl

/-- C2 (as amended): `SIM800_WaitFor` returns `SIM800_OK` exactly when some successful
receive made before the deadline leaves the marker visible in the C string of the scan
buffer (the accumulated bytes before their first NUL byte); it then returns right after
the first such receive `k`, and does so with every sufficiently large fuel. -/
theorem SIM800_WaitFor_ok_iff (w : World) (e : List Nat) (T : Nat) (s s1 : St) :
    ((∃ fuel, SIM800_WaitFor w fuel e T s = some (SIM800_OK, s1)) ↔
      ∃ k, s1 = stFound s k ∧ (∀ i, i ≤ k → elapsedAt w s i < T) ∧ MarkerVisible w e s k ∧
        ∀ i, i < k → ¬ MarkerVisible w e s i) ∧
    (Returns (fun f => SIM800_WaitFor w f e T s) (SIM800_OK, s1) ↔
      ∃ k, s1 = stFound s k ∧ (∀ i, i ≤ k → elapsedAt w s i < T) ∧ MarkerVisible w e s k ∧
        ∀ i, i < k → ¬ MarkerVisible w e s i) := by
  rw [← waitOutcome_ok_iff]
  refine ⟨⟨fun ⟨f, h⟩ => waitFor_sound w f e T s _ _ h, fun h => ?_⟩,
    ⟨fun ⟨f, h⟩ => waitFor_sound w f e T s _ _ (h f (le_refl _)),
      waitFor_complete w e T s _ _⟩⟩
  obtain ⟨f, hf⟩ := waitFor_complete w e T s _ _ h
  exact ⟨f, hf f (le_refl _)⟩

/-- C2 (counterexample to the claim as stated): the transport delivers 0x00, 'O', 'K'.
After the third receive, made before the deadline of 1000 ms, the marker "OK" occurs in
the accumulated bytes, yet the wait never returns `SIM800_OK` (it times out): the search
stops at the NUL byte. -/
theorem SIM800_WaitFor_nul_counterexample :
    ¬ ((∃ fuel s1, SIM800_WaitFor wNul fuel (lit "OK") 1000 st0 = some (SIM800_OK, s1)) ↔
        ∃ k, (∀ i, i ≤ k → elapsedAt wNul st0 i < 1000) ∧
          MarkerInBytes wNul (lit "OK") st0 k) := by
  intro h
  have hr : ∃ k, (∀ i, i ≤ k → elapsedAt wNul st0 i < 1000) ∧
      MarkerInBytes wNul (lit "OK") st0 k :=
    ⟨2, by decide, by decide, ⟨[0], [], by decide⟩⟩
  obtain ⟨fuel, s1, hf⟩ := h.mpr hr
  have h1 := waitFor_sound _ _ _ _ _ _ _ hf
  have h2 : WaitOutcome wNul (lit "OK") 1000 st0 SIM800_TIMEOUT (stTimeout st0 3) :=
    ⟨3, by decide, Or.inl ⟨by decide, rfl, rfl⟩⟩
  exact absurd (waitOutcome_unique _ _ _ _ _ _ _ _ h1 h2).1 (by decide)

/-- C3: when the tick source keeps advancing, `SIM800_Init` returns; and whenever it
returns, it has run the liveness, echo-off and text-mode steps in this order and stopped
at the first whose wait did not see "OK": it then returns that step's result and has
transmitted nothing after that step's command (after a failed liveness check only "AT\r\n"
was sent).  When the three waits see "OK" it sends the character-set command and returns
`SIM800_OK` whatever result `r4` that last wait has. -/
theorem SIM800_Init_short_circuit (w : World) (s : St) :
    (ClockAdvances w 1000 → ∃ fuel, (SIM800_Init w fuel s).isSome = true) ∧
    ((∃ fuel, (SIM800_Init w fuel s).isSome = true) →
    ∃ r1 s1, StepOutcome w (lit "AT\r\n") (lit "OK") 1000 s r1 s1 ∧
      ((r1 ≠ SIM800_OK ∧ Returns (fun f => SIM800_Init w f s) (r1, s1) ∧
          s1.sent = s.sent ++ [lit "AT\r\n"]) ∨
       (r1 = SIM800_OK ∧
        ∃ r2 s2, StepOutcome w (lit "ATE0\r\n") (lit "OK") 1000 s1 r2 s2 ∧
          ((r2 ≠ SIM800_OK ∧ Returns (fun f => SIM800_Init w f s) (r2, s2) ∧
              s2.sent = s.sent ++ [lit "AT\r\n", lit "ATE0\r\n"]) ∨
           (r2 = SIM800_OK ∧
            ∃ r3 s3, StepOutcome w (lit "AT+CMGF=1\r\n") (lit "OK") 1000 s2 r3 s3 ∧
              ((r3 ≠ SIM800_OK ∧ Returns (fun f => SIM800_Init w f s) (r3, s3) ∧
                  s3.sent = s.sent ++ [lit "AT\r\n", lit "ATE0\r\n", lit "AT+CMGF=1\r\n"]) ∨
               (r3 = SIM800_OK ∧
                ∃ r4 s4, StepOutcome w (lit "AT+CSCS=\"GSM\"\r\n") (lit "OK") 1000 s3 r4 s4 ∧
                  Returns (fun f => SIM800_Init w f s) (SIM800_OK, s4) ∧
                  s4.sent = s.sent ++ [lit "AT\r\n", lit "ATE0\r\n", lit "AT+CMGF=1\r\n",
                    lit "AT+CSCS=\"GSM\"\r\n"]))))))) := by
  refine ⟨fun hc => init_terminates w hc s, ?_⟩
  rintro ⟨fuel, hret⟩
  rcases sendCmdWait_cases w fuel (lit "AT\r\n") (lit "OK") 1000 s with
    hn | ⟨r1, s1, g1, ⟨f1, h1⟩, o1⟩
  · simp [SIM800_Init, hn] at hret
  have c1 := stepOutcome_sent _ _ _ _ _ _ _ o1 (by decide) (by decide)
  refine ⟨r1, s1, o1, ?_⟩
  by_cases e1 : r1 = SIM800_OK
  swap
  · exact Or.inl ⟨e1, ⟨f1, fun f hf => by simp [SIM800_Init, h1 f hf, e1]⟩, c1⟩
  subst e1
  refine Or.inr ⟨rfl, ?_⟩
  rcases sendCmdWait_cases w fuel (lit "ATE0\r\n") (lit "OK") 1000 s1 with
    hn | ⟨r2, s2, g2, ⟨f2, h2⟩, o2⟩
  · simp [SIM800_Init, g1, hn] at hret
  have c2 := stepOutcome_sent _ _ _ _ _ _ _ o2 (by decide) (by decide)
  refine ⟨r2, s2, o2, ?_⟩
  by_cases e2 : r2 = SIM800_OK
  swap
  · exact Or.inl ⟨e2, ⟨f1 + f2, fun f hf => by
      simp [SIM800_Init, h1 f (by omega), h2 f (by omega), e2]⟩, by rw [c2, c1]; simp⟩
  subst e2
  refine Or.inr ⟨rfl, ?_⟩
  rcases sendCmdWait_cases w fuel (lit "AT+CMGF=1\r\n") (lit "OK") 1000 s2 with
    hn | ⟨r3, s3, g3, ⟨f3, h3⟩, o3⟩
  · simp [SIM800_Init, g1, g2, hn] at hret
  have c3 := stepOutcome_sent _ _ _ _ _ _ _ o3 (by decide) (by decide)
  refine ⟨r3, s3, o3, ?_⟩
  by_cases e3 : r3 = SIM800_OK
  swap
  · exact Or.inl ⟨e3, ⟨f1 + f2 + f3, fun f hf => by
      simp [SIM800_Init, h1 f (by omega), h2 f (by omega), h3 f (by omega), e3]⟩,
      by rw [c3, c2, c1]; simp⟩
  subst e3
  refine Or.inr ⟨rfl, ?_⟩
  rcases sendCmdWait_cases w fuel (lit "AT+CSCS=\"GSM\"\r\n") (lit "OK") 1000 s3 with
    hn | ⟨r4, s4, g4, ⟨f4, h4⟩, o4⟩
  · simp [SIM800_Init, g1, g2, g3, hn] at hret
  have c4 := stepOutcome_sent _ _ _ _ _ _ _ o4 (by decide) (by decide)
  exact ⟨r4, s4, o4, ⟨f1 + f2 + f3 + f4, fun f hf => by
    simp [SIM800_Init, h1 f (by omega), h2 f (by omega), h3 f (by omega), h4 f (by omega)]⟩,
    by rw [c4, c3, c2, c1]; simp⟩

/-- C3 (witness): the transport that keeps answering "OK"; there `SIM800_Init` returns
`SIM800_OK` after its four commands. -/
theorem SIM800_Init_short_circuit_witness :
    ClockAdvances wOk 1000 ∧
    (∃ fuel, (SIM800_Init wOk fuel st0).isSome = true) ∧
    (∃ r1 s1, StepOutcome wOk (lit "AT\r\n") (lit "OK") 1000 st0 r1 s1 ∧
      ((r1 ≠ SIM800_OK ∧ Returns (fun f => SIM800_Init wOk f st0) (r1, s1) ∧
          s1.sent = st0.sent ++ [lit "AT\r\n"]) ∨
       (r1 = SIM800_OK ∧
        ∃ r2 s2, StepOutcome wOk (lit "ATE0\r\n") (lit "OK") 1000 s1 r2 s2 ∧
          ((r2 ≠ SIM800_OK ∧ Returns (fun f => SIM800_Init wOk f st0) (r2, s2) ∧
              s2.sent = st0.sent ++ [lit "AT\r\n", lit "ATE0\r\n"]) ∨
           (r2 = SIM800_OK ∧
            ∃ r3 s3, StepOutcome wOk (lit "AT+CMGF=1\r\n") (lit "OK") 1000 s2 r3 s3 ∧
              ((r3 ≠ SIM800_OK ∧ Returns (fun f => SIM800_Init wOk f st0) (r3, s3) ∧
                  s3.sent = st0.sent ++ [lit "AT\r\n", lit "ATE0\r\n", lit "AT+CMGF=1\r\n"]) ∨
               (r3 = SIM800_OK ∧
                ∃ r4 s4, StepOutcome wOk (lit "AT+CSCS=\"GSM\"\r\n") (lit "OK") 1000 s3 r4 s4 ∧
                  Returns (fun f => SIM800_Init wOk f st0) (SIM800_OK, s4) ∧
                  s4.sent = st0.sent ++ [lit "AT\r\n", lit "ATE0\r\n", lit "AT+CMGF=1\r\n",
                    lit "AT+CSCS=\"GSM\"\r\n"]))))))) ∧
    (SIM800_Init wOk 5 st0).map (fun x => (x.1, x.2.sent)) =
      some (SIM800_OK, [lit "AT\r\n", lit "ATE0\r\n", lit "AT+CMGF=1\r\n",
        lit "AT+CSCS=\"GSM\"\r\n"]) :=
  ⟨clockAdvances_mono _ _ _ wOk_clock (by omega), ⟨5, by decide⟩,
    (SIM800_Init_short_circuit wOk st0).2 ⟨5, by decide⟩, by decide⟩

/-- C4 (as amended): when the tick source keeps advancing, `SIM800_SendSMS` returns; and
whenever it returns, it has first run the text-mode step; if that succeeded, the
begin-message command (the first 63 bytes of `AT+CMGS="<number>"\r\n`, which is the whole
command when the number has at most 51 bytes) was transmitted with stamp `s1.nRecv`, so
before any receive of the prompt wait; if that wait failed, the call returned its result
and the trace ends with the begin-message command; if it succeeded, the prompt ">" was
visible after receive number `s1.nRecv + k`, and the text (its first
`strlen(text) mod 2^16` bytes) followed by the single byte 0x1A was transmitted with stamp
`s1.nRecv + k + 1`, after that receive. -/
theorem SIM800_SendSMS_order (w : World) (number text : List Nat) (s : St) :
    cmgsCmd number = (lit "AT+CMGS=\"" ++ cstr number ++ lit "\"\r\n").take 63 ∧
    ((cstr number).length ≤ 51 →
      cmgsCmd number = lit "AT+CMGS=\"" ++ cstr number ++ lit "\"\r\n") ∧
    (ClockAdvances w 15000 → ∃ fuel, (SIM800_SendSMS w fuel number text s).isSome = true) ∧
    ((∃ fuel, (SIM800_SendSMS w fuel number text s).isSome = true) →
    ∃ r1 s1, StepOutcome w (lit "AT+CMGF=1\r\n") (lit "OK") 1000 s r1 s1 ∧
      ((r1 ≠ SIM800_OK ∧ Returns (fun f => SIM800_SendSMS w f number text s) (r1, s1) ∧
          s1.tx = s.tx ++ [⟨s.nRecv, lit "AT+CMGF=1\r\n"⟩]) ∨
       (r1 = SIM800_OK ∧
        ∃ r2 s2, StepOutcome w (cmgsCmd number) (lit ">") 3000 s1 r2 s2 ∧
          ((r2 ≠ SIM800_OK ∧ Returns (fun f => SIM800_SendSMS w f number text s) (r2, s2) ∧
              s2.tx = s.tx ++ [⟨s.nRecv, lit "AT+CMGF=1\r\n"⟩, ⟨s1.nRecv, cmgsCmd number⟩]) ∨
           (r2 = SIM800_OK ∧
            (∃ k, s2.nRecv = s1.nRecv + k + 1 ∧ (recvAt w (s1.nRecv + k)).isSome = true ∧
              cstr (lit ">") <:+: cstr ((rxBytes w s1.nRecv (k + 1)).take 255)) ∧
            ∃ r3 s3, WaitOutcome w (lit "OK") 15000
                (SIM800_SendData [0x1A] 1 (SIM800_SendString text s2)) r3 s3 ∧
              Returns (fun f => SIM800_SendSMS w f number text s) (r3, s3) ∧
              s3.tx = s.tx ++ [⟨s.nRecv, lit "AT+CMGF=1\r\n"⟩, ⟨s1.nRecv, cmgsCmd number⟩,
                ⟨s2.nRecv, text.take (strlen text % 2 ^ 16)⟩, ⟨s2.nRecv, [0x1A]⟩]))))) := by
  refine ⟨rfl, cmgsCmd_whole number, fun hc => sendSMS_terminates w hc number text s, ?_⟩
  rintro ⟨fuel, hret⟩
  rcases sendCmdWait_cases w fuel (lit "AT+CMGF=1\r\n") (lit "OK") 1000 s with
    hn | ⟨r1, s1, g1, ⟨f1, h1⟩, o1⟩
  · simp [SIM800_SendSMS, hn] at hret
  have c1 := (stepOutcome_tx _ _ _ _ _ _ _ o1 (by decide) (by decide)).1
  refine ⟨r1, s1, o1, ?_⟩
  by_cases e1 : r1 = SIM800_OK
  swap
  · exact Or.inl ⟨e1, ⟨f1, fun f hf => by simp [SIM800_SendSMS, h1 f hf, e1]⟩, c1⟩
  subst e1
  refine Or.inr ⟨rfl, ?_⟩
  rcases sendCmdWait_cases w fuel (cmgsCmd number) (lit ">") 3000 s1 with
    hn | ⟨r2, s2, g2, ⟨f2, h2⟩, o2⟩
  · simp [SIM800_SendSMS, SIM800_SendCmdWait_body, g1, hn] at hret
  have c2 := (stepOutcome_tx _ _ _ _ _ _ _ o2 (cmgsCmd_nulFree number)
    (lt_of_le_of_lt (snprintf_length _ _) (by omega))).1
  refine ⟨r2, s2, o2, ?_⟩
  by_cases e2 : r2 = SIM800_OK
  swap
  · exact Or.inl ⟨e2, ⟨f1 + f2, fun f hf => by
      simp [SIM800_SendSMS, SIM800_SendCmdWait_body, h1 f (by omega), h2 f (by omega),
        e2]⟩,
      by rw [c2, c1]; simp⟩
  subst e2
  refine Or.inr ⟨rfl, ?_, ?_⟩
  · obtain ⟨k, hk, -, hv, -⟩ := (waitOutcome_ok_iff _ _ _ _ _).mp o2
    exact ⟨k, by rw [hk]; rfl, hv.1, hv.2⟩
  rcases waitFor_cases w fuel (lit "OK") 15000
      (SIM800_SendData [0x1A] 1 (SIM800_SendString text s2)) with
    hn | ⟨r3, s3, g3, ⟨f3, h3⟩, o3⟩
  · simp [SIM800_SendSMS, SIM800_SendCmdWait_body, g1, g2, hn] at hret
  refine ⟨r3, s3, o3, ⟨f1 + f2 + f3, fun f hf => by
      simp [SIM800_SendSMS, SIM800_SendCmdWait_body, h1 f (by omega), h2 f (by omega),
        h3 f (by omega)]⟩, ?_⟩
  rw [(waitOutcome_st _ _ _ _ _ _ o3).1]
  simp [SIM800_SendData, SIM800_SendString, HAL_UART_Transmit, c2, c1]

/-- C4 (witness): the transport that keeps answering "OK", on which the call returns (the
prompt never comes). -/
theorem SIM800_SendSMS_order_witness :
    (∃ fuel, (SIM800_SendSMS wOk fuel (lit "12345") (lit "hi") st0).isSome = true) ∧
    ∃ r1 s1, StepOutcome wOk (lit "AT+CMGF=1\r\n") (lit "OK") 1000 st0 r1 s1 ∧
      ((r1 ≠ SIM800_OK ∧
          Returns (fun f => SIM800_SendSMS wOk f (lit "12345") (lit "hi") st0) (r1, s1) ∧
          s1.tx = st0.tx ++ [⟨st0.nRecv, lit "AT+CMGF=1\r\n"⟩]) ∨
       (r1 = SIM800_OK ∧
        ∃ r2 s2, StepOutcome wOk (cmgsCmd (lit "12345")) (lit ">") 3000 s1 r2 s2 ∧
          ((r2 ≠ SIM800_OK ∧
              Returns (fun f => SIM800_SendSMS wOk f (lit "12345") (lit "hi") st0) (r2, s2) ∧
              s2.tx = st0.tx ++ [⟨st0.nRecv, lit "AT+CMGF=1\r\n"⟩,
                ⟨s1.nRecv, cmgsCmd (lit "12345")⟩]) ∨
           (r2 = SIM800_OK ∧
            (∃ k, s2.nRecv = s1.nRecv + k + 1 ∧ (recvAt wOk (s1.nRecv + k)).isSome = true ∧
              cstr (lit ">") <:+: cstr ((rxBytes wOk s1.nRecv (k + 1)).take 255)) ∧
            ∃ r3 s3, WaitOutcome wOk (lit "OK") 15000
                (SIM800_SendData [0x1A] 1 (SIM800_SendString (lit "hi") s2)) r3 s3 ∧
              Returns (fun f => SIM800_SendSMS wOk f (lit "12345") (lit "hi") st0) (r3, s3) ∧
              s3.tx = st0.tx ++ [⟨st0.nRecv, lit "AT+CMGF=1\r\n"⟩,
                ⟨s1.nRecv, cmgsCmd (lit "12345")⟩,
                ⟨s2.nRecv, (lit "hi").take (strlen (lit "hi") % 2 ^ 16)⟩,
                ⟨s2.nRecv, [0x1A]⟩])))) :=
  ⟨⟨10, by decide⟩,
    (SIM800_SendSMS_order wOk (lit "12345") (lit "hi") st0).2.2.2 ⟨10, by decide⟩⟩

/-- C4 (counterexample to the claim as stated): with a destination number of 52 bytes
the text-mode step succeeds and the begin-message command is transmitted, but what is
transmitted is not `AT+CMGS="<number>"\r\n`: `snprintf` cuts it after 63 bytes and the final
line feed is lost. -/
theorem SIM800_SendSMS_long_number_counterexample :
    (SIM800_SendSMS wOk 10 longNumber (lit "hi") st0).map (fun x => (x.1, x.2.sent)) =
      some (SIM800_TIMEOUT,
        [lit "AT+CMGF=1\r\n", lit "AT+CMGS=\"" ++ longNumber ++ lit "\"\r"]) ∧
    (lit "AT+CMGS=\"" ++ longNumber ++ lit "\"\r\n") ∉
      [lit "AT+CMGF=1\r\n", lit "AT+CMGS=\"" ++ longNumber ++ lit "\"\r"] := by
  constructor
  · decide
  · decide

/-- C5: when the tick source keeps advancing, `SIM800_HTTPGet` returns; and whenever it
returns, the value is the result of the first failing step among session init, bearer
link, target address and GET action, and `SIM800_OK` when all four succeed: the results
`r0` of the initial and `rT` of the final termination do not enter it, and
`SIM800_HTTPRead` yields `SIM800_OK` whenever it returns (and it returns when the tick
source keeps advancing). -/
theorem SIM800_HTTPGet_result (w : World) (url : List Nat)
    (response : Option RespBuf) (maxLen : Nat) (s : St) :
    (ClockAdvances w 20000 → ∃ fuel, (SIM800_HTTPGet w fuel url response maxLen s).isSome = true) ∧
    ((∃ fuel, (SIM800_HTTPGet w fuel url response maxLen s).isSome = true) →
    ∃ r0 s0, StepOutcome w (lit "AT+HTTPTERM\r\n") (lit "OK") 1000 s r0 s0 ∧
    ∃ r1 s1, StepOutcome w (lit "AT+HTTPINIT\r\n") (lit "OK") 2000 s0 r1 s1 ∧
    ((r1 ≠ SIM800_OK ∧ Returns (fun f => SIM800_HTTPGet w f url response maxLen s) (r1, response, s1)) ∨
     (r1 = SIM800_OK ∧ ∃ r2 s2, StepOutcome w (lit "AT+HTTPPARA=\"CID\",1\r\n") (lit "OK") 2000 s1 r2 s2 ∧
      ((r2 ≠ SIM800_OK ∧ ∃ rT sT, StepOutcome w (lit "AT+HTTPTERM\r\n") (lit "OK") 2000 s2 rT sT ∧
          Returns (fun f => SIM800_HTTPGet w f url response maxLen s) (r2, response, sT)) ∨
       (r2 = SIM800_OK ∧ ∃ r3 s3, StepOutcome w (httpParaCmd 128 (lit "URL") url) (lit "OK") 3000 s2 r3 s3 ∧
        ((r3 ≠ SIM800_OK ∧ ∃ rT sT, StepOutcome w (lit "AT+HTTPTERM\r\n") (lit "OK") 2000 s3 rT sT ∧
            Returns (fun f => SIM800_HTTPGet w f url response maxLen s) (r3, response, sT)) ∨
         (r3 = SIM800_OK ∧ ∃ r4 s4, StepOutcome w (lit "AT+HTTPACTION=0\r\n") (lit "HTTPACTION:") 15000 s3 r4 s4 ∧
          ((r4 ≠ SIM800_OK ∧ ∃ rT sT, StepOutcome w (lit "AT+HTTPTERM\r\n") (lit "OK") 2000 s4 rT sT ∧
              Returns (fun f => SIM800_HTTPGet w f url response maxLen s) (r4, response, sT)) ∨
           (r4 = SIM800_OK ∧ ∃ resp1 sR,
               Returns (fun f => SIM800_HTTPRead w f response maxLen s4) (SIM800_OK, resp1, sR) ∧
               sR.tx = s4.tx ++ [⟨s4.nRecv, lit "AT+HTTPREAD\r\n"⟩] ∧
               ∃ rT sT, StepOutcome w (lit "AT+HTTPTERM\r\n") (lit "OK") 2000 sR rT sT ∧
               Returns (fun f => SIM800_HTTPGet w f url response maxLen s) (SIM800_OK, resp1, sT)))))))))) ∧
    (∀ fuel resp N s1 x, SIM800_HTTPRead w fuel resp N s1 = some x → x.1 = SIM800_OK) ∧
    (ClockAdvances w 10000 → ∀ resp N s1, ∃ resp1 sR,
      Returns (fun f => SIM800_HTTPRead w f resp N s1) (SIM800_OK, resp1, sR)) :=
  ⟨fun hc => httpGet_terminates w hc url response maxLen s,
    httpGet_run w url response maxLen s,
    fun fuel resp N s1 x h => httpRead_result w fuel resp N s1 x h,
    fun hc resp N s1 =>
      let ⟨resp1, sR, h, _⟩ := httpRead_returns w 10000 hc (le_refl _) resp N s1
      ⟨resp1, sR, h⟩⟩

/-- C5 (witness): a transport that plays a successful GET; the call returns `SIM800_OK`
with the body in the response buffer. -/
theorem SIM800_HTTPGet_result_witness :
    (∃ fuel, (SIM800_HTTPGet wGet fuel (lit "http://a") (some ⟨List.replicate 24 7, []⟩) 24 st0).isSome = true) ∧
    (∃ r0 s0, StepOutcome wGet (lit "AT+HTTPTERM\r\n") (lit "OK") 1000 st0 r0 s0 ∧
    ∃ r1 s1, StepOutcome wGet (lit "AT+HTTPINIT\r\n") (lit "OK") 2000 s0 r1 s1 ∧
    ((r1 ≠ SIM800_OK ∧ Returns (fun f => SIM800_HTTPGet wGet f (lit "http://a") (some ⟨List.replicate 24 7, []⟩) 24 st0) (r1, (some ⟨List.replicate 24 7, []⟩), s1)) ∨
     (r1 = SIM800_OK ∧ ∃ r2 s2, StepOutcome wGet (lit "AT+HTTPPARA=\"CID\",1\r\n") (lit "OK") 2000 s1 r2 s2 ∧
      ((r2 ≠ SIM800_OK ∧ ∃ rT sT, StepOutcome wGet (lit "AT+HTTPTERM\r\n") (lit "OK") 2000 s2 rT sT ∧
          Returns (fun f => SIM800_HTTPGet wGet f (lit "http://a") (some ⟨List.replicate 24 7, []⟩) 24 st0) (r2, (some ⟨List.replicate 24 7, []⟩), sT)) ∨
       (r2 = SIM800_OK ∧ ∃ r3 s3, StepOutcome wGet (httpParaCmd 128 (lit "URL") (lit "http://a")) (lit "OK") 3000 s2 r3 s3 ∧
        ((r3 ≠ SIM800_OK ∧ ∃ rT sT, StepOutcome wGet (lit "AT+HTTPTERM\r\n") (lit "OK") 2000 s3 rT sT ∧
            Returns (fun f => SIM800_HTTPGet wGet f (lit "http://a") (some ⟨List.replicate 24 7, []⟩) 24 st0) (r3, (some ⟨List.replicate 24 7, []⟩), sT)) ∨
         (r3 = SIM800_OK ∧ ∃ r4 s4, StepOutcome wGet (lit "AT+HTTPACTION=0\r\n") (lit "HTTPACTION:") 15000 s3 r4 s4 ∧
          ((r4 ≠ SIM800_OK ∧ ∃ rT sT, StepOutcome wGet (lit "AT+HTTPTERM\r\n") (lit "OK") 2000 s4 rT sT ∧
              Returns (fun f => SIM800_HTTPGet wGet f (lit "http://a") (some ⟨List.replicate 24 7, []⟩) 24 st0) (r4, (some ⟨List.replicate 24 7, []⟩), sT)) ∨
           (r4 = SIM800_OK ∧ ∃ resp1 sR,
               Returns (fun f => SIM800_HTTPRead wGet f (some ⟨List.replicate 24 7, []⟩) 24 s4) (SIM800_OK, resp1, sR) ∧
               sR.tx = s4.tx ++ [⟨s4.nRecv, lit "AT+HTTPREAD\r\n"⟩] ∧
               ∃ rT sT, StepOutcome wGet (lit "AT+HTTPTERM\r\n") (lit "OK") 2000 sR rT sT ∧
               Returns (fun f => SIM800_HTTPGet wGet f (lit "http://a") (some ⟨List.replicate 24 7, []⟩) 24 st0) (SIM800_OK, resp1, sT)))))))))) ∧
    (SIM800_HTTPGet wGet 40 (lit "http://a") (some ⟨List.replicate 24 7, []⟩) 24 st0).map
        (fun x => (x.1, x.2.1.map (fun b => b.mem), x.2.2.sent)) =
      some (SIM800_OK, some (lit " 5\r\nhello\r\nOK\r\n" ++ List.replicate 9 0),
        [lit "AT+HTTPTERM\r\n", lit "AT+HTTPINIT\r\n", lit "AT+HTTPPARA=\"CID\",1\r\n",
          lit "AT+HTTPPARA=\"URL\",\"http://a\"\r\n", lit "AT+HTTPACTION=0\r\n",
          lit "AT+HTTPREAD\r\n", lit "AT+HTTPTERM\r\n"]) :=
  ⟨⟨40, by decide⟩,
    (SIM800_HTTPGet_result wGet (lit "http://a") (some ⟨List.replicate 24 7, []⟩) 24
      st0).2.1 ⟨40, by decide⟩,
    by decide⟩

/-- C6: for a non-null response buffer of `N` bytes (`N ≤ 65535`, `maxLen = N`), at every
evaluation of the loop condition of `SIM800_HTTPRead` and on return, every store made
through `response` so far (the `memset` included) has an index below `N`, a store at index
`N - 1` stores NUL, and the buffer holds the first at most `N - 1` bytes received since the
header wait ended, followed by NUL bytes up to its end (at least one when `N ≥ 1`).  When
the clock advances the call returns. -/
theorem SIM800_HTTPRead_buffer (w : World) (mem : List Nat) (N : Nat)
    (hlen : mem.length = N) (hN : N ≤ 65535) (s : St) :
    (∀ bytes : List Nat, storeBuf N bytes =
        bytes.take (N - 1) ++ List.replicate (N - (bytes.take (N - 1)).length) 0 ∧
      (1 ≤ N → 1 ≤ N - (bytes.take (N - 1)).length)) ∧
    (∀ s0 start n rs,
      SIM800_HTTPRead.iter w N start n
          { st := s0, resp := SIM800_HTTPRead.cleared (some ⟨mem, []⟩) N, idx := 0 } =
        some rs →
      ∃ b, rs.resp = some b ∧ LogSafe N b.writes ∧ s0.nRecv ≤ rs.st.nRecv ∧
        b.mem = storeBuf N (rxBytes w s0.nRecv (rs.st.nRecv - s0.nRecv))) ∧
    (∀ fuel r resp1 s1,
      SIM800_HTTPRead w fuel (some ⟨mem, []⟩) N s = some (r, resp1, s1) →
      ∃ b r0 s0, resp1 = some b ∧ LogSafe N b.writes ∧
        SIM800_WaitFor w fuel (lit "+HTTPREAD:") 3000
          (SIM800_SendString (lit "AT+HTTPREAD\r\n") (HAL_GetTick w s).2) = some (r0, s0) ∧
        s0.nRecv ≤ s1.nRecv ∧
        b.mem = storeBuf N (rxBytes w s0.nRecv (s1.nRecv - s0.nRecv))) ∧
    (ClockAdvances w 10000 →
      ∃ resp1 s1, Returns (fun f => SIM800_HTTPRead w f (some ⟨mem, []⟩) N s)
        (SIM800_OK, resp1, s1)) := by
  refine ⟨fun bytes => ⟨rfl, fun h => ?_⟩, ?_, ?_, ?_⟩
  · rw [List.length_take]; omega
  · intro s0 start n rs h
    obtain ⟨b, hb, hn, -, hmem, hlog⟩ :=
      httpRead_iter_inv w N s0.nRecv start hN n _ rs (readInv_init w mem N hlen s0) h
    exact ⟨b, hb, hlog, hn, hmem⟩
  · intro fuel r resp1 s1 h
    unfold SIM800_HTTPRead at h
    simp only [Option.bind_eq_some, Option.some.injEq, Prod.mk.injEq] at h
    obtain ⟨⟨r0, s0⟩, h0, rs, hl, -, rfl, rfl⟩ := h
    obtain ⟨b, hb, hn, -, hmem, hlog⟩ :=
      httpRead_loop_inv w N s0.nRecv _ hN fuel _ rs (readInv_init w mem N hlen s0) hl
    exact ⟨b, r0, s0, hb, hlog, h0, hn, hmem⟩
  · intro hc
    obtain ⟨resp1, s1, h, -⟩ := httpRead_returns w 10000 hc (le_refl _) (some ⟨mem, []⟩) N s
    exact ⟨resp1, s1, h⟩

/-- C6 (witness): a buffer of 4 bytes on the transport that keeps answering "OK"; the
call stores three bytes and the terminator, all stores at indices below 4. -/
theorem SIM800_HTTPRead_buffer_witness :
    ([7, 7, 7, 7] : List Nat).length = 4 ∧ 4 ≤ 65535 ∧
    ((∀ bytes : List Nat, storeBuf 4 bytes =
        bytes.take (4 - 1) ++ List.replicate (4 - (bytes.take (4 - 1)).length) 0 ∧
      (1 ≤ 4 → 1 ≤ 4 - (bytes.take (4 - 1)).length)) ∧
    (∀ s0 start n rs,
      SIM800_HTTPRead.iter wOk 4 start n
          { st := s0, resp := SIM800_HTTPRead.cleared (some ⟨[7, 7, 7, 7], []⟩) 4, idx := 0 } =
        some rs →
      ∃ b, rs.resp = some b ∧ LogSafe 4 b.writes ∧ s0.nRecv ≤ rs.st.nRecv ∧
        b.mem = storeBuf 4 (rxBytes wOk s0.nRecv (rs.st.nRecv - s0.nRecv))) ∧
    (∀ fuel r resp1 s1,
      SIM800_HTTPRead wOk fuel (some ⟨[7, 7, 7, 7], []⟩) 4 st0 = some (r, resp1, s1) →
      ∃ b r0 s0, resp1 = some b ∧ LogSafe 4 b.writes ∧
        SIM800_WaitFor wOk fuel (lit "+HTTPREAD:") 3000
          (SIM800_SendString (lit "AT+HTTPREAD\r\n") (HAL_GetTick wOk st0).2) = some (r0, s0) ∧
        s0.nRecv ≤ s1.nRecv ∧
        b.mem = storeBuf 4 (rxBytes wOk s0.nRecv (s1.nRecv - s0.nRecv))) ∧
    (ClockAdvances wOk 10000 →
      ∃ resp1 s1, Returns (fun f => SIM800_HTTPRead wOk f (some ⟨[7, 7, 7, 7], []⟩) 4 st0)
        (SIM800_OK, resp1, s1))) ∧
    (SIM800_HTTPRead wOk 40 (some ⟨[7, 7, 7, 7], []⟩) 4 st0).map (fun x => x.2.1) =
      some (some ⟨[75, 79, 75, 0],
        [(0, 0), (1, 0), (2, 0), (3, 0), (0, 75), (1, 0), (1, 79), (2, 0), (2, 75), (3, 0)]⟩) :=
  ⟨rfl, by decide, SIM800_HTTPRead_buffer wOk [7, 7, 7, 7] 4 rfl (by decide) st0, by decide⟩

/-- C7: at every evaluation `n` of the loop condition of `SIM800_WaitFor`, `idx ≤ 255`, the
buffer has its 256 bytes with `buf[idx]` NUL, `idx` is the number of bytes received so far
capped at 255, `buf[0..idx)` are the first `idx` bytes received, and one receive was made
per iteration.  Once `idx = 255` the buffer and `idx` stay as they are at every later
evaluation, while an iteration still reads the clock, polls one byte and searches the
(unchanged) buffer: it returns only on the deadline or when the marker is found. -/
theorem SIM800_WaitFor_scan_buffer (w : World) (e : List Nat) (T : Nat) (s : St) (n : Nat)
    (ws : WaitState)
    (h : SIM800_WaitFor.iter w e T (SIM800_WaitFor.init w s).1 n (SIM800_WaitFor.init w s).2
      = some ws) :
    ws.idx ≤ 255 ∧ ws.buf.length = 256 ∧ ws.buf[ws.idx]? = some 0 ∧
    ws.idx = min 255 (rxBytes w s.nRecv n).length ∧
    ws.buf.take ws.idx = (rxBytes w s.nRecv n).take ws.idx ∧
    ws.st.nRecv = s.nRecv + n ∧
    (ws.idx = 255 →
      (∀ m ws1, SIM800_WaitFor.iter w e T (SIM800_WaitFor.init w s).1 (n + m)
          (SIM800_WaitFor.init w s).2 = some ws1 → ws1.buf = ws.buf ∧ ws1.idx = 255) ∧
      SIM800_WaitFor.body w e T (SIM800_WaitFor.init w s).1 ws =
        if elapsed (tickAt w ws.st.nTick) (SIM800_WaitFor.init w s).1 < T then
          if (recvAt w ws.st.nRecv).isSome && strstr ws.buf e then
            Sum.inl (SIM800_OK, { ws.st with nTick := ws.st.nTick + 1,
                                             nRecv := ws.st.nRecv + 1 })
          else
            Sum.inr { ws with st := { ws.st with nTick := ws.st.nTick + 1,
                                                 nRecv := ws.st.nRecv + 1 } }
        else Sum.inl (SIM800_TIMEOUT, { ws.st with nTick := ws.st.nTick + 1 })) := by
  rw [waitFor_init_eq] at h ⊢
  simp only at h ⊢
  obtain ⟨rfl, -⟩ := waitFor_iter_at w e T s n 0 ws h
  simp only [Nat.zero_add]
  refine ⟨?_, ?_, ?_, ?_, ?_, ?_, ?_⟩
  · simp only [waitStateAt, List.length_take]; omega
  · exact scanBuf_length _
  · exact scanBuf_getElem_idx _
  · simp only [waitStateAt, List.length_take]
  · simp only [waitStateAt, scanBuf, List.length_take]
    rw [List.take_append_of_le_length (by simp), List.take_take]
    congr 1
    omega
  · rfl
  · intro hfull
    have hfull1 : ((rxBytes w s.nRecv n).take 255).length = 255 := hfull
    constructor
    · intro m ws1 h1
      obtain ⟨rfl, -⟩ := waitFor_iter_at w e T s (n + m) 0 ws1 h1
      simp only [Nat.zero_add, waitStateAt, scanBuf,
        scanBuf_full_stable w s.nRecv n m hfull1]
      exact ⟨trivial, hfull1⟩
    · rw [waitFor_body_at]
      have h1 := scanBuf_full_stable w s.nRecv n 1 hfull1
      have e1 : s.nTick + 1 + n + 1 = s.nTick + 2 + n := by omega
      have e2 : s.nTick + 1 + (n + 1) = s.nTick + 2 + n := by omega
      have e3 : s.nRecv + (n + 1) = s.nRecv + n + 1 := by omega
      simp only [waitStateAt, scanBuf, seenAt, h1, elapsedAt, stFound, stTimeout, e1, e2, e3]

/-- C7 (witness): a transport that streams the byte 'A' without end; at the 300th
evaluation of the loop condition 300 bytes were received and the index stands at 255. -/
theorem SIM800_WaitFor_scan_buffer_witness :
    ∃ ws, SIM800_WaitFor.iter wStream (lit "OK") 1000 (SIM800_WaitFor.init wStream st0).1
        300 (SIM800_WaitFor.init wStream st0).2 = some ws ∧
      ws.idx ≤ 255 ∧ ws.buf.length = 256 ∧ ws.buf[ws.idx]? = some 0 ∧
      ws.idx = min 255 (rxBytes wStream st0.nRecv 300).length ∧
      (rxBytes wStream st0.nRecv 300).length = 300 := by
  have h := wStream_iter 300 (by omega)
  have := SIM800_WaitFor_scan_buffer wStream (lit "OK") 1000 st0 300 _ h
  refine ⟨_, h, this.1, this.2.1, this.2.2.1, this.2.2.2.1, ?_⟩
  rw [wStream_rxBytes, List.length_replicate]

/-- C8 (as amended): when the tick source keeps advancing, `SIM800_SetupGPRS` returns; and
whenever it returns, it has run, in this order and up to the first step whose wait
failed, the bearer-type step, the access-point step, the username step, the password step
and the open-bearer step, and it returns the result of the last step it ran.  The username
(password) step is made, and its command transmitted, exactly when the run reaches it and
`user` (`pwd`) is non-null and non-empty; a credential step that fails is the last step,
so "AT+SAPBR=1,1\r\n" is not transmitted (no other command equals it); with both
credentials absent the commands
transmitted are bearer type, access point, open bearer, up to the first failure. -/
theorem SIM800_SetupGPRS_steps (w : World) (apn : List Nat)
    (user pwd : Option (List Nat)) (s : St) :
    (∀ key p, (ArgGiven p → optCmd key p = [sapbrCmd key (p.getD [])]) ∧
      (¬ ArgGiven p → optCmd key p = []) ∧ lit "AT+SAPBR=1,1\r\n" ∉ optCmd key p) ∧
    (∀ key v, sapbrCmd key v ≠ lit "AT+SAPBR=1,1\r\n") ∧
    (ClockAdvances w 10000 → ∃ fuel, (SIM800_SetupGPRS w fuel apn user pwd s).isSome = true) ∧
    ((∃ fuel, (SIM800_SetupGPRS w fuel apn user pwd s).isSome = true) →
    ∃ r1 s1,
      StepOutcome w (lit "AT+SAPBR=3,1,\"Contype\",\"GPRS\"\r\n") (lit "OK") 2000 s r1 s1 ∧
      ((r1 ≠ SIM800_OK ∧
          Returns (fun f => SIM800_SetupGPRS w f apn user pwd s) (r1, s1) ∧
          s1.sent = s.sent ++ [lit "AT+SAPBR=3,1,\"Contype\",\"GPRS\"\r\n"]) ∨
       (r1 = SIM800_OK ∧
        ∃ r2 s2, StepOutcome w (sapbrCmd (lit "APN") apn) (lit "OK") 2000 s1 r2 s2 ∧
          ((r2 ≠ SIM800_OK ∧
              Returns (fun f => SIM800_SetupGPRS w f apn user pwd s) (r2, s2) ∧
              s2.sent = s.sent ++ [lit "AT+SAPBR=3,1,\"Contype\",\"GPRS\"\r\n",
                sapbrCmd (lit "APN") apn]) ∨
           (r2 = SIM800_OK ∧
            ∃ r3 s3, OptStepOutcome w (lit "USER") user s2 r3 s3 ∧
              ((r3 ≠ SIM800_OK ∧
                  Returns (fun f => SIM800_SetupGPRS w f apn user pwd s) (r3, s3) ∧
                  s3.sent = s.sent ++ [lit "AT+SAPBR=3,1,\"Contype\",\"GPRS\"\r\n",
                    sapbrCmd (lit "APN") apn] ++ optCmd (lit "USER") user) ∨
               (r3 = SIM800_OK ∧
                ∃ r4 s4, OptStepOutcome w (lit "PWD") pwd s3 r4 s4 ∧
                  ((r4 ≠ SIM800_OK ∧
                      Returns (fun f => SIM800_SetupGPRS w f apn user pwd s) (r4, s4) ∧
                      s4.sent = s.sent ++ [lit "AT+SAPBR=3,1,\"Contype\",\"GPRS\"\r\n",
                        sapbrCmd (lit "APN") apn] ++ optCmd (lit "USER") user ++
                        optCmd (lit "PWD") pwd) ∨
                   (r4 = SIM800_OK ∧
                    ∃ r5 s5, StepOutcome w (lit "AT+SAPBR=1,1\r\n") (lit "OK") 10000 s4 r5 s5 ∧
                      Returns (fun f => SIM800_SetupGPRS w f apn user pwd s) (r5, s5) ∧
                      s5.sent = s.sent ++ [lit "AT+SAPBR=3,1,\"Contype\",\"GPRS\"\r\n",
                        sapbrCmd (lit "APN") apn] ++ optCmd (lit "USER") user ++
                        optCmd (lit "PWD") pwd ++ [lit "AT+SAPBR=1,1\r\n"]))))))))) := by
  refine ⟨fun key p => ⟨fun h => by simp [optCmd, (nonEmptyArg_iff p).mpr h],
    fun h => by
      have h2 : nonEmptyArg p = false := by
        cases h1 : nonEmptyArg p with
        | false => rfl
        | true => exact absurd ((nonEmptyArg_iff p).mp h1) h
      simp [optCmd, h2], ?_⟩,
    fun key v => sapbrCmd_ne_open key v,
    fun hc => setupGPRS_terminates w hc apn user pwd s, ?_⟩
  · unfold optCmd
    split
    · simp only [List.mem_singleton]
      exact fun h => sapbrCmd_ne_open _ _ h.symm
    · simp
  rintro ⟨fuel, hret⟩
  rcases sendCmdWait_cases w fuel (lit "AT+SAPBR=3,1,\"Contype\",\"GPRS\"\r\n") (lit "OK")
      2000 s with
    hn | ⟨r1, s1, g1, ⟨f1, h1⟩, o1⟩
  · simp [SIM800_SetupGPRS, hn] at hret
  have c1 := stepOutcome_sent _ _ _ _ _ _ _ o1 (by decide) (by decide)
  refine ⟨r1, s1, o1, ?_⟩
  by_cases e1 : r1 = SIM800_OK
  swap
  · exact Or.inl ⟨e1, ⟨f1, fun f hf => by simp [SIM800_SetupGPRS, h1 f hf, e1]⟩, c1⟩
  subst e1
  refine Or.inr ⟨rfl, ?_⟩
  rcases sendCmdWait_cases w fuel (sapbrCmd (lit "APN") apn) (lit "OK") 2000 s1 with
    hn | ⟨r2, s2, g2, ⟨f2, h2⟩, o2⟩
  · simp [SIM800_SetupGPRS, g1, hn] at hret
  have c2 := stepOutcome_sent _ _ _ _ _ _ _ o2 (sapbrCmd_nulFree _ _ (by decide))
    (lt_of_le_of_lt (snprintf_length _ _) (by omega))
  refine ⟨r2, s2, o2, ?_⟩
  by_cases e2 : r2 = SIM800_OK
  swap
  · exact Or.inl ⟨e2, ⟨f1 + f2, fun f hf => by
      simp [SIM800_SetupGPRS, h1 f (by omega), h2 f (by omega), e2]⟩,
      by rw [c2, c1]; simp⟩
  subst e2
  refine Or.inr ⟨rfl, ?_⟩
  rcases optStep_cases w fuel (lit "USER") (by decide) user s2 with
    hn | ⟨r3, s3, g3, ⟨f3, h3⟩, o3, c3⟩
  · simp [SIM800_SetupGPRS, g1, g2, hn] at hret
  refine ⟨r3, s3, o3, ?_⟩
  by_cases e3 : r3 = SIM800_OK
  swap
  · exact Or.inl ⟨e3, ⟨f1 + f2 + f3, fun f hf => by
      simp [SIM800_SetupGPRS, h1 f (by omega), h2 f (by omega), h3 f (by omega), e3]⟩,
      by rw [c3, c2, c1]; simp⟩
  subst e3
  refine Or.inr ⟨rfl, ?_⟩
  rcases optStep_cases w fuel (lit "PWD") (by decide) pwd s3 with
    hn | ⟨r4, s4, g4, ⟨f4, h4⟩, o4, c4⟩
  · simp [SIM800_SetupGPRS, g1, g2, g3, hn] at hret
  refine ⟨r4, s4, o4, ?_⟩
  by_cases e4 : r4 = SIM800_OK
  swap
  · exact Or.inl ⟨e4, ⟨f1 + f2 + f3 + f4, fun f hf => by
      simp [SIM800_SetupGPRS, h1 f (by omega), h2 f (by omega), h3 f (by omega),
        h4 f (by omega), e4]⟩,
      by rw [c4, c3, c2, c1]; simp⟩
  subst e4
  refine Or.inr ⟨rfl, ?_⟩
  rcases sendCmdWait_cases w fuel (lit "AT+SAPBR=1,1\r\n") (lit "OK") 10000 s4 with
    hn | ⟨r5, s5, g5, ⟨f5, h5⟩, o5⟩
  · simp [SIM800_SetupGPRS, g1, g2, g3, g4, hn] at hret
  have c5 := stepOutcome_sent _ _ _ _ _ _ _ o5 (by decide) (by decide)
  refine ⟨r5, s5, o5, ⟨f1 + f2 + f3 + f4 + f5, fun f hf => ?_⟩, by
    rw [c5, c4, c3, c2, c1]; simp⟩
  by_cases e5 : r5 = SIM800_OK
  · simp [SIM800_SetupGPRS, h1 f (by omega), h2 f (by omega), h3 f (by omega),
      h4 f (by omega), h5 f (by omega), e5]
  · simp [SIM800_SetupGPRS, h1 f (by omega), h2 f (by omega), h3 f (by omega),
      h4 f (by omega), h5 f (by omega), e5]

/-- C8 (witness): the transport that keeps answering "OK", with a user name and no
password; the call returns. -/
theorem SIM800_SetupGPRS_steps_witness :
    (∃ fuel, (SIM800_SetupGPRS wOk fuel (lit "internet") (some (lit "u")) none st0).isSome = true) ∧
    ∃ r1 s1,
      StepOutcome wOk (lit "AT+SAPBR=3,1,\"Contype\",\"GPRS\"\r\n") (lit "OK") 2000 st0 r1 s1 ∧
      ((r1 ≠ SIM800_OK ∧
          Returns (fun f => SIM800_SetupGPRS wOk f (lit "internet") (some (lit "u")) none st0) (r1, s1) ∧
          s1.sent = st0.sent ++ [lit "AT+SAPBR=3,1,\"Contype\",\"GPRS\"\r\n"]) ∨
       (r1 = SIM800_OK ∧
        ∃ r2 s2, StepOutcome wOk (sapbrCmd (lit "APN") (lit "internet")) (lit "OK") 2000 s1 r2 s2 ∧
          ((r2 ≠ SIM800_OK ∧
              Returns (fun f => SIM800_SetupGPRS wOk f (lit "internet") (some (lit "u")) none st0) (r2, s2) ∧
              s2.sent = st0.sent ++ [lit "AT+SAPBR=3,1,\"Contype\",\"GPRS\"\r\n",
                sapbrCmd (lit "APN") (lit "internet")]) ∨
           (r2 = SIM800_OK ∧
            ∃ r3 s3, OptStepOutcome wOk (lit "USER") (some (lit "u")) s2 r3 s3 ∧
              ((r3 ≠ SIM800_OK ∧
                  Returns (fun f => SIM800_SetupGPRS wOk f (lit "internet") (some (lit "u")) none st0) (r3, s3) ∧
                  s3.sent = st0.sent ++ [lit "AT+SAPBR=3,1,\"Contype\",\"GPRS\"\r\n",
                    sapbrCmd (lit "APN") (lit "internet")] ++ optCmd (lit "USER") (some (lit "u"))) ∨
               (r3 = SIM800_OK ∧
                ∃ r4 s4, OptStepOutcome wOk (lit "PWD") none s3 r4 s4 ∧
                  ((r4 ≠ SIM800_OK ∧
                      Returns (fun f => SIM800_SetupGPRS wOk f (lit "internet") (some (lit "u")) none st0) (r4, s4) ∧
                      s4.sent = st0.sent ++ [lit "AT+SAPBR=3,1,\"Contype\",\"GPRS\"\r\n",
                        sapbrCmd (lit "APN") (lit "internet")] ++ optCmd (lit "USER") (some (lit "u")) ++
                        optCmd (lit "PWD") none) ∨
                   (r4 = SIM800_OK ∧
                    ∃ r5 s5, StepOutcome wOk (lit "AT+SAPBR=1,1\r\n") (lit "OK") 10000 s4 r5 s5 ∧
                      Returns (fun f => SIM800_SetupGPRS wOk f (lit "internet") (some (lit "u")) none st0) (r5, s5) ∧
                      s5.sent = st0.sent ++ [lit "AT+SAPBR=3,1,\"Contype\",\"GPRS\"\r\n",
                        sapbrCmd (lit "APN") (lit "internet")] ++ optCmd (lit "USER") (some (lit "u")) ++
                        optCmd (lit "PWD") none ++ [lit "AT+SAPBR=1,1\r\n"])))))))) :=
  ⟨⟨5, by decide⟩,
    (SIM800_SetupGPRS_steps wOk (lit "internet") (some (lit "u")) none st0).2.2.2
      ⟨5, by decide⟩⟩

/-- C8 (counterexample to the claim as stated): on the silent transport the bearer-type
step times out and `SIM800_SetupGPRS` returns at once.  The user argument "u" is non-null
and non-empty, yet no set-username command is transmitted; and with both credentials
absent the commands transmitted are not the three of the full sequence. -/
theorem SIM800_SetupGPRS_abort_counterexample :
    (∀ fuel, 1 ≤ fuel →
      (SIM800_SetupGPRS wSilent fuel (lit "internet") (some (lit "u")) none st0).map
          (fun x => (x.1, x.2.sent)) =
        some (SIM800_TIMEOUT, [lit "AT+SAPBR=3,1,\"Contype\",\"GPRS\"\r\n"])) ∧
    ArgGiven (some (lit "u")) ∧
    sapbrCmd (lit "USER") (lit "u") ∉ [lit "AT+SAPBR=3,1,\"Contype\",\"GPRS\"\r\n"] ∧
    (∀ fuel, 1 ≤ fuel →
      (SIM800_SetupGPRS wSilent fuel (lit "internet") none none st0).map
          (fun x => (x.1, x.2.sent)) =
        some (SIM800_TIMEOUT, [lit "AT+SAPBR=3,1,\"Contype\",\"GPRS\"\r\n"])) ∧
    [lit "AT+SAPBR=3,1,\"Contype\",\"GPRS\"\r\n"] ≠
      [lit "AT+SAPBR=3,1,\"Contype\",\"GPRS\"\r\n", sapbrCmd (lit "APN") (lit "internet"),
        lit "AT+SAPBR=1,1\r\n"] := by
  refine ⟨fun fuel hf => ?_, ⟨lit "u", rfl, by decide⟩, by decide, fun fuel hf => ?_,
    by decide⟩
  · obtain ⟨g, rfl⟩ : ∃ g, fuel = g + 1 := ⟨fuel - 1, by omega⟩
    rfl
  · obtain ⟨g, rfl⟩ : ∃ g, fuel = g + 1 := ⟨fuel - 1, by omega⟩
    rfl

/-- C9 (as amended): for every marker, timeout `T`, start tick and receive outcomes (bytes or
failures), with the elapsed time of the j-th look at the clock computed as
`(now - start) mod 2^32`: if `j` is the first look that sees an elapsed time of at least
`T` and the marker is not visible after any of the receives made before, the wait returns
`SIM800_TIMEOUT` at that look, having made exactly `j` receives; whenever the wait returns
`SIM800_TIMEOUT` it does so at the first look that sees an elapsed time of at least `T`,
never earlier; and if no look ever sees an elapsed time of at least `T` and the marker
never becomes visible, the wait does not return. -/
theorem SIM800_WaitFor_timeout (w : World) (e : List Nat) (T : Nat) (s : St) :
    (∀ j, (T : Int) ≤ tickElapsed w s.nTick (s.nTick + 1 + j) →
      (∀ i, i < j → tickElapsed w s.nTick (s.nTick + 1 + i) < T) →
      (∀ i, i < j → ¬ MarkerVisible w e s i) →
      Returns (fun f => SIM800_WaitFor w f e T s)
          (SIM800_TIMEOUT, { nTick := s.nTick + 2 + j, nRecv := s.nRecv + j, tx := s.tx }) ∧
        ∀ fuel r s1, SIM800_WaitFor w fuel e T s = some (r, s1) →
          r = SIM800_TIMEOUT ∧
            s1 = { nTick := s.nTick + 2 + j, nRecv := s.nRecv + j, tx := s.tx }) ∧
    (∀ fuel s1, SIM800_WaitFor w fuel e T s = some (SIM800_TIMEOUT, s1) →
      ∃ j, (T : Int) ≤ tickElapsed w s.nTick (s.nTick + 1 + j) ∧
        (∀ i, i < j →
          tickElapsed w s.nTick (s.nTick + 1 + i) < T ∧ ¬ MarkerVisible w e s i) ∧
        s1 = { nTick := s.nTick + 2 + j, nRecv := s.nRecv + j, tx := s.tx }) ∧
    ((∀ i, tickElapsed w s.nTick (s.nTick + 1 + i) < T) → (∀ i, ¬ MarkerVisible w e s i) →
      ∀ fuel, SIM800_WaitFor w fuel e T s = none) := by
  refine ⟨fun j hj hmin hno => ?_, fun fuel s1 h => ?_, fun ht hm fuel => ?_⟩
  · have ho : WaitOutcome w e T s SIM800_TIMEOUT (stTimeout s j) := by
      refine ⟨j, fun i hi => ⟨?_, ?_⟩, Or.inl ⟨?_, rfl, rfl⟩⟩
      · have := hmin i hi
        rw [tickElapsed_eq] at this
        exact_mod_cast this
      · have := hno i hi
        rw [markerVisible_iff] at this
        simpa using this
      · rw [tickElapsed_eq] at hj
        exact_mod_cast hj
    refine ⟨waitFor_complete w e T s _ _ ho, fun fuel r s1 h => ?_⟩
    exact waitOutcome_unique _ _ _ _ _ _ _ _ (waitFor_sound _ _ _ _ _ _ _ h) ho
  · obtain ⟨k, hpre, h1 | h1⟩ := waitFor_sound w fuel e T s _ s1 h
    · refine ⟨k, ?_, fun i hi => ⟨?_, ?_⟩, h1.2.2⟩
      · rw [tickElapsed_eq]
        exact_mod_cast h1.1
      · rw [tickElapsed_eq]
        exact_mod_cast (hpre i hi).1
      · rw [markerVisible_iff]
        simp [(hpre i hi).2]
    · exact absurd h1.2.2.1 (by decide)
  · refine waitFor_never w e T s (fun i => ?_) hm fuel
    have := ht i
    rw [tickElapsed_eq] at this
    exact_mod_cast this

/-- C9 (witness): a silent transport whose clock starts 100 ms before the wrap-around of
the 32-bit tick (start tick 4294967196); with a timeout of 1000 ms the loop sees the
elapsed times 300, 600, 900 and 1200 ms, the last computed across the wrap-around from
the tick value 1100, and returns `SIM800_TIMEOUT` at that fourth look at the clock, after
three failed receives.  On the transport whose tick stalls the wait never returns. -/
theorem SIM800_WaitFor_timeout_witness :
    (wWrap.tick 0 = 4294967196 ∧ wWrap.tick 4 % 2 ^ 32 = 1100 ∧
      (List.range 4).map (fun i => tickElapsed wWrap 0 (1 + i)) = [300, 600, 900, 1200]) ∧
    (Returns (fun f => SIM800_WaitFor wWrap f (lit "OK") 1000 st0)
        (SIM800_TIMEOUT, { nTick := st0.nTick + 2 + 3, nRecv := st0.nRecv + 3, tx := st0.tx }) ∧
      ∀ fuel r s1, SIM800_WaitFor wWrap fuel (lit "OK") 1000 st0 = some (r, s1) →
        r = SIM800_TIMEOUT ∧
          s1 = { nTick := st0.nTick + 2 + 3, nRecv := st0.nRecv + 3, tx := st0.tx }) ∧
    SIM800_WaitFor wWrap 4 (lit "OK") 1000 st0 =
      some (SIM800_TIMEOUT, { nTick := 5, nRecv := 3, tx := [] }) ∧
    (∃ j, ((1000 : Nat) : Int) ≤ tickElapsed wWrap st0.nTick (st0.nTick + 1 + j) ∧
        (∀ i, i < j → tickElapsed wWrap st0.nTick (st0.nTick + 1 + i) < (1000 : Nat) ∧
          ¬ MarkerVisible wWrap (lit "OK") st0 i) ∧
        ({ nTick := 5, nRecv := 3, tx := [] } : St) =
          { nTick := st0.nTick + 2 + j, nRecv := st0.nRecv + j, tx := st0.tx }) ∧
    (∀ fuel, SIM800_WaitFor wStall fuel (lit "OK") 1000 st0 = none) :=
  have h1 : ((1000 : Nat) : Int) ≤ tickElapsed wWrap st0.nTick (st0.nTick + 1 + 3) := by
    decide
  have h2 : ∀ i, i < 3 →
      tickElapsed wWrap st0.nTick (st0.nTick + 1 + i) < ((1000 : Nat) : Int) := by
    decide
  have h3 : ∀ i, i < 3 → ¬ MarkerVisible wWrap (lit "OK") st0 i := by
    intro i _ h
    exact absurd h.1 (by simp [recvAt, wWrap])
  have h4 : ∀ i, tickElapsed wStall st0.nTick (st0.nTick + 1 + i) < ((1000 : Nat) : Int) := by
    intro i
    simp [tickElapsed, wStall]
  have h5 : ∀ i, ¬ MarkerVisible wStall (lit "OK") st0 i := by
    intro i h
    exact absurd h.1 (by simp [recvAt, wStall])
  ⟨⟨rfl, by decide, by decide⟩,
    (SIM800_WaitFor_timeout wWrap (lit "OK") 1000 st0).1 3 h1 h2 h3,
    by decide,
    (SIM800_WaitFor_timeout wWrap (lit "OK") 1000 st0).2.1 4 _ (by decide),
    (SIM800_WaitFor_timeout wStall (lit "OK") 1000 st0).2.2 h4 h5⟩

/-- C9 (counterexample to the claim as stated): with 2 ms between two tick reads and a
timeout of 2^32 - 1 ms the elapsed time seen by the loop is always even, hence never
`>= T`; the marker never appears, and the wait does not return `SIM800_TIMEOUT`: it does
not return at all, whatever the number of iterations.  The same on a transport whose tick
stalls, with a timeout of 1000 ms. -/
theorem SIM800_WaitFor_no_deadline_counterexample :
    (∀ n, wStep2.tick (n + 1) = wStep2.tick n + 2) ∧
    (∀ i, ¬ MarkerVisible wStep2 (lit "OK") st0 i) ∧
    (∀ fuel, SIM800_WaitFor wStep2 fuel (lit "OK") 4294967295 st0 = none) ∧
    (∀ i, ¬ MarkerVisible wStall (lit "OK") st0 i) ∧
    (∀ fuel, SIM800_WaitFor wStall fuel (lit "OK") 1000 st0 = none) := by
  have m2 : ∀ i, ¬ MarkerVisible wStep2 (lit "OK") st0 i := by
    intro i h
    exact absurd h.1 (by simp [recvAt, wStep2])
  have m1 : ∀ i, ¬ MarkerVisible wStall (lit "OK") st0 i := by
    intro i h
    exact absurd h.1 (by simp [recvAt, wStall])
  refine ⟨fun n => by simp only [wStep2]; omega, m2, ?_, m1, ?_⟩
  · refine waitFor_never _ _ _ _ (fun i => ?_) m2
    simp only [elapsedAt, elapsed, tickAt, wStep2, st0]
    omega
  · refine waitFor_never _ _ _ _ (fun i => ?_) m1
    simp only [elapsedAt, elapsed, tickAt, wStall]
    omega

end SIM800
